import Mathlib

/-!
# CRM chat relay: shallow embedding and verified properties

Embedding of `demo2/crm-backend/chat-server.js` (the socket relay), of the
parts of `demo2/crm-backend/server.js` that touch the chat tables or issue
credentials, of its middleware (`authenticateToken`, `authorize`), of the
bulk import of users, of the row range of `GET /customers`, of the pipeline routes
(stage changes, statistics, forecast), and of the part of the chat client
(`crm1/src/contexts/ChatContext.jsx`, `crm1/src/pages/Chat.jsx`) that decides
when a chat is started and what the message lists hold.

Conventions of the embedding:

* JavaScript values that flow through the relay untyped (ids, payload fields,
  token claims) are `Val`.
* The hosted store is an explicit state (`Store`); every request a handler
  sends to it is answered from that state, and the environment (`Env`) decides
  whether the request fails, which id a new row receives and what the clocks
  read.  A failed request leaves the store unchanged.
* The socket broker is an explicit state as well: the connected sockets and the
  room membership pairs.
* A handler returns the new state together with the ordered list of things it
  did (`Action`): requests sent to the store, room joins and leaves, and events
  delivered to connections.
* A handler runs from its first line to its last without another handler in
  between; the interleaving of handlers at their `await` points is not modelled.
* A middleware returns the ordered list of what it does with the request
  (`Effect`).
* Numbers of the pipeline routes are rationals, and every operation is the exact
  one followed by a rounding that is a parameter of the definitions: `fl` rounds
  to the nearest double as the program does, `id` is exact arithmetic.
-/

namespace CRM

/-! ## JavaScript values -/

/-- The JavaScript values that reach the relay in payloads, claims and rows. -/
inductive Val where
  | undefined
  | null
  | bool (b : Bool)
  | num (n : Int)
  | str (s : String)
  deriving DecidableEq, Repr, Inhabited

/-- Truthiness as used by `!x` and `a || b`. -/
def Val.truthy : Val → Bool
  | .undefined => false
  | .null => false
  | .bool b => b
  | .num n => n != 0
  | .str s => s != ""

/-- The JavaScript expression `a || b`. -/
def Val.or (a b : Val) : Val := if a.truthy then a else b

/-! ## Rows of the store -/

/-- Row of `customers` as selected by the relay (`id, name, email`). -/
structure Customer where
  id : Val
  name : Val
  email : Val
  deriving DecidableEq, Repr

/-- Row of `users`. -/
structure User where
  id : Val
  name : Val
  email : Val
  password : Val
  role : Val
  deriving DecidableEq, Repr

/-- Row of `chat_sessions`; `customer_data` and `created_by` are the columns
written by `POST /chat/sessions`. -/
structure ChatSession where
  id : Val
  customer_id : Val
  agent_id : Val
  status : String
  created_at : Nat
  updated_at : Nat
  customer_data : Val
  created_by : Val
  deriving DecidableEq, Repr

/-- Row of `chat_messages`. -/
structure ChatMessage where
  id : Val
  chat_id : Val
  sender_id : Val
  content : Val
  created_at : Nat
  deriving DecidableEq, Repr

/-- The tables the relay reads and writes. -/
structure Store where
  users : List User
  customers : List Customer
  chat_sessions : List ChatSession
  chat_messages : List ChatMessage
  deriving DecidableEq, Repr

/-- The columns an `update` on `chat_sessions` may set. -/
structure SessionPatch where
  status : Option String
  updated_at : Option Nat
  deriving DecidableEq, Repr

/-- Requests that the program sends to the store. -/
inductive StoreOp where
  | selectCustomer (id : Val)
  | insertSession (customer_id agent_id : Val) (status : String)
  | selectSession (id : Val)
  | insertMessage (chat_id sender_id content : Val)
  | updateSession (patch : SessionPatch) (id : Val)
  | selectMessages (chat_id : Val)
  | insertQueuedSession (customer_data : Val) (status : String) (created_by : Val)
  deriving DecidableEq, Repr

/-- What the environment contributes to one handler run: whether a request to
the store fails (and with which message), the id the store gives a new row, the
store clock used for column defaults, and the relay clock (`new Date()`). -/
structure Env where
  fault : StoreOp → Option String
  newId : Val
  dbNow : Nat
  now : Nat

/-- The `{ data, error }` answer of a store request. -/
structure Resp (α : Type) where
  data : Option α
  error : Option String
  deriving DecidableEq, Repr

/-- Answer of a request ending in `.single()`: an error unless exactly one row
matches. -/
def single {α : Type} (fault : Option String) (rows : List α) : Resp α :=
  match fault with
  | some e => ⟨none, some e⟩
  | none =>
    match rows with
    | [r] => ⟨some r, none⟩
    | _ => ⟨none, some "JSON object requested, multiple (or no) rows returned"⟩

/-- Answer of `from('customers').select('id, name, email').eq('id', id).single()`. -/
def Store.selectCustomer (st : Store) (id : Val) (fault : Option String) : Resp Customer :=
  single fault (st.customers.filter (fun c => c.id = id))

/-- Answer of `from('chat_sessions').select('*').eq('id', id).single()`. -/
def Store.selectSession (st : Store) (id : Val) (fault : Option String) : Resp ChatSession :=
  single fault (st.chat_sessions.filter (fun c => c.id = id))

/-- The session row the store builds for the relay's insert
`{ customer_id, agent_id, status }`. -/
def newSession (env : Env) (customer_id agent_id : Val) (status : String) : ChatSession :=
  { id := env.newId, customer_id := customer_id, agent_id := agent_id, status := status,
    created_at := env.dbNow, updated_at := env.dbNow,
    customer_data := Val.null, created_by := Val.null }

/-- Effect and answer of `from('chat_sessions').insert(row).select(...).single()`. -/
def Store.insertSession (st : Store) (row : ChatSession) (fault : Option String) :
    Store × Resp ChatSession :=
  match fault with
  | some e => (st, ⟨none, some e⟩)
  | none => ({ st with chat_sessions := st.chat_sessions ++ [row] }, ⟨some row, none⟩)

/-- The columns of `users` embedded in a message as `sender`. -/
structure Sender where
  id : Val
  name : Val
  email : Val
  deriving DecidableEq, Repr

/-- A message row as selected with `*, sender:users(id, name, email)`. -/
structure HydratedMessage where
  row : ChatMessage
  sender : Option Sender
  deriving DecidableEq, Repr

/-- The embedded `sender` of a message row. -/
def Store.hydrate (st : Store) (m : ChatMessage) : HydratedMessage :=
  { row := m,
    sender := (st.users.find? (fun u => u.id = m.sender_id)).map
      (fun u => { id := u.id, name := u.name, email := u.email }) }

/-- The message row the store builds for `{ chat_id, sender_id, content }`. -/
def newMessage (env : Env) (chat_id sender_id content : Val) : ChatMessage :=
  { id := env.newId, chat_id := chat_id, sender_id := sender_id, content := content,
    created_at := env.dbNow }

/-- Effect and answer of `from('chat_messages').insert([row]).select(...).single()`. -/
def Store.insertMessage (st : Store) (row : ChatMessage) (fault : Option String) :
    Store × Resp HydratedMessage :=
  match fault with
  | some e => (st, ⟨none, some e⟩)
  | none => ({ st with chat_messages := st.chat_messages ++ [row] }, ⟨some (st.hydrate row), none⟩)

/-- One row after `update(patch)`. -/
def SessionPatch.apply (p : SessionPatch) (c : ChatSession) : ChatSession :=
  { c with status := p.status.getD c.status, updated_at := p.updated_at.getD c.updated_at }

/-- Effect and answer of `from('chat_sessions').update(patch).eq('id', id)`: every
row whose id matches is patched; matching no row is not an error. -/
def Store.updateSession (st : Store) (p : SessionPatch) (id : Val) (fault : Option String) :
    Store × Option String :=
  match fault with
  | some e => (st, some e)
  | none =>
    ({ st with chat_sessions :=
        st.chat_sessions.map (fun c => if c.id = id then p.apply c else c) }, none)

/-- Insert `m` into a list ordered by `created_at`, after the rows that are not
later than it. -/
def insertByCreated (m : ChatMessage) : List ChatMessage → List ChatMessage
  | [] => [m]
  | x :: xs => if x.created_at ≤ m.created_at then x :: insertByCreated m xs else m :: x :: xs

/-- Rows in ascending `created_at` order; rows with equal stamps keep their
insertion order. -/
def orderByCreated (ms : List ChatMessage) : List ChatMessage :=
  ms.foldl (fun acc m => insertByCreated m acc) []

/-- Answer of
`from('chat_messages').select(...).eq('chat_id', id).order('created_at', ascending)`. -/
def Store.selectMessages (st : Store) (chat_id : Val) (fault : Option String) :
    Resp (List HydratedMessage) :=
  match fault with
  | some e => ⟨none, some e⟩
  | none =>
    ⟨some ((orderByCreated (st.chat_messages.filter (fun m => m.chat_id = chat_id))).map
      st.hydrate), none⟩

/-! ## The socket broker -/

/-- The value the authentication middleware stores in `socket.user`. -/
structure SocketUser where
  userId : Val
  email : Val
  deriving DecidableEq, Repr

/-- Events the relay sends to clients. -/
inductive ServerEvent where
  | chat_started (id customer_id agent_id : Val) (status : String) (created_at : Nat)
      (customer : Option Customer)
  | message (m : Option HydratedMessage)
  | chat_history (chatId : Val) (messages : List HydratedMessage)
  | chat_closed (chatId : Val)
  | error (message details : String)
  | chat_queued (session : ChatSession)
  deriving DecidableEq, Repr

/-- What a handler does, in order.  `refuse` is the middleware passing an error
to `next`, which ends the handshake. -/
inductive Action where
  | refuse (sid : String) (reason : String)
  | query (op : StoreOp)
  | join (sid : String) (room : Val)
  | leave (sid : String) (room : Val)
  | emit (sid : String) (ev : ServerEvent)
  deriving DecidableEq, Repr

/-- State of the relay process and of the store behind it.  `sockets` are the
connected sockets (those that passed the middleware and have their handlers
registered); `rooms` holds the pairs (room, socket id) of the adapter. -/
structure State where
  store : Store
  sockets : List (String × SocketUser)
  rooms : List (Val × String)
  deriving DecidableEq, Repr

/-- Result of running a handler. -/
structure Outcome where
  state : State
  trace : List Action
  deriving DecidableEq, Repr

/-- Socket ids currently in `room`, in join order. -/
def members (rooms : List (Val × String)) (room : Val) : List String :=
  (rooms.filter (fun p => p.1 = room)).map (fun p => p.2)

/-- Effect of `socket.join(room)` for socket `sid`. -/
def joinRoom (rooms : List (Val × String)) (room : Val) (sid : String) : List (Val × String) :=
  if (room, sid) ∈ rooms then rooms else rooms ++ [(room, sid)]

/-- Effect of `socket.leave(room)` for socket `sid`. -/
def leaveRoom (rooms : List (Val × String)) (room : Val) (sid : String) : List (Val × String) :=
  rooms.filter (fun p => ¬ (p = (room, sid)))

/-- Deliveries of `io.to(room).emit(ev)`. -/
def broadcast (rooms : List (Val × String)) (room : Val) (ev : ServerEvent) : List Action :=
  (members rooms room).map (fun sid => Action.emit sid ev)

/-- Events delivered to socket `sid` in a trace. -/
def delivered (sid : String) (tr : List Action) : List ServerEvent :=
  tr.filterMap (fun a => match a with
    | .emit t ev => if t = sid then some ev else none
    | _ => none)

/-- Requests sent to the store in a trace. -/
def queries (tr : List Action) : List StoreOp :=
  tr.filterMap (fun a => match a with
    | .query op => some op
    | _ => none)

/-! ## Credentials -/

/-- The claims of a decoded token that the program reads. -/
structure Claims where
  sub : Val
  user_id : Val
  userId : Val
  email : Val
  role : Val
  deriving DecidableEq, Repr

/-- The library functions the program calls with the shared secret:
`jwtVerify t` is `jwt.verify(t, JWT_SECRET)` (`none` when it throws),
`jwtSign p` is `jwt.sign(p, JWT_SECRET, expiresIn 24h)`, and the two `bcrypt`
functions. -/
structure Lib where
  jwtVerify : Val → Option Claims
  jwtSign : Claims → Val
  bcryptHash : Val → Val
  bcryptCompare : Val → Val → Bool

/-- The `io.use` middleware: the error passed to `next`, or the value stored in
`socket.user`. -/
def authMiddleware (lib : Lib) (token : Val) : Except String SocketUser :=
  if !token.truthy then
    .error "Authentication token required"
  else
    match lib.jwtVerify token with
    | none => .error "Invalid authentication token"
    | some decoded =>
      .ok { userId := (decoded.sub.or decoded.user_id).or decoded.userId, email := decoded.email }

/-! ## The relay handlers -/

/-- Handler of `start_chat`. -/
def start_chat (s : State) (sid : String) (user : SocketUser) (customerId : Val) (env : Env) :
    Outcome :=
  let q1 := StoreOp.selectCustomer customerId
  let r1 := s.store.selectCustomer customerId (env.fault q1)
  if r1.error.isSome || r1.data.isNone then
    ⟨s, [.query q1,
      .emit sid (.error ("Failed to start chat: " ++ "Customer not found") "Customer not found")]⟩
  else
    let q2 := StoreOp.insertSession customerId user.userId "active"
    let r2 := s.store.insertSession (newSession env customerId user.userId "active") (env.fault q2)
    match r2.2.error with
    | some e =>
      ⟨{ s with store := r2.1 }, [.query q1, .query q2,
        .emit sid (.error ("Failed to start chat: " ++ ("Failed to create chat session: " ++ e))
          ("Failed to create chat session: " ++ e))]⟩
    | none =>
      match r2.2.data with
      | none =>
        ⟨{ s with store := r2.1 }, [.query q1, .query q2,
          .emit sid (.error ("Failed to start chat: " ++ "Cannot read properties of null")
            "Cannot read properties of null")]⟩
      | some chat =>
        ⟨{ s with store := r2.1, rooms := joinRoom s.rooms chat.id sid },
          [.query q1, .query q2, .join sid chat.id,
            .emit sid (.chat_started chat.id chat.customer_id chat.agent_id chat.status
              chat.created_at (r2.1.customers.find? (fun c => c.id = chat.customer_id)))]⟩

/-- Handler of `message`. -/
def message (s : State) (sid : String) (user : SocketUser) (chatId content : Val) (env : Env) :
    Outcome :=
  let q1 := StoreOp.selectSession chatId
  let r1 := s.store.selectSession chatId (env.fault q1)
  match r1.error with
  | some _ =>
    ⟨s, [.query q1,
      .emit sid (.error ("Failed to send message: " ++ "Chat not found or access denied")
        "Chat not found or access denied")]⟩
  | none =>
    let q2 := StoreOp.insertMessage chatId user.userId content
    let r2 := s.store.insertMessage (newMessage env chatId user.userId content) (env.fault q2)
    match r2.2.error with
    | some e =>
      ⟨{ s with store := r2.1 }, [.query q1, .query q2,
        .emit sid (.error ("Failed to send message: " ++ e) e)]⟩
    | none =>
      let q3 := StoreOp.updateSession ⟨none, some env.now⟩ chatId
      let r3 := r2.1.updateSession ⟨none, some env.now⟩ chatId (env.fault q3)
      ⟨{ s with store := r3.1 },
        [.query q1, .query q2] ++ broadcast s.rooms chatId (.message r2.2.data) ++ [.query q3]⟩

/-- Handler of `fetch_chat_history`. -/
def fetch_chat_history (s : State) (sid : String) (chatId : Val) (env : Env) : Outcome :=
  let q := StoreOp.selectMessages chatId
  let r := s.store.selectMessages chatId (env.fault q)
  match r.error with
  | some e => ⟨s, [.query q, .emit sid (.error ("Failed to fetch chat history: " ++ e) e)]⟩
  | none =>
    match r.data with
    | none =>
      ⟨s, [.query q,
        .emit sid (.error ("Failed to fetch chat history: " ++ "Cannot read properties of null")
          "Cannot read properties of null")]⟩
    | some messages => ⟨s, [.query q, .emit sid (.chat_history chatId messages)]⟩

/-- The loop `for (const clientId of room) io.sockets.sockets.get(clientId).leave(chatId)`:
the rooms afterwards, the leaves done, and the error thrown when a member is not
a connected socket. -/
def evict (sockets : List (String × SocketUser)) (room : Val) :
    List String → List (Val × String) → List (Val × String) × List Action × Option String
  | [], rooms => (rooms, [], none)
  | c :: cs, rooms =>
    if sockets.any (fun p => p.1 = c) then
      let r := evict sockets room cs (leaveRoom rooms room c)
      (r.1, Action.leave c room :: r.2.1, r.2.2)
    else
      (rooms, [], some "Cannot read properties of undefined")

/-- Handler of `close_chat`. -/
def close_chat (s : State) (sid : String) (chatId : Val) (env : Env) : Outcome :=
  let q := StoreOp.updateSession ⟨some "closed", some env.now⟩ chatId
  let r := s.store.updateSession ⟨some "closed", some env.now⟩ chatId (env.fault q)
  match r.2 with
  | some e =>
    ⟨{ s with store := r.1 }, [.query q, .emit sid (.error ("Failed to close chat: " ++ e) e)]⟩
  | none =>
    let ev := evict s.sockets chatId (members s.rooms chatId) s.rooms
    let done := [Action.query q] ++ broadcast s.rooms chatId (.chat_closed chatId) ++ ev.2.1
    match ev.2.2 with
    | some e =>
      ⟨{ s with store := r.1, rooms := ev.1 },
        done ++ [.emit sid (.error ("Failed to close chat: " ++ e) e)]⟩
    | none => ⟨{ s with store := r.1, rooms := ev.1 }, done⟩

/-! ## Connections -/

/-- A connection attempt with handshake credential `token`.  When the middleware
passes, socket.io connects the socket (which puts it in the room named by its own
id) and the `connection` handler joins it to the room of its user id and
registers the event handlers.  Socket ids are fresh: an id that is already
connected is not a possible input and is ignored. -/
def connect (lib : Lib) (s : State) (sid : String) (token : Val) : Outcome :=
  if s.sockets.any (fun p => p.1 = sid) then ⟨s, []⟩
  else
    match authMiddleware lib token with
    | .error e => ⟨s, [.refuse sid e]⟩
    | .ok user =>
      ⟨{ s with sockets := s.sockets ++ [(sid, user)],
                rooms := joinRoom (joinRoom s.rooms (.str sid) sid) user.userId sid },
        [.join sid (.str sid), .join sid user.userId]⟩

/-- A socket disconnects: socket.io drops it from every room and from the
connected sockets; the `disconnect` handler only logs. -/
def disconnect (s : State) (sid : String) : Outcome :=
  ⟨{ s with sockets := s.sockets.filter (fun p => ¬ (p.1 = sid)),
            rooms := s.rooms.filter (fun p => ¬ (p.2 = sid)) }, []⟩

/-- Events a client can send.  The relay registers no listener for
`typing_start` and `typing_stop`. -/
inductive ClientEvent where
  | start_chat (customerId : Val)
  | message (chatId content : Val)
  | fetch_chat_history (chatId : Val)
  | close_chat (chatId : Val)
  | typing_start (userId : Val)
  | typing_stop (userId : Val)
  deriving DecidableEq, Repr

/-- Dispatch of a client event to the listener registered for it on the socket;
an event without a listener, or from a socket that is not connected, does
nothing. -/
def onEvent (s : State) (sid : String) (ev : ClientEvent) (env : Env) : Outcome :=
  match s.sockets.find? (fun p => p.1 = sid) with
  | none => ⟨s, []⟩
  | some p =>
    match ev with
    | .start_chat customerId => start_chat s sid p.2 customerId env
    | .message chatId content => message s sid p.2 chatId content env
    | .fetch_chat_history chatId => fetch_chat_history s sid chatId env
    | .close_chat chatId => close_chat s sid chatId env
    | .typing_start _ => ⟨s, []⟩
    | .typing_stop _ => ⟨s, []⟩

/-! ## The HTTP side -/

/-- The JavaScript `chars.split(' ')` on the characters of a string. -/
def splitSpaces : List Char → List (List Char)
  | [] => [[]]
  | c :: cs =>
    match splitSpaces cs with
    | [] => [[c]]
    | w :: ws => if c = ' ' then [] :: w :: ws else (c :: w) :: ws

/-- The expression `req.headers['authorization']?.split(' ')[1]`. -/
def bearerToken (authorization : Option String) : Option String :=
  match authorization with
  | none => none
  | some h => ((splitSpaces h.data).map String.mk)[1]?

/-- The body of an HTTP response. -/
inductive HttpBody where
  | error (message : String)
  | token (t : Val)
  | session (row : ChatSession)
  deriving DecidableEq, Repr

/-- An HTTP response. -/
structure HttpResponse where
  status : Nat
  body : HttpBody
  deriving DecidableEq, Repr

/-- The middleware `authenticateToken`: the response it sends itself, or the
value it stores in `req.user` before calling `next`. -/
def authenticateToken (lib : Lib) (authorization : Option String) : Except HttpResponse Claims :=
  match bearerToken authorization with
  | none => .error ⟨401, .error "Authentication required"⟩
  | some token =>
    if token = "" then .error ⟨401, .error "Authentication required"⟩
    else
      match lib.jwtVerify (.str token) with
      | none => .error ⟨403, .error "Invalid token"⟩
      | some payload => .ok payload

/-- The row the store builds for the insert of `POST /chat/sessions`. -/
def newQueuedSession (env : Env) (customer_data : Val) (status : String) (created_by : Val) :
    ChatSession :=
  { id := env.newId, customer_id := Val.null, agent_id := Val.null, status := status,
    created_at := env.dbNow, updated_at := env.dbNow,
    customer_data := customer_data, created_by := created_by }

/-- Route `POST /chat/sessions`. -/
def postChatSessions (lib : Lib) (s : State) (authorization : Option String)
    (customer_data : Val) (env : Env) : Outcome × HttpResponse :=
  match authenticateToken lib authorization with
  | .error resp => (⟨s, []⟩, resp)
  | .ok user =>
    let q := StoreOp.insertQueuedSession customer_data "pending" user.userId
    let r := s.store.insertSession (newQueuedSession env customer_data "pending" user.userId)
      (env.fault q)
    match r.2.error with
    | some e => (⟨{ s with store := r.1 }, [.query q]⟩, ⟨500, .error e⟩)
    | none =>
      match r.2.data with
      | none => (⟨{ s with store := r.1 }, [.query q]⟩, ⟨500, .error "session is null"⟩)
      | some session =>
        (⟨{ s with store := r.1 },
          [Action.query q] ++ s.sockets.map (fun p => Action.emit p.1 (.chat_queued session))⟩,
          ⟨201, .session session⟩)

/-- The payload `{ userId, email, role }` that login and registration sign. -/
def issuedPayload (id email role : Val) : Claims :=
  { sub := .undefined, user_id := .undefined, userId := id, email := email, role := role }

/-- Route `POST /auth/login`: the response for the request body `{ email, password }`. -/
def authLogin (lib : Lib) (st : Store) (email password : Val) (fault : Option String) :
    HttpResponse :=
  let r := single fault (st.users.filter (fun u => u.email = email))
  match r.error, r.data with
  | none, some data =>
    if lib.bcryptCompare password data.password then
      ⟨200, .token (lib.jwtSign (issuedPayload data.id data.email data.role))⟩
    else ⟨401, .error "Invalid credentials"⟩
  | _, _ => ⟨401, .error "Invalid credentials"⟩

/-- Route `POST /auth/register`: the store afterwards and the response for the
request body `{ email, password, role }`; the store gives the new user the id
`env.newId`. -/
def authRegister (lib : Lib) (st : Store) (email password role : Val) (env : Env)
    (fault : Option String) : Store × HttpResponse :=
  if ¬ (role = .str "admin" ∨ role = .str "manager" ∨ role = .str "agent") then
    (st, ⟨400, .error "Invalid role"⟩)
  else
    match fault with
    | some e => (st, ⟨500, .error e⟩)
    | none =>
      let u : User := { id := env.newId, name := .null, email := email,
                        password := lib.bcryptHash password, role := role }
      ({ st with users := st.users ++ [u] },
        ⟨201, .token (lib.jwtSign (issuedPayload u.id u.email u.role))⟩)

/-! ## The whole program as a transition system -/

/-- Everything that can happen to the process.  `otherRoute` stands for every
HTTP route other than `POST /chat/sessions`: none of them inserts, updates or
deletes rows of `chat_sessions` or `chat_messages`; what they do to `users` and
`customers` is left arbitrary. -/
inductive Input where
  | connect (sid : String) (token : Val)
  | event (sid : String) (ev : ClientEvent)
  | disconnect (sid : String)
  | postChatSessions (authorization : Option String) (customer_data : Val)
  | otherRoute (users : List User) (customers : List Customer)
  deriving DecidableEq, Repr

/-- One transition. -/
def step (lib : Lib) (s : State) (inp : Input) (env : Env) : Outcome :=
  match inp with
  | .connect sid token => connect lib s sid token
  | .event sid ev => onEvent s sid ev env
  | .disconnect sid => disconnect s sid
  | .postChatSessions authorization customer_data =>
    (postChatSessions lib s authorization customer_data env).1
  | .otherRoute users customers =>
    ⟨{ s with store := { s.store with users := users, customers := customers } }, []⟩

/-- A sequence of transitions; the trace is the concatenation of the traces. -/
def run (lib : Lib) (s : State) : List (Input × Env) → Outcome
  | [] => ⟨s, []⟩
  | (inp, env) :: rest =>
    let o := step lib s inp env
    let o2 := run lib o.state rest
    ⟨o2.state, o.trace ++ o2.trace⟩

/-- The process right after start: no socket is connected and no room exists. -/
def boot (store : Store) : State := ⟨store, [], []⟩

/-- The room a broadcast event is addressed to: the chat id of a `message` row or
of `chat_closed`; the other events are sent to one connection. -/
def ServerEvent.target : ServerEvent → Option Val
  | .message (some m) => some m.row.chat_id
  | .chat_closed chatId => some chatId
  | _ => none

/-- The first truthy value of a list, in the words of the specification. -/
def firstTruthy (vs : List Val) : Option Val := vs.find? Val.truthy

/-- The library signs `p` into a credential that is present and that verifies
against the shared secret, decoding to the claims that were signed. -/
def SignedVerifies (lib : Lib) (p : Claims) : Prop :=
  (lib.jwtSign p).truthy = true ∧ lib.jwtVerify (lib.jwtSign p) = some p

/-! ## Predicates on states -/

/-- A socket id is connected: it passed the middleware and has its handlers. -/
def Connected (s : State) (c : String) : Prop := s.sockets.any (fun p => p.1 = c) = true

/-- The broker only keeps connected sockets in rooms. -/
def RoomsConnected (s : State) : Prop := ∀ p ∈ s.rooms, Connected s p.2

/-- The session id an event carries in its payload, if any. -/
def ServerEvent.about : ServerEvent → Option Val
  | .chat_started id _ _ _ _ _ => some id
  | .message (some m) => some m.row.chat_id
  | .message none => none
  | .chat_history chatId _ => some chatId
  | .chat_closed chatId => some chatId
  | .error _ _ => none
  | .chat_queued session => some session.id

/-- A handshake credential the middleware does not accept: it is missing (falsy)
or `jwt.verify` throws on it (malformed, expired, or wrongly signed). -/
def InvalidCredential (lib : Lib) (token : Val) : Prop :=
  token.truthy = false ∨ lib.jwtVerify token = none

/-- Neither connected nor in any room. -/
def Absent (s : State) (sid : String) : Prop :=
  ¬ Connected s sid ∧ ∀ p ∈ s.rooms, p.2 ≠ sid

/-! ## A small concrete instance -/

/-- Claims of the one token `"good"` that `demoLib` accepts. -/
def demoClaims : Claims :=
  { sub := .undefined, user_id := .undefined, userId := .str "A1", email := .str "ann@x",
    role := .str "agent" }

/-- A library instance: only the token `"good"` verifies, and it is the token
that signing returns. -/
def demoLib : Lib :=
  { jwtVerify := fun t => if t = .str "good" then some demoClaims else none,
    jwtSign := fun _ => .str "good",
    bcryptHash := fun v => v,
    bcryptCompare := fun a b => decide (a = b) }

/-- A store with one agent and one customer and no chats. -/
def demoStore : Store :=
  { users := [⟨.str "A1", .str "Ann", .str "ann@x", .str "pw", .str "agent"⟩],
    customers := [⟨.str "C1", .str "Carl", .str "carl@x"⟩],
    chat_sessions := [],
    chat_messages := [] }

/-- An environment in which no request fails and new rows get the id `id`. -/
def demoEnv (id : String) (t : Nat) : Env :=
  { fault := fun _ => none, newId := .str id, dbNow := t, now := t }

/-- The agent of `demoStore` as a socket user. -/
def demoUser : SocketUser := { userId := .str "A1", email := .str "ann@x" }

/-- The agent connects on socket `k1` and starts a chat with the customer. -/
def demoInputs : List (Input × Env) :=
  [(.connect "k1" (.str "good"), demoEnv "x" 1),
   (.event "k1" (.start_chat (.str "C1")), demoEnv "S1" 2)]

/-- A forged credential is presented on socket `bad`, which then tries to start a
chat; the agent connects on `k1` and starts a chat. -/
def intruderInputs : List (Input × Env) :=
  [(.connect "bad" (.str "forged"), demoEnv "x" 1),
   (.event "bad" (.start_chat (.str "C1")), demoEnv "S0" 2),
   (.connect "k1" (.str "good"), demoEnv "x" 3),
   (.event "k1" (.start_chat (.str "C1")), demoEnv "S1" 4),
   (.event "k1" (.message (.str "S1") (.str "Hello")), demoEnv "M1" 5)]

/-- A customer-side request queues a chat over HTTP; the agent then connects and
closes that chat. -/
def queueInputs : List (Input × Env) :=
  [(.postChatSessions (some "Bearer good") (.str "walk-in"), demoEnv "P1" 1),
   (.connect "k1" (.str "good"), demoEnv "x" 2)]

/-- The statuses the program writes. -/
def WrittenStatus (st : String) : Prop := st = "active" ∨ st = "closed" ∨ st = "pending"

/-- How the `chat_sessions` table can differ after some transitions: every old
row is still there, at its place and with its id, with its status either kept or
set to `closed`, and the rows behind them are new, with a status the program
writes. -/
def Evolves (before after : List ChatSession) : Prop :=
  ∃ (g : ChatSession → ChatSession) (extra : List ChatSession),
    after = before.map g ++ extra ∧
    (∀ c, (g c).id = c.id ∧ ((g c).status = c.status ∨ (g c).status = "closed")) ∧
    ∀ c ∈ extra, WrittenStatus c.status

/-- An environment in which the store refuses every insert and answers every
other request. -/
def refusingEnv (id : String) (t : Nat) : Env :=
  { fault := fun op =>
      match op with
      | .insertSession _ _ _ => some "insert refused"
      | .insertMessage _ _ _ => some "insert refused"
      | _ => none,
    newId := .str id, dbNow := t, now := t }

/-! ## Raw payloads -/

/-- The argument a client sends with an event: any value (`undefined` when it
sends none), or an object with its properties. -/
inductive Payload where
  | value (v : Val)
  | object (fields : List (String × Val))
  deriving DecidableEq, Repr

/-- The parameter pattern `({ name })` of a listener applied to the argument: a
`TypeError` for `undefined` and for `null`, otherwise the property, which is
`undefined` when the argument has none of that name. -/
def Payload.destructure (p : Payload) (name : String) : Except String Val :=
  match p with
  | .value .undefined => .error "TypeError: Cannot destructure property of undefined"
  | .value .null => .error "TypeError: Cannot destructure property of null"
  | .value _ => .ok .undefined
  | .object fields => .ok ((fields.lookup name).getD .undefined)

/-- What the promise returned by an `async` listener settles to. -/
inductive Settled where
  | fulfilled (o : Outcome)
  | rejected (reason : String)
  deriving DecidableEq, Repr

/-- The listener `socket.on('start_chat', async ({ customerId }) => ...)`: the
parameter pattern is applied before the `try` of the body is entered. -/
def start_chat_listener (s : State) (sid : String) (user : SocketUser) (payload : Payload)
    (env : Env) : Settled :=
  match payload.destructure "customerId" with
  | .error e => .rejected e
  | .ok customerId => .fulfilled (start_chat s sid user customerId env)

/-- The listener `socket.on('message', async ({ chatId, content }) => ...)`. -/
def message_listener (s : State) (sid : String) (user : SocketUser) (payload : Payload)
    (env : Env) : Settled :=
  match payload.destructure "chatId", payload.destructure "content" with
  | .ok chatId, .ok content => .fulfilled (message s sid user chatId content env)
  | .error e, _ => .rejected e
  | _, .error e => .rejected e

/-- The listener `socket.on('fetch_chat_history', async ({ chatId }) => ...)`. -/
def fetch_chat_history_listener (s : State) (sid : String) (payload : Payload) (env : Env) :
    Settled :=
  match payload.destructure "chatId" with
  | .error e => .rejected e
  | .ok chatId => .fulfilled (fetch_chat_history s sid chatId env)

/-- The listener `socket.on('close_chat', async ({ chatId }) => ...)`. -/
def close_chat_listener (s : State) (sid : String) (payload : Payload) (env : Env) : Settled :=
  match payload.destructure "chatId" with
  | .error e => .rejected e
  | .ok chatId => .fulfilled (close_chat s sid chatId env)

/-- The error events in a settled listener call: none when the promise is
rejected. -/
def Settled.errors : Settled → List Action
  | .fulfilled o => o.trace.filter (fun a => match a with
      | .emit _ (.error _ _) => true
      | _ => false)
  | .rejected _ => []

/-! ## The chat client -/

/-- A chat as the client keeps it: the payload of `chat_started`. -/
structure ActiveChat where
  id : Val
  customer_id : Val
  agent_id : Val
  status : String
  created_at : Nat
  customer : Option Customer
  deriving DecidableEq, Repr

/-- The state of `ChatProvider` and of the `Chat` page that starting a chat reads
and writes; `connected` is `socket?.connected`. -/
structure ClientState where
  connected : Bool
  activeChats : List ActiveChat
  selectedChat : Option ActiveChat
  error : Option String
  deriving DecidableEq, Repr

/-- The listeners of `ChatProvider` for server events, on this state. -/
def onServerEvent (st : ClientState) : ServerEvent → ClientState
  | .chat_started id customer_id agent_id status created_at customer =>
    if st.activeChats.any (fun c => c.id = id) then st
    else { st with activeChats :=
      st.activeChats ++ [⟨id, customer_id, agent_id, status, created_at, customer⟩] }
  | .chat_closed chatId =>
    { st with activeChats := st.activeChats.filter (fun chat => ¬ (chat.id = chatId)) }
  | .error message _ =>
    { st with error := some (if message = "" then "An unknown error occurred" else message) }
  | _ => st

/-- The function `startChat` of `ChatProvider`: the state and the events sent. -/
def startChat (st : ClientState) (customerId : Val) : ClientState × List ClientEvent :=
  if !st.connected then ({ st with error := some "Not connected to chat server" }, [])
  else (st, [.start_chat customerId])

/-- The function `fetchChatHistory` of `ChatProvider`. -/
def fetchChatHistory (st : ClientState) (chatId : Val) : ClientState × List ClientEvent :=
  if !st.connected then ({ st with error := some "Not connected to chat server" }, [])
  else (st, [.fetch_chat_history chatId])

/-- The function `handleCustomerSelect` of the `Chat` page. -/
def handleCustomerSelect (st : ClientState) (customer : Customer) :
    ClientState × List ClientEvent :=
  match st.activeChats.find? (fun chat => chat.customer_id = customer.id) with
  | some existingChat =>
    fetchChatHistory { st with selectedChat := some existingChat } existingChat.id
  | none => startChat st customer.id

/-- What happens to the client: the user selects a customer, a server event
arrives, or the socket connects or disconnects. -/
inductive ClientInput where
  | select (customer : Customer)
  | server (ev : ServerEvent)
  | connected
  | disconnected
  deriving DecidableEq, Repr

/-- One transition of the client: the state and the events sent. -/
def clientStep (st : ClientState) : ClientInput → ClientState × List ClientEvent
  | .select customer => handleCustomerSelect st customer
  | .server ev => (onServerEvent st ev, [])
  | .connected => ({ st with connected := true, error := none }, [])
  | .disconnected => ({ st with connected := false }, [])

/-- A sequence of transitions of the client, with all events sent. -/
def clientRun (st : ClientState) : List ClientInput → ClientState × List ClientEvent
  | [] => (st, [])
  | inp :: rest =>
    let r := clientStep st inp
    let r2 := clientRun r.1 rest
    (r2.1, r.2 ++ r2.2)

/-- The events a client sent on socket `sid`, as inputs of the relay, each with
the environment it meets. -/
def feed (sid : String) (evs : List ClientEvent) (envs : List Env) : List (Input × Env) :=
  List.zipWith (fun ev env => (Input.event sid ev, env)) evs envs

/-- A connected client that has no chat yet. -/
def freshClient : ClientState := ⟨true, [], none, none⟩

/-- The customer of `demoStore` as the client lists it. -/
def carl : Customer := ⟨.str "C1", .str "Carl", .str "carl@x"⟩

/-- The input is a `message` event of some socket. -/
def IsMessageEvent (inp : Input) : Prop :=
  ∃ sid chatId content, inp = .event sid (.message chatId content)

/-- The input is one of the HTTP routes that may write `users` or `customers`. -/
def IsOtherRoute (inp : Input) : Prop :=
  ∃ users customers, inp = .otherRoute users customers

/-- A message row with the record of who sent it blanked. -/
def ChatMessage.unsigned (m : ChatMessage) : ChatMessage := { m with sender_id := .null }

/-- An event with the sender of the message it carries blanked. -/
def ServerEvent.unsigned : ServerEvent → ServerEvent
  | .message (some m) => .message (some ⟨m.row.unsigned, none⟩)
  | ev => ev

/-- The room broadcasts of a trace, in order: the recipient and the event of
every emit whose event is addressed to a room. -/
def roomEmits (tr : List Action) : List (String × ServerEvent) :=
  tr.filterMap (fun a => match a with
    | .emit c ev => if ev.target.isSome then some (c, ev) else none
    | _ => none)

/-- The replies of a trace, in order: the events emitted to one connection (not to
a room), without the recipient. -/
def replies (tr : List Action) : List ServerEvent :=
  tr.filterMap (fun a => match a with
    | .emit _ ev => if ev.target.isSome then none else some ev
    | _ => none)

/-- A second subject, who is no agent of any session, as a socket user. -/
def outsider : SocketUser := { userId := .str "B2", email := .str "bob@x" }

/-! ## The HTTP middleware -/

/-- What a middleware does with a request, in order: it stores a value in
`req.user`, calls `next()`, sends a response, or lets an exception escape. -/
inductive Effect where
  | setUser (payload : Claims)
  | next
  | respond (r : HttpResponse)
  | throws (e : String)
  deriving DecidableEq, Repr

/-- The middleware `authenticateToken` with everything it does.  `nextThrows` says
what the call `next()` does when it is reached: it returns (`none`) or throws
(`some e`); the call stands inside the `try`, so an exception of `next` is caught
like one of `jwt.verify`. -/
def authenticateTokenRun (lib : Lib) (authorization : Option String)
    (nextThrows : Option String) : List Effect :=
  match bearerToken authorization with
  | none => [.respond ⟨401, .error "Authentication required"⟩]
  | some token =>
    if token = "" then [.respond ⟨401, .error "Authentication required"⟩]
    else
      match lib.jwtVerify (.str token) with
      | none => [.respond ⟨403, .error "Invalid token"⟩]
      | some payload =>
        match nextThrows with
        | none => [.setUser payload, .next]
        | some _ => [.setUser payload, .next, .respond ⟨403, .error "Invalid token"⟩]

/-- The values of `ROLES`. -/
def ROLES : List Val := [.str "admin", .str "manager", .str "agent"]

/-- The values of `PERMISSIONS`, in the order of `Object.values(PERMISSIONS)`. -/
def PERMISSIONS : List Val :=
  [.str "create_user", .str "read_user", .str "update_user", .str "delete_user",
   .str "create_customer", .str "read_customer", .str "update_customer", .str "delete_customer",
   .str "create_campaign", .str "read_campaign", .str "update_campaign", .str "delete_campaign",
   .str "assign_customer"]

/-- The lookup `rolePermissions[role]`: `none` when it is not an array (the role
is not one of the three keys). -/
def rolePermissions (role : Val) : Option (List Val) :=
  if role = .str "admin" then some PERMISSIONS
  else if role = .str "manager" then
    some [.str "read_user", .str "create_customer", .str "read_customer", .str "update_customer",
          .str "create_campaign", .str "read_campaign", .str "update_campaign",
          .str "assign_customer"]
  else if role = .str "agent" then
    some [.str "read_customer", .str "update_customer", .str "read_campaign"]
  else none

/-- The loop of `requiredPermissions.every(p => rolePermissions[role].includes(p))`:
`some b` is its value, `none` a `TypeError` from calling `includes` on something
that is no array, which happens at the first element. -/
def everyIncluded (perms : Option (List Val)) : List Val → Option Bool
  | [] => some true
  | p :: ps =>
    match perms with
    | none => none
    | some l => if p ∈ l then everyIncluded perms ps else some false

/-- The middleware `authorize(requiredPermissions)` on a request whose `req.user`
is `user`. -/
def authorize (requiredPermissions : List Val) (user : Claims) : List Effect :=
  match everyIncluded (rolePermissions user.role) requiredPermissions with
  | none => [.throws "TypeError: Cannot read properties of undefined (reading 'includes')"]
  | some hasAllPermissions =>
    if !hasAllPermissions then [.respond ⟨403, .error "Insufficient permissions"⟩]
    else [.next]

/-- A token payload with the given role. -/
def demoRole (role : String) : Claims := { demoClaims with role := .str role }

/-! ## The client's message lists -/

/-- The property key a value turns into when it indexes an object. -/
def Val.toKey : Val → String
  | .undefined => "undefined"
  | .null => "null"
  | .bool true => "true"
  | .bool false => "false"
  | .num n => toString n
  | .str s => s

/-- The `messages` state of `ChatProvider`: an object that maps the key of a chat
id to the list of messages shown for that chat.  Only lookups are modelled, not
the order of the keys. -/
def Messages : Type := String → Option (List HydratedMessage)

/-- The initial value `{}`. -/
def Messages.empty : Messages := fun _ => none

/-- The object `{ ...prev, [key]: list }`. -/
def Messages.set (prev : Messages) (key : String) (list : List HydratedMessage) : Messages :=
  fun k => if k = key then some list else prev k

/-- A copy of `prev` after `delete copy[key]`. -/
def Messages.delete (prev : Messages) (key : String) : Messages :=
  fun k => if k = key then none else prev k

/-- The expression `prev[key] || []`. -/
def Messages.listOf (prev : Messages) (key : String) : List HydratedMessage :=
  (prev key).getD []

/-- The updaters that the listeners of `ChatProvider` pass to `setMessages`, by
server event.  `none`: the updater throws (reading `chat_id` of a `message`
payload that is `null`).  The listeners of the other events do not call
`setMessages`. -/
def onServerEventMessages (prev : Messages) : ServerEvent → Option Messages
  | .message none => none
  | .message (some m) =>
    some (prev.set m.row.chat_id.toKey (prev.listOf m.row.chat_id.toKey ++ [m]))
  | .chat_history chatId chatMessages => some (prev.set chatId.toKey chatMessages)
  | .chat_closed chatId => some (prev.delete chatId.toKey)
  | _ => some prev

/-- The state of `ChatProvider` with the message lists. -/
structure Provider where
  client : ClientState
  messages : Messages

/-- The function `sendMessage` of `ChatProvider`: the state and the events sent. -/
def sendMessage (p : Provider) (chatId content : Val) : Provider × List ClientEvent :=
  if !p.client.connected || !chatId.truthy then
    ({ p with client :=
        { p.client with error := some "Cannot send message: Not connected or invalid chat" } }, [])
  else (p, [.message chatId content])

/-- The function `closeChat` of `ChatProvider`. -/
def closeChat (p : Provider) (chatId : Val) : Provider × List ClientEvent :=
  if !p.client.connected then
    ({ p with client := { p.client with error := some "Not connected to chat server" } }, [])
  else (p, [.close_chat chatId])

/-- What happens to `ChatProvider`: one of the inputs of `clientStep` (a customer
is selected, a server event arrives, the socket connects or disconnects), or the
page calls `sendMessage` or `closeChat`. -/
inductive ProviderInput where
  | client (inp : ClientInput)
  | sendMessage (chatId content : Val)
  | closeChat (chatId : Val)
  deriving DecidableEq, Repr

/-- One transition of `ChatProvider`; `none` when an updater throws. -/
def providerStep (p : Provider) : ProviderInput → Option (Provider × List ClientEvent)
  | .client (.server ev) =>
    match onServerEventMessages p.messages ev with
    | none => none
    | some messages => some (⟨onServerEvent p.client ev, messages⟩, [])
  | .client inp => some (⟨(clientStep p.client inp).1, p.messages⟩, (clientStep p.client inp).2)
  | .sendMessage chatId content => some (sendMessage p chatId content)
  | .closeChat chatId => some (closeChat p chatId)

/-- A message row of chat `chat` with content `text`, as the relay sends it. -/
def demoMessage (id chat text : String) (t : Nat) : HydratedMessage :=
  ⟨⟨.str id, .str chat, .str "A1", .str text, t⟩, some ⟨.str "A1", .str "Ann", .str "ann@x"⟩⟩

/-- A connected provider that shows one message in chat `S1`. -/
def demoProvider : Provider :=
  ⟨freshClient, Messages.empty.set "S1" [demoMessage "M1" "S1" "Hello" 3]⟩

/-! ## Bulk import of users -/

/-- An element of the parsed import file, with the properties the route reads. -/
structure ImportRecord where
  email : Val
  password : Val
  role : Val
  name : Val
  phone : Val
  deriving DecidableEq, Repr

/-- What the environment contributes while one record is processed: whether the
lookup by email, `bcrypt.hash` and the insert fail (and with which message), and
the id the store gives the new user. -/
structure ImportEnv where
  selectFault : Option String
  hashFault : Option String
  insertFault : Option String
  newId : Val
  deriving DecidableEq, Repr

/-- Requests that the import sends to the store. -/
inductive ImportOp where
  | selectUser (email : Val)
  | insertUser (email password role name phone : Val)
  | insertActivity (user_id : Val) (activity_type : String)
      (imported_user_id imported_user_email : Val)
  deriving DecidableEq, Repr

/-- An entry of `results.successful`. -/
structure ImportedUser where
  id : Val
  email : Val
  role : Val
  deriving DecidableEq, Repr

/-- An entry of `results.failed`. -/
structure ImportFailure where
  email : Val
  error : String
  deriving DecidableEq, Repr

/-- What the body of the loop does for one record: the store afterwards, what it
pushes to `results.successful` and to `results.failed`, and the requests it sent
to the store. -/
structure RecordRun where
  store : Store
  successful : List ImportedUser
  failed : List ImportFailure
  ops : List ImportOp
  deriving DecidableEq, Repr

/-- The body of `for (const userData of users)` in `POST /users/import`, for a
record that is an object; `actor` is `req.user`. -/
def importRecord (lib : Lib) (actor : Claims) (st : Store) (userData : ImportRecord)
    (env : ImportEnv) : RecordRun :=
  if !userData.email.truthy || !userData.password.truthy || !userData.role.truthy then
    ⟨st, [], [⟨userData.email.or (.str "unknown"),
      "Missing required fields (email, password, or role)"⟩], []⟩
  else if userData.role ∉ ROLES then
    ⟨st, [], [⟨userData.email, "Invalid role"⟩], []⟩
  else
    let q1 := ImportOp.selectUser userData.email
    let existingUser :=
      (single env.selectFault (st.users.filter (fun u => u.email = userData.email))).data
    match existingUser with
    | some _ => ⟨st, [], [⟨userData.email, "User already exists"⟩], [q1]⟩
    | none =>
      match env.hashFault with
      | some e => ⟨st, [], [⟨userData.email, e⟩], [q1]⟩
      | none =>
        let hashedPassword := lib.bcryptHash userData.password
        let q2 := ImportOp.insertUser userData.email hashedPassword userData.role
          userData.name userData.phone
        match env.insertFault with
        | some e => ⟨st, [], [⟨userData.email, e⟩], [q1, q2]⟩
        | none =>
          let user : User := { id := env.newId, name := userData.name, email := userData.email,
                               password := hashedPassword, role := userData.role }
          ⟨{ st with users := st.users ++ [user] }, [⟨user.id, user.email, user.role⟩], [],
            [q1, q2, .insertActivity actor.userId "user_imported" user.id user.email]⟩

/-- The loop over the parsed array with everything it did. -/
structure ImportRun where
  store : Store
  successful : List ImportedUser
  failed : List ImportFailure
  ops : List ImportOp
  thrown : Option String
  deriving DecidableEq, Repr

/-- The loop `for (const userData of users)`, from the element at position `i`
on; `envs i` is the environment met by the element at position `i`.  An element
that is `null` (`none`) makes both the body and its `catch` throw, which leaves
the loop. -/
def importUsers (lib : Lib) (actor : Claims) (envs : Nat → ImportEnv) :
    Nat → Store → List (Option ImportRecord) → ImportRun
  | _, st, [] => ⟨st, [], [], [], none⟩
  | _, st, none :: _ =>
    ⟨st, [], [], [], some "Cannot read properties of null (reading 'email')"⟩
  | i, st, some userData :: rest =>
    let r := importRecord lib actor st userData (envs i)
    let run := importUsers lib actor envs (i + 1) r.store rest
    ⟨run.store, r.successful ++ run.successful, r.failed ++ run.failed, r.ops ++ run.ops,
      run.thrown⟩

/-- The `summary` of the 201 response. -/
structure ImportSummary where
  total : Nat
  successful : Nat
  failed : Nat
  deriving DecidableEq, Repr

/-- The response of `POST /users/import`. -/
inductive ImportResponse where
  | error (status : Nat) (message : String)
  | created (summary : ImportSummary) (successful : List ImportedUser)
      (failed : List ImportFailure)
  deriving DecidableEq, Repr

/-- Route `POST /users/import` behind its middleware.  `file` is `none` when no
file was uploaded, and otherwise what `parseImportFile` settles to: the error it
rejects with, or the parsed array. -/
def postUsersImport (lib : Lib) (actor : Claims) (envs : Nat → ImportEnv) (st : Store)
    (file : Option (Except String (List (Option ImportRecord)))) : Store × ImportResponse :=
  match file with
  | none => (st, .error 400 "No file uploaded")
  | some (.error e) => (st, .error 500 e)
  | some (.ok users) =>
    let run := importUsers lib actor envs 0 st users
    match run.thrown with
    | some e => (run.store, .error 500 e)
    | none =>
      (run.store, .created ⟨users.length, run.successful.length, run.failed.length⟩
        run.successful run.failed)

/-- An environment in which nothing fails and new users get the id `id`. -/
def demoImportEnv (id : String) : ImportEnv := ⟨none, none, none, .str id⟩

/-- An import file with a complete new record, a record without password, a record
with an unknown role and a record for the email of the user in `demoStore`. -/
def demoImport : List (Option ImportRecord) :=
  [some ⟨.str "bea@x", .str "pw", .str "manager", .str "Bea", .undefined⟩,
   some ⟨.str "cy@x", .undefined, .str "agent", .str "Cy", .undefined⟩,
   some ⟨.str "di@x", .str "pw", .str "owner", .str "Di", .undefined⟩,
   some ⟨.str "ann@x", .str "pw", .str "agent", .str "Ann", .undefined⟩]

/-! ## Numbers and strings in query parameters -/

/-- The value of a decimal digit. -/
def digitValue (c : Char) : Option Nat :=
  if '0' ≤ c ∧ c ≤ '9' then some (c.toNat - '0'.toNat) else none

/-- The number written by decimal digits, continuing from `acc`; `none` when a
character is no digit. -/
def digitsValue : List Char → Nat → Option Nat
  | [], acc => some acc
  | c :: cs, acc =>
    match digitValue c with
    | none => none
    | some d => digitsValue cs (acc * 10 + d)

/-- Conversion of a string to a number, for the strings that are written as an
integer in decimal digits, and for the empty string (which is 0).  `none` stands
for `NaN` and for the numbers with another spelling (blanks, a fraction, an
exponent, a base prefix), which are not modelled. -/
def stringToNumber (s : String) : Option Int :=
  match s.data with
  | '-' :: cs => if cs = [] then none else (digitsValue cs 0).map (fun n => - (n : Int))
  | cs => (digitsValue cs 0).map (fun n => (n : Int))

/-- Conversion of a value to a number (`none` is `NaN`). -/
def Val.toNumber : Val → Option Int
  | .undefined => none
  | .null => some 0
  | .bool b => some (if b then 1 else 0)
  | .num n => some n
  | .str s => stringToNumber s

/-- Conversion of a number to a string, for integers of fewer than 22 digits. -/
def numberToString : Option Int → String
  | none => "NaN"
  | some n => toString n

/-- The arithmetic operators `-` and `*`, which convert both operands to numbers. -/
def jsSub (a b : Val) : Option Int :=
  match a.toNumber, b.toNumber with
  | some x, some y => some (x - y)
  | _, _ => none

/-- The operator `*`. -/
def jsMul (a : Option Int) (b : Val) : Option Int :=
  match a, b.toNumber with
  | some x, some y => some (x * y)
  | _, _ => none

/-- The operator `+` with a number on the left: when the right operand is a
string the number is converted to a string and the two are concatenated. -/
def jsAdd (a : Option Int) (b : Val) : Val ⊕ Option Int :=
  match b with
  | .str s => .inl (.str (numberToString a ++ s))
  | _ =>
    match a, b.toNumber with
    | some x, some y => .inr (some (x + y))
    | _, _ => .inr none

/-- The operator `- 1` on the result of `+`. -/
def jsPred (a : Val ⊕ Option Int) : Option Int :=
  match a with
  | .inl v => jsSub v (.num 1)
  | .inr n => n.map (fun x => x - 1)

/-- A property of `req.query` destructured with a default: the string of the query
string, or the default number when the parameter is absent. -/
def queryParam (supplied : Option String) (dflt : Int) : Val :=
  match supplied with
  | some s => .str s
  | none => .num dflt

/-- The arguments `from` and `to` that `GET /customers` passes to `range`, for
the query parameters `page` and `pageSize`:
`from = (page - 1) * pageSize` and `to = from + pageSize - 1`. -/
def getCustomersRange (page pageSize : Option String) : Option Int × Option Int :=
  let page := queryParam page 1
  let pageSize := queryParam pageSize 10
  let «from» := jsMul (jsSub page (.num 1)) pageSize
  let «to» := jsPred (jsAdd «from» pageSize)
  («from», «to»)

/-! ## The sales pipeline -/

/-- Row of `deals`, with the columns the pipeline routes read.  `value` is the
number in the row (`none` for `null`). -/
structure Deal where
  id : Val
  title : Val
  customer_id : Val
  stage : Val
  value : Option ℚ
  expected_close_date : Val
  assigned_to : Val
  updated_at : Nat
  deriving DecidableEq, Repr

/-- Row of `customer_activities` as written for a stage change. -/
structure CustomerActivity where
  customer_id : Val
  activity_type : String
  deal_id : Val
  deal_title : Val
  previous_stage : Val
  new_stage : Val
  deriving DecidableEq, Repr

/-- The tables behind the pipeline routes. -/
structure Pipeline where
  deals : List Deal
  customer_activities : List CustomerActivity
  deriving DecidableEq, Repr

/-- The columns an `update` on `deals` sets: `none` for a column that the object
passed to `update` does not hold (a property that is `undefined` is not sent). -/
structure DealPatch where
  title : Option Val
  customer_id : Option Val
  stage : Option Val
  value : Option (Option ℚ)
  expected_close_date : Option Val
  assigned_to : Option Val
  updated_at : Option Nat
  deriving DecidableEq, Repr

/-- One row after `update(patch)`. -/
def DealPatch.apply (p : DealPatch) (d : Deal) : Deal :=
  { d with title := p.title.getD d.title, customer_id := p.customer_id.getD d.customer_id,
           stage := p.stage.getD d.stage, value := p.value.getD d.value,
           expected_close_date := p.expected_close_date.getD d.expected_close_date,
           assigned_to := p.assigned_to.getD d.assigned_to,
           updated_at := p.updated_at.getD d.updated_at }

/-- Effect and answer of `from('deals').update(patch).eq('id', id).select(...).single()`:
the rows with that id are patched and the store answers with the patched row, the
row as it is after the update; it is an error unless exactly one row matches. -/
def Pipeline.updateDeal (db : Pipeline) (patch : DealPatch) (id : Val) (fault : Option String) :
    Pipeline × Resp Deal :=
  match fault with
  | some e => (db, ⟨none, some e⟩)
  | none =>
    match (db.deals.filter (fun d => d.id = id)).map patch.apply with
    | [row] =>
      ({ db with deals := db.deals.map (fun d => if d.id = id then patch.apply d else d) },
        ⟨some row, none⟩)
    | _ => (db, ⟨none, some "JSON object requested, multiple (or no) rows returned"⟩)

/-- The helper `trackCustomerActivity`: the insert into `customer_activities`; a
failure is logged and has no other effect. -/
def trackCustomerActivity (db : Pipeline) (row : CustomerActivity) (fault : Option String) :
    Pipeline :=
  match fault with
  | some _ => db
  | none => { db with customer_activities := db.customer_activities ++ [row] }

/-- The response of a route that answers with a deal. -/
inductive DealResponse where
  | error (status : Nat) (message : String)
  | deal (row : Deal)
  deriving DecidableEq, Repr

/-- The value of a property of the request body that may be absent. -/
def bodyValue (v : Option Val) : Val := v.getD .undefined

/-- The object property `stage` as sent in an update: dropped when `undefined`. -/
def sentValue (v : Val) : Option Val := if v = .undefined then none else some v

/-- Route `PATCH /pipeline/deals/:id/stage` for the body `{ stage }`; `now` is the
clock, `fault` and `faultActivity` say whether the update and the insert of the
activity fail. -/
def patchDealStage (db : Pipeline) (id stage : Val) (now : Nat)
    (fault faultActivity : Option String) : Pipeline × DealResponse :=
  let r := db.updateDeal ⟨none, none, sentValue stage, none, none, none, some now⟩ id fault
  match r.2.error with
  | some e => (r.1, .error 500 e)
  | none =>
    match r.2.data with
    | none => (r.1, .error 500 "Cannot read properties of null (reading 'customer_id')")
    | some deal =>
      (trackCustomerActivity r.1
        ⟨deal.customer_id, "deal_stage_changed", deal.id, deal.title, deal.stage, stage⟩
        faultActivity, .deal deal)

/-- Route `PUT /pipeline/deals/:id`; `body` holds the properties of the request
body that are columns of the model (`updated_at` is overwritten by the route). -/
def putDeal (db : Pipeline) (id : Val) (body : DealPatch) (now : Nat)
    (fault faultActivity : Option String) : Pipeline × DealResponse :=
  let r := db.updateDeal { body with updated_at := some now } id fault
  match r.2.error with
  | some e => (r.1, .error 500 e)
  | none =>
    match r.2.data with
    | none => (r.1, .error 500 "Cannot read properties of null (reading 'customer_id')")
    | some deal =>
      if (bodyValue body.stage).truthy then
        (trackCustomerActivity r.1
          ⟨deal.customer_id, "deal_stage_changed", deal.id, deal.title, deal.stage,
            bodyValue body.stage⟩ faultActivity, .deal deal)
      else (r.1, .deal deal)

/-- A pipeline with one deal, in stage `lead`. -/
def demoPipeline : Pipeline :=
  ⟨[⟨.str "D1", .str "Licences", .str "C1", .str "lead", some 1200, .str "2025-03-01",
      .str "A1", 1⟩], []⟩

/-! ## Double-precision numbers -/

/-- Rounding of a rational to the nearest integer, a tie going to the even one. -/
def roundHalfEven (y : ℚ) : ℤ :=
  if y - ⌊y⌋ < 1 / 2 then ⌊y⌋
  else if 1 / 2 < y - ⌊y⌋ then ⌊y⌋ + 1
  else if ⌊y⌋ % 2 = 0 then ⌊y⌋ else ⌊y⌋ + 1

/-- The double nearest to `x` (binary64, round to nearest, ties to even): 53
significant bits, and a least exponent of `-1074` for the numbers near zero.
Numbers beyond the largest double, which round to an infinity, are not
modelled. -/
def fl (x : ℚ) : ℚ :=
  if x = 0 then 0
  else (roundHalfEven (x / 2 ^ max (Int.log 2 |x| - 52) (-1074)) : ℚ)
    * 2 ^ max (Int.log 2 |x| - 52) (-1074)
/-! ## Pipeline statistics and forecast

The numbers of the program are doubles.  A finite double is a rational, and an
operation of the program is the exact operation followed by rounding to the
nearest double.  The definitions below take the rounding as the parameter `rnd`:
`fl` is the arithmetic of the program, and `id` is exact arithmetic. -/

/-- The values of `PIPELINE_STAGES`, in the order of `Object.values`. -/
def PIPELINE_STAGES : List String :=
  ["lead", "contact_made", "needs_analysis", "proposal", "negotiation", "closed_won",
   "closed_lost"]

/-- The lookup `STAGE_PROBABILITIES[key]`: the literals `0.1`, `0.2`, `0.3`, `0.5`,
`0.7`, `1.0` and `0` as numbers of the arithmetic, `none` when there is no such
key. -/
def STAGE_PROBABILITIES (rnd : ℚ → ℚ) (key : String) : Option ℚ :=
  if key = "lead" then some (rnd (1 / 10))
  else if key = "contact_made" then some (rnd (2 / 10))
  else if key = "needs_analysis" then some (rnd (3 / 10))
  else if key = "proposal" then some (rnd (5 / 10))
  else if key = "negotiation" then some (rnd (7 / 10))
  else if key = "closed_won" then some (rnd 1)
  else if key = "closed_lost" then some (rnd 0)
  else none

/-- The expression `deal.value || 0`: the number of the row as the program holds
it, and 0 for `null`. -/
def valueOr0 (rnd : ℚ → ℚ) (deal : Deal) : ℚ :=
  match deal.value with
  | some v => rnd v
  | none => 0

/-- The reduction `deals.reduce((sum, deal) => sum + (deal.value || 0), 0)`. -/
def sumValues (rnd : ℚ → ℚ) (deals : List Deal) : ℚ :=
  deals.foldl (fun sum deal => rnd (sum + valueOr0 rnd deal)) 0

/-- An entry of `by_stage` in the statistics. -/
structure StageStatistics where
  count : Nat
  value : ℚ
  deriving DecidableEq, Repr

/-- The object `statistics` of `GET /pipeline/statistics`. -/
structure Statistics where
  total_deals : Nat
  total_value : ℚ
  by_stage : List (String × StageStatistics)
  win_rate : ℚ
  deriving DecidableEq, Repr

/-- The object that `GET /pipeline/statistics` computes from the selected deals.
Lengths are whole numbers, which the arithmetic holds exactly. -/
def pipelineStatistics (rnd : ℚ → ℚ) (deals : List Deal) : Statistics :=
  { total_deals := deals.length,
    total_value := sumValues rnd deals,
    by_stage := PIPELINE_STAGES.map (fun stage =>
      (stage, ⟨(deals.filter (fun deal => deal.stage = .str stage)).length,
        sumValues rnd (deals.filter (fun deal => deal.stage = .str stage))⟩)),
    win_rate :=
      if deals.length ≠ 0 then
        rnd (rnd (((deals.filter (fun deal => deal.stage = .str "closed_won")).length : ℚ)
          / (deals.length : ℚ)) * 100)
      else 0 }

/-- The deals a pipeline query returns to `user`: an agent sees the deals
assigned to them. -/
def visibleDeals (db : Pipeline) (user : Claims) : List Deal :=
  if user.role = .str "agent" then db.deals.filter (fun d => d.assigned_to = user.userId)
  else db.deals

/-- Route `GET /pipeline/statistics`: the error of the 500 response when the query
fails, or the body of the response. -/
def getPipelineStatistics (rnd : ℚ → ℚ) (db : Pipeline) (user : Claims)
    (fault : Option String) : Except String Statistics :=
  match fault with
  | some e => .error e
  | none => .ok (pipelineStatistics rnd (visibleDeals db user))

/-- The operator `+` on numbers; `none` is `NaN`. -/
def addNum (rnd : ℚ → ℚ) (a b : Option ℚ) : Option ℚ :=
  match a, b with
  | some x, some y => some (rnd (x + y))
  | _, _ => none

/-- The operator `*` on numbers; `none` is `NaN`. -/
def mulNum (rnd : ℚ → ℚ) (a b : Option ℚ) : Option ℚ :=
  match a, b with
  | some x, some y => some (rnd (x * y))
  | _, _ => none

/-- An entry of `by_month` or `by_stage` in the forecast. -/
structure Bucket where
  count : Nat
  weighted_value : Option ℚ
  deriving DecidableEq, Repr

/-- The three statements
`obj[key] = obj[key] || { count: 0, weighted_value: 0 }`, `obj[key].count++` and
`obj[key].weighted_value += weightedValue` on an object given by its entries. -/
def bump (rnd : ℚ → ℚ) (key : String) (weightedValue : Option ℚ) :
    List (String × Bucket) → List (String × Bucket)
  | [] => [(key, ⟨0 + 1, addNum rnd (some 0) weightedValue⟩)]
  | (k, b) :: rest =>
    if k = key then (k, ⟨b.count + 1, addNum rnd b.weighted_value weightedValue⟩) :: rest
    else (k, b) :: bump rnd key weightedValue rest

/-- The object `forecast` of `GET /pipeline/forecast`. -/
structure Forecast where
  total_weighted_value : Option ℚ
  by_month : List (String × Bucket)
  by_stage : List (String × Bucket)
  deriving DecidableEq, Repr

/-- The expression `(deal.value || 0) * STAGE_PROBABILITIES[deal.stage]`. -/
def weightedValue (rnd : ℚ → ℚ) (deal : Deal) : Option ℚ :=
  mulNum rnd (some (valueOr0 rnd deal)) (STAGE_PROBABILITIES rnd deal.stage.toKey)

/-- The body of `deals.forEach` for one deal.  `isoMonth` is
`new Date(v).toISOString().slice(0, 7)`, which throws (`none`) when `v` is no
valid date. -/
def forecastDeal (rnd : ℚ → ℚ) (isoMonth : Val → Option String) (forecast : Forecast)
    (deal : Deal) : Except String Forecast :=
  match isoMonth deal.expected_close_date with
  | none => .error "Invalid time value"
  | some month =>
    .ok ⟨addNum rnd forecast.total_weighted_value (weightedValue rnd deal),
         bump rnd month (weightedValue rnd deal) forecast.by_month,
         bump rnd deal.stage.toKey (weightedValue rnd deal) forecast.by_stage⟩

/-- The loop `deals.forEach` from the forecast built so far. -/
def forecastFrom (rnd : ℚ → ℚ) (isoMonth : Val → Option String) :
    Forecast → List Deal → Except String Forecast
  | forecast, [] => .ok forecast
  | forecast, deal :: rest =>
    match forecastDeal rnd isoMonth forecast deal with
    | .error e => .error e
    | .ok next => forecastFrom rnd isoMonth next rest

/-- The forecast that `GET /pipeline/forecast` computes from the selected deals. -/
def pipelineForecast (rnd : ℚ → ℚ) (isoMonth : Val → Option String) (deals : List Deal) :
    Except String Forecast :=
  forecastFrom rnd isoMonth ⟨some 0, [], []⟩ deals

/-- Route `GET /pipeline/forecast`: the query leaves out the deals whose stage is
`closed_lost` (and those without a stage). -/
def getPipelineForecast (rnd : ℚ → ℚ) (isoMonth : Val → Option String) (db : Pipeline)
    (user : Claims) (fault : Option String) : Except String Forecast :=
  match fault with
  | some e => .error e
  | none =>
    pipelineForecast rnd isoMonth
      ((visibleDeals db user).filter (fun d =>
        match d.stage with
        | .str s => s ≠ "closed_lost"
        | _ => false))

/-- The `weighted_value` entries of a group object added up in the order of its
keys. -/
def sumWeighted (rnd : ℚ → ℚ) (entries : List (String × Bucket)) : Option ℚ :=
  entries.foldl (fun acc e => addNum rnd acc e.2.weighted_value) (some 0)

/-- The `count` entries of a group object added up. -/
def sumCounts (entries : List (String × Bucket)) : Nat :=
  (entries.map (fun e => e.2.count)).sum

/-- The month of a date written as `YYYY-MM-DD`; anything else counts as no valid
date here. -/
def demoMonth (v : Val) : Option String :=
  match v with
  | .str s => if s.data.length = 10 then some (String.mk (s.data.take 7)) else none
  | _ => none

/-- Three deals that close in March 2025: two leads of value 1 and, between them,
a deal of value 2 with which contact was made. -/
def demoDeals : List Deal :=
  [⟨.str "D1", .str "Licences", .str "C1", .str "lead", some 1, .str "2025-03-01", .str "A1", 1⟩,
   ⟨.str "D2", .str "Support", .str "C1", .str "contact_made", some 2, .str "2025-03-09",
     .str "A1", 1⟩,
   ⟨.str "D3", .str "Training", .str "C1", .str "lead", some 1, .str "2025-03-20", .str "A1", 1⟩]

/-- Three deals with values in cents: leads of 0.10 and 2.20, and between them a
deal of 0.20 with which contact was made. -/
def demoCents : List Deal :=
  [⟨.str "D1", .str "Licences", .str "C1", .str "lead", some (1 / 10), .str "2025-03-01",
     .str "A1", 1⟩,
   ⟨.str "D2", .str "Support", .str "C1", .str "contact_made", some (2 / 10), .str "2025-03-09",
     .str "A1", 1⟩,
   ⟨.str "D3", .str "Training", .str "C1", .str "lead", some (22 / 10), .str "2025-03-20",
     .str "A1", 1⟩]

/-- Twenty-five deals of which seven are won. -/
def demoQuarter : List Deal :=
  List.replicate 7 ⟨.str "W", .str "Licences", .str "C1", .str "closed_won", some 1,
      .str "2025-03-01", .str "A1", 1⟩
    ++ List.replicate 18 ⟨.str "L", .str "Licences", .str "C1", .str "lead", some 1,
      .str "2025-03-01", .str "A1", 1⟩

/-- A deal of the demo pipeline. -/
def demoDeal (id stage : String) (value : ℚ) (date : String) : Deal :=
  ⟨.str id, .str "Licences", .str "C1", .str stage, some value, .str date, .str "A1", 1⟩

/-! ## Rooms -/

theorem mem_members (rooms : List (Val × String)) (room : Val) (c : String) :
    c ∈ members rooms room ↔ (room, c) ∈ rooms := by
  unfold members
  simp only [List.mem_map, List.mem_filter, decide_eq_true_eq]
  constructor
  · rintro ⟨⟨r, d⟩, ⟨hp, hr⟩, hc⟩
    simp only at hr hc
    subst hr; subst hc; exact hp
  · intro h
    exact ⟨(room, c), ⟨h, rfl⟩, rfl⟩

theorem mem_joinRoom (rooms : List (Val × String)) (room : Val) (c : String) (p : Val × String) :
    p ∈ joinRoom rooms room c ↔ p ∈ rooms ∨ p = (room, c) := by
  unfold joinRoom
  split
  · constructor
    · intro h; exact Or.inl h
    · rintro (h | h)
      · exact h
      · subst h; assumption
  · simp

theorem mem_leaveRoom (rooms : List (Val × String)) (room : Val) (c : String) (p : Val × String) :
    p ∈ leaveRoom rooms room c ↔ p ∈ rooms ∧ p ≠ (room, c) := by
  unfold leaveRoom
  simp

theorem mem_broadcast (rooms : List (Val × String)) (room : Val) (ev : ServerEvent) (a : Action) :
    a ∈ broadcast rooms room ev ↔ ∃ c, (room, c) ∈ rooms ∧ a = Action.emit c ev := by
  unfold broadcast
  simp only [List.mem_map, mem_members]
  constructor
  · rintro ⟨c, hc, rfl⟩; exact ⟨c, hc, rfl⟩
  · rintro ⟨c, hc, rfl⟩; exact ⟨c, hc, rfl⟩

theorem evict_spec (sockets : List (String × SocketUser)) (room : Val) (cs : List String) :
    ∀ rooms : List (Val × String), (∀ c ∈ cs, sockets.any (fun p => p.1 = c) = true) →
      (evict sockets room cs rooms).2.2 = none ∧
      (evict sockets room cs rooms).2.1 = cs.map (fun c => Action.leave c room) ∧
      ∀ p, p ∈ (evict sockets room cs rooms).1 ↔ p ∈ rooms ∧ ¬ (p.1 = room ∧ p.2 ∈ cs) := by
  induction cs with
  | nil => intro rooms _; simp [evict]
  | cons c cs ih =>
    intro rooms h
    have hc : sockets.any (fun p => p.1 = c) = true := h c (List.mem_cons_self _ _)
    have hcs : ∀ d ∈ cs, sockets.any (fun p => p.1 = d) = true :=
      fun d hd => h d (List.mem_cons_of_mem _ hd)
    obtain ⟨h1, h2, h3⟩ := ih (leaveRoom rooms room c) hcs
    simp only [evict, hc, if_true]
    refine ⟨h1, ?_, ?_⟩
    · simp [h2]
    · intro p
      rw [h3 p, mem_leaveRoom]
      obtain ⟨r, d⟩ := p
      simp only [List.mem_cons, ne_eq, Prod.mk.injEq]
      tauto

theorem evict_subset (sockets : List (String × SocketUser)) (room : Val) (cs : List String) :
    ∀ rooms : List (Val × String), ∀ p ∈ (evict sockets room cs rooms).1, p ∈ rooms := by
  induction cs with
  | nil => intro rooms p hp; simpa [evict] using hp
  | cons c cs ih =>
    intro rooms p hp
    simp only [evict] at hp
    split at hp
    · exact ((mem_leaveRoom rooms room c p).1 (ih _ p hp)).1
    · exact hp

/-! ## What the handlers leave alone -/

theorem start_chat_frame (s : State) (sid : String) (user : SocketUser) (customerId : Val)
    (env : Env) :
    (start_chat s sid user customerId env).state.sockets = s.sockets ∧
    ∀ p ∈ (start_chat s sid user customerId env).state.rooms, p ∈ s.rooms ∨ p.2 = sid := by
  unfold start_chat
  simp only
  split
  · exact ⟨rfl, fun p hp => Or.inl hp⟩
  · split
    · exact ⟨rfl, fun p hp => Or.inl hp⟩
    · split
      · exact ⟨rfl, fun p hp => Or.inl hp⟩
      · refine ⟨rfl, fun p hp => ?_⟩
        rcases (mem_joinRoom _ _ _ _).1 hp with h | h
        · exact Or.inl h
        · exact Or.inr (by rw [h])

theorem message_frame (s : State) (sid : String) (user : SocketUser) (chatId content : Val)
    (env : Env) :
    (message s sid user chatId content env).state.sockets = s.sockets ∧
    (message s sid user chatId content env).state.rooms = s.rooms := by
  unfold message
  simp only
  split
  · exact ⟨rfl, rfl⟩
  · split <;> exact ⟨rfl, rfl⟩

theorem fetch_chat_history_state (s : State) (sid : String) (chatId : Val) (env : Env) :
    (fetch_chat_history s sid chatId env).state = s := by
  unfold fetch_chat_history
  simp only
  split
  · rfl
  · split <;> rfl

theorem close_chat_frame (s : State) (sid : String) (chatId : Val) (env : Env) :
    (close_chat s sid chatId env).state.sockets = s.sockets ∧
    ∀ p ∈ (close_chat s sid chatId env).state.rooms, p ∈ s.rooms := by
  unfold close_chat
  simp only
  split
  · exact ⟨rfl, fun p hp => hp⟩
  · split <;> exact ⟨rfl, fun p hp => evict_subset _ _ _ _ p hp⟩

theorem find_connected (s : State) (sid : String) (p : String × SocketUser)
    (h : s.sockets.find? (fun q => q.1 = sid) = some p) : Connected s sid := by
  unfold Connected
  rw [List.any_eq_true]
  exact ⟨p, List.mem_of_find?_eq_some h, by simpa using List.find?_some h⟩

theorem onEvent_frame (s : State) (sid : String) (ev : ClientEvent) (env : Env) :
    (onEvent s sid ev env).state.sockets = s.sockets ∧
    ∀ p ∈ (onEvent s sid ev env).state.rooms, p ∈ s.rooms ∨ (p.2 = sid ∧ Connected s sid) := by
  unfold onEvent
  split
  · exact ⟨rfl, fun p hp => Or.inl hp⟩
  · rename_i q hq
    have hc := find_connected s sid q hq
    cases ev with
    | start_chat customerId =>
      obtain ⟨h1, h2⟩ := start_chat_frame s sid q.2 customerId env
      refine ⟨h1, fun p hp => ?_⟩
      rcases h2 p hp with h | h
      · exact Or.inl h
      · exact Or.inr ⟨h, hc⟩
    | message chatId content =>
      obtain ⟨h1, h2⟩ := message_frame s sid q.2 chatId content env
      exact ⟨h1, fun p hp => Or.inl (by simpa [h2] using hp)⟩
    | fetch_chat_history chatId =>
      rw [fetch_chat_history_state]
      exact ⟨rfl, fun p hp => Or.inl hp⟩
    | close_chat chatId =>
      obtain ⟨h1, h2⟩ := close_chat_frame s sid chatId env
      exact ⟨h1, fun p hp => Or.inl (h2 p hp)⟩
    | typing_start _ => exact ⟨rfl, fun p hp => Or.inl hp⟩
    | typing_stop _ => exact ⟨rfl, fun p hp => Or.inl hp⟩

theorem postChatSessions_frame (lib : Lib) (s : State) (authorization : Option String)
    (customer_data : Val) (env : Env) :
    (postChatSessions lib s authorization customer_data env).1.state.sockets = s.sockets ∧
    (postChatSessions lib s authorization customer_data env).1.state.rooms = s.rooms := by
  unfold postChatSessions
  split
  · exact ⟨rfl, rfl⟩
  · simp only
    split
    · exact ⟨rfl, rfl⟩
    · split <;> exact ⟨rfl, rfl⟩

theorem roomsConnected_step (lib : Lib) (s : State) (inp : Input) (env : Env)
    (h : RoomsConnected s) : RoomsConnected (step lib s inp env).state := by
  cases inp with
  | connect sid token =>
    simp only [step, connect]
    split
    · exact h
    · split
      · exact h
      · intro p hp
        simp only [Connected, List.any_append, Bool.or_eq_true] at *
        rcases (mem_joinRoom _ _ _ _).1 hp with hp | hp
        · rcases (mem_joinRoom _ _ _ _).1 hp with hp | hp
          · exact Or.inl (h p hp)
          · right; simp [hp]
        · right; simp [hp]
  | event sid ev =>
    obtain ⟨h1, h2⟩ := onEvent_frame s sid ev env
    intro p hp
    simp only [step] at hp ⊢
    unfold Connected
    rw [h1]
    rcases h2 p hp with hq | ⟨hq, hc⟩
    · exact h p hq
    · rw [hq]; exact hc
  | disconnect sid =>
    intro p hp
    simp only [step, disconnect, List.mem_filter, decide_eq_true_eq, decide_not,
      Bool.not_eq_true', decide_eq_false_iff_not] at hp
    have := h p hp.1
    simp only [Connected, List.any_eq_true, decide_eq_true_eq, step, disconnect] at this ⊢
    obtain ⟨q, hq, hq2⟩ := this
    refine ⟨q, ?_, hq2⟩
    simp only [List.mem_filter, decide_not, Bool.not_eq_true', decide_eq_false_iff_not]
    exact ⟨hq, by rw [hq2]; exact hp.2⟩
  | postChatSessions authorization customer_data =>
    obtain ⟨h1, h2⟩ := postChatSessions_frame lib s authorization customer_data env
    intro p hp
    simp only [step] at hp ⊢
    unfold Connected
    rw [h1]
    rw [h2] at hp
    exact h p hp
  | otherRoute users customers => exact h

theorem roomsConnected_run (lib : Lib) (inputs : List (Input × Env)) :
    ∀ s : State, RoomsConnected s → RoomsConnected (run lib s inputs).state := by
  induction inputs with
  | nil => intro s h; exact h
  | cons x rest ih =>
    intro s h
    obtain ⟨inp, env⟩ := x
    simp only [run]
    exact ih _ (roomsConnected_step lib s inp env h)

theorem roomsConnected_boot (store : Store) : RoomsConnected (boot store) := by
  intro p hp
  simp [boot] at hp

/-! ## The success paths of the handlers -/

theorem start_chat_ok (s : State) (sid : String) (user : SocketUser) (customerId : Val)
    (env : Env) (c : Customer)
    (hcust : s.store.selectCustomer customerId (env.fault (.selectCustomer customerId))
      = ⟨some c, none⟩)
    (hins : env.fault (.insertSession customerId user.userId "active") = none) :
    start_chat s sid user customerId env =
      ⟨⟨⟨s.store.users, s.store.customers,
          s.store.chat_sessions ++ [newSession env customerId user.userId "active"],
          s.store.chat_messages⟩, s.sockets, joinRoom s.rooms env.newId sid⟩,
        [.query (.selectCustomer customerId),
         .query (.insertSession customerId user.userId "active"),
         .join sid env.newId,
         .emit sid (.chat_started env.newId customerId user.userId "active" env.dbNow
           (s.store.customers.find? (fun c => c.id = customerId)))]⟩ := by
  unfold start_chat
  simp [hcust, hins, Store.insertSession, newSession]

theorem message_ok (s : State) (sid : String) (user : SocketUser) (chatId content : Val)
    (env : Env)
    (hlook : (s.store.selectSession chatId (env.fault (.selectSession chatId))).error = none)
    (hins : env.fault (.insertMessage chatId user.userId content) = none) :
    message s sid user chatId content env =
      ⟨⟨(Store.updateSession
            ⟨s.store.users, s.store.customers, s.store.chat_sessions,
              s.store.chat_messages ++ [newMessage env chatId user.userId content]⟩
            ⟨none, some env.now⟩ chatId
            (env.fault (.updateSession ⟨none, some env.now⟩ chatId))).1,
          s.sockets, s.rooms⟩,
        [.query (.selectSession chatId), .query (.insertMessage chatId user.userId content)]
          ++ broadcast s.rooms chatId
              (.message (some (s.store.hydrate (newMessage env chatId user.userId content))))
          ++ [.query (.updateSession ⟨none, some env.now⟩ chatId)]⟩ := by
  unfold message
  simp [hlook, hins, Store.insertMessage]

theorem close_chat_ok (s : State) (sid : String) (chatId : Val) (env : Env)
    (hupd : env.fault (.updateSession ⟨some "closed", some env.now⟩ chatId) = none)
    (hconn : ∀ c ∈ members s.rooms chatId, Connected s c) :
    close_chat s sid chatId env =
      ⟨⟨⟨s.store.users, s.store.customers,
          s.store.chat_sessions.map (fun c =>
            if c.id = chatId then SessionPatch.apply ⟨some "closed", some env.now⟩ c else c),
          s.store.chat_messages⟩, s.sockets,
          (evict s.sockets chatId (members s.rooms chatId) s.rooms).1⟩,
        [.query (.updateSession ⟨some "closed", some env.now⟩ chatId)]
          ++ broadcast s.rooms chatId (.chat_closed chatId)
          ++ (members s.rooms chatId).map (fun c => Action.leave c chatId)⟩ := by
  obtain ⟨h1, h2, _⟩ := evict_spec s.sockets chatId (members s.rooms chatId) s.rooms hconn
  unfold close_chat
  simp [hupd, Store.updateSession, h1, h2]

theorem members_evict_nil (s : State) (chatId : Val)
    (hconn : ∀ c ∈ members s.rooms chatId, Connected s c) :
    members (evict s.sockets chatId (members s.rooms chatId) s.rooms).1 chatId = [] := by
  obtain ⟨_, _, h3⟩ := evict_spec s.sockets chatId (members s.rooms chatId) s.rooms hconn
  rw [List.eq_nil_iff_forall_not_mem]
  intro c hc
  rw [mem_members, h3] at hc
  exact hc.2 ⟨rfl, (mem_members _ _ _).2 hc.1⟩

theorem members_connected (s : State) (h : RoomsConnected s) (room : Val) :
    ∀ c ∈ members s.rooms room, Connected s c := by
  intro c hc
  exact h (room, c) ((mem_members _ _ _).1 hc)

/-! ## Claims -/

/-- C1: when `customerId` resolves to a customer and the session insert succeeds,
`start_chat` from subject `user.userId` adds one `chat_sessions` row with that
customer id, `agent_id` equal to the subject and status `active`, the initiating
socket is then a member of the room of the new session id (so a broadcast to
that room reaches it), and `chat_started` goes to it. -/
theorem start_chat_creates_active_session (s : State) (sid : String) (user : SocketUser)
    (customerId : Val) (env : Env) (c : Customer)
    (hcust : s.store.selectCustomer customerId (env.fault (.selectCustomer customerId))
      = ⟨some c, none⟩)
    (hins : env.fault (.insertSession customerId user.userId "active") = none) :
    ∃ row : ChatSession,
      (start_chat s sid user customerId env).state.store.chat_sessions
        = s.store.chat_sessions ++ [row] ∧
      row.customer_id = customerId ∧ row.agent_id = user.userId ∧ row.status = "active" ∧
      sid ∈ members (start_chat s sid user customerId env).state.rooms row.id ∧
      (∀ ev, Action.emit sid ev ∈
        broadcast (start_chat s sid user customerId env).state.rooms row.id ev) ∧
      delivered sid (start_chat s sid user customerId env).trace =
        [.chat_started row.id customerId user.userId "active" row.created_at
          (s.store.customers.find? (fun c => c.id = customerId))] := by
  rw [start_chat_ok s sid user customerId env c hcust hins]
  refine ⟨newSession env customerId user.userId "active", rfl, rfl, rfl, rfl, ?_, ?_, ?_⟩
  · rw [mem_members, mem_joinRoom]; exact Or.inr rfl
  · intro ev
    rw [mem_broadcast]
    exact ⟨sid, (mem_joinRoom _ _ _ _).2 (Or.inr rfl), rfl⟩
  · simp [delivered, newSession]

/-- C1 (witness): the statement at a concrete run of the demo instance. -/
theorem start_chat_creates_active_session_witness :
    (boot demoStore).store.selectCustomer (.str "C1")
        ((demoEnv "S1" 2).fault (.selectCustomer (.str "C1")))
      = ⟨some ⟨.str "C1", .str "Carl", .str "carl@x"⟩, none⟩ ∧
    ∃ row : ChatSession,
      (start_chat (boot demoStore) "k1" demoUser (.str "C1") (demoEnv "S1" 2)).state.store.chat_sessions
        = (boot demoStore).store.chat_sessions ++ [row] ∧
      row.customer_id = .str "C1" ∧ row.agent_id = demoUser.userId ∧ row.status = "active" ∧
      "k1" ∈ members
        (start_chat (boot demoStore) "k1" demoUser (.str "C1") (demoEnv "S1" 2)).state.rooms row.id ∧
      (∀ ev, Action.emit "k1" ev ∈
        broadcast
          (start_chat (boot demoStore) "k1" demoUser (.str "C1") (demoEnv "S1" 2)).state.rooms
          row.id ev) ∧
      delivered "k1" (start_chat (boot demoStore) "k1" demoUser (.str "C1") (demoEnv "S1" 2)).trace =
        [.chat_started row.id (.str "C1") demoUser.userId "active" row.created_at
          ((boot demoStore).store.customers.find? (fun c => c.id = .str "C1"))] :=
  ⟨by decide,
   start_chat_creates_active_session (boot demoStore) "k1" demoUser (.str "C1") (demoEnv "S1" 2)
     ⟨.str "C1", .str "Carl", .str "carl@x"⟩ (by decide) (by decide)⟩

theorem selectSession_exists (st : Store) (chatId : Val) (fault : Option String)
    (h : (st.selectSession chatId fault).error = none) :
    ∃ sess, st.chat_sessions.filter (fun c => c.id = chatId) = [sess] ∧
      st.selectSession chatId fault = ⟨some sess, none⟩ := by
  unfold Store.selectSession single at *
  cases fault with
  | some e => simp at h
  | none =>
    simp only at h ⊢
    split at h
    · rename_i r hr
      exact ⟨r, hr, by simp⟩
    · simp at h

theorem mem_of_filter_eq_singleton {α : Type} (p : α → Bool) (l : List α) (a : α)
    (h : l.filter p = [a]) : a ∈ l ∧ p a = true := by
  have : a ∈ l.filter p := by rw [h]; exact List.mem_singleton.2 rfl
  exact List.mem_filter.1 this

/-- C2: an accepted `message` event (the session lookup answers without error and
the insert succeeds) inserts exactly one `chat_messages` row carrying the given
chat id, the sender's subject id and the content; the relay then emits the
hydrated row as `message` to the members of the room of `chatId` at that moment
and to nobody else, and after that sends the update of `updated_at` for the
session, which sets it to the relay clock on every row with that id when the
store applies it. -/
theorem message_persists_broadcasts_touches (s : State) (sid : String) (user : SocketUser)
    (chatId content : Val) (env : Env)
    (hlook : (s.store.selectSession chatId (env.fault (.selectSession chatId))).error = none)
    (hins : env.fault (.insertMessage chatId user.userId content) = none) :
    ∃ row : ChatMessage,
      row.chat_id = chatId ∧ row.sender_id = user.userId ∧ row.content = content ∧
      (∃ sess ∈ s.store.chat_sessions, sess.id = chatId) ∧
      (message s sid user chatId content env).state.store.chat_messages
        = s.store.chat_messages ++ [row] ∧
      (message s sid user chatId content env).trace =
        [.query (.selectSession chatId), .query (.insertMessage chatId user.userId content)]
          ++ (members s.rooms chatId).map
              (fun c => Action.emit c (.message (some (s.store.hydrate row))))
          ++ [.query (.updateSession ⟨none, some env.now⟩ chatId)] ∧
      (∀ c ev, Action.emit c ev ∈ (message s sid user chatId content env).trace ↔
        (c ∈ members s.rooms chatId ∧ ev = .message (some (s.store.hydrate row)))) ∧
      (env.fault (.updateSession ⟨none, some env.now⟩ chatId) = none →
        (message s sid user chatId content env).state.store.chat_sessions =
          s.store.chat_sessions.map
            (fun c => if c.id = chatId then { c with updated_at := env.now } else c)) := by
  rw [message_ok s sid user chatId content env hlook hins]
  obtain ⟨sess, hsess, _⟩ := selectSession_exists _ _ _ hlook
  obtain ⟨hmem, hid⟩ := mem_of_filter_eq_singleton _ _ _ hsess
  refine ⟨newMessage env chatId user.userId content, rfl, rfl, rfl,
    ⟨sess, hmem, by simpa using hid⟩, ?_, rfl, ?_, ?_⟩
  · cases h : env.fault (.updateSession ⟨none, some env.now⟩ chatId) <;>
      simp [Store.updateSession]
  · intro c ev
    simp only [broadcast, List.mem_append, List.mem_cons, List.mem_map, List.mem_singleton,
      List.not_mem_nil, or_false, false_or, Action.emit.injEq, reduceCtorEq]
    constructor
    · rintro ⟨d, hd, rfl, rfl⟩
      exact ⟨hd, rfl⟩
    · rintro ⟨hc, rfl⟩
      exact ⟨c, hc, rfl, rfl⟩
  · intro h
    simp [Store.updateSession, h, SessionPatch.apply]

/-- C2 (witness): the statement at a concrete run of the demo instance. -/
theorem message_persists_broadcasts_touches_witness :
    ((run demoLib (boot demoStore) demoInputs).state.store.selectSession (.str "S1")
        ((demoEnv "M1" 3).fault (.selectSession (.str "S1")))).error = none ∧
    ∃ row : ChatMessage,
      row.chat_id = .str "S1" ∧ row.sender_id = demoUser.userId ∧ row.content = .str "Hello" ∧
      (∃ sess ∈ (run demoLib (boot demoStore) demoInputs).state.store.chat_sessions,
        sess.id = .str "S1") ∧
      (message (run demoLib (boot demoStore) demoInputs).state "k1" demoUser (.str "S1")
          (.str "Hello") (demoEnv "M1" 3)).state.store.chat_messages
        = (run demoLib (boot demoStore) demoInputs).state.store.chat_messages ++ [row] ∧
      (message (run demoLib (boot demoStore) demoInputs).state "k1" demoUser (.str "S1")
          (.str "Hello") (demoEnv "M1" 3)).trace =
        [.query (.selectSession (.str "S1")),
         .query (.insertMessage (.str "S1") demoUser.userId (.str "Hello"))]
          ++ (members (run demoLib (boot demoStore) demoInputs).state.rooms (.str "S1")).map
              (fun c => Action.emit c (.message
                (some ((run demoLib (boot demoStore) demoInputs).state.store.hydrate row))))
          ++ [.query (.updateSession ⟨none, some (demoEnv "M1" 3).now⟩ (.str "S1"))] ∧
      (∀ c ev, Action.emit c ev ∈
          (message (run demoLib (boot demoStore) demoInputs).state "k1" demoUser (.str "S1")
            (.str "Hello") (demoEnv "M1" 3)).trace ↔
        (c ∈ members (run demoLib (boot demoStore) demoInputs).state.rooms (.str "S1") ∧
          ev = .message
            (some ((run demoLib (boot demoStore) demoInputs).state.store.hydrate row)))) ∧
      ((demoEnv "M1" 3).fault (.updateSession ⟨none, some (demoEnv "M1" 3).now⟩ (.str "S1")) = none →
        (message (run demoLib (boot demoStore) demoInputs).state "k1" demoUser (.str "S1")
          (.str "Hello") (demoEnv "M1" 3)).state.store.chat_sessions =
          (run demoLib (boot demoStore) demoInputs).state.store.chat_sessions.map
            (fun c => if c.id = .str "S1" then { c with updated_at := (demoEnv "M1" 3).now }
              else c)) :=
  ⟨by decide,
   message_persists_broadcasts_touches (run demoLib (boot demoStore) demoInputs).state "k1"
     demoUser (.str "S1") (.str "Hello") (demoEnv "M1" 3) (by decide) (by decide)⟩

/-- C3: in every state the process can reach, a `close_chat` whose store update
succeeds sets status `closed` and refreshes `updated_at` on the session with that
id (no other row changes), emits `chat_closed` with the chat id to every
connection that was in the room of `chatId` and to nobody else, and leaves that
room without members. -/
theorem close_chat_closes_notifies_evicts (lib : Lib) (store : Store)
    (inputs : List (Input × Env)) (sid : String) (chatId : Val) (env : Env)
    (hupd : env.fault (.updateSession ⟨some "closed", some env.now⟩ chatId) = none) :
    (close_chat (run lib (boot store) inputs).state sid chatId env).state.store.chat_sessions =
      (run lib (boot store) inputs).state.store.chat_sessions.map
        (fun c => if c.id = chatId then { c with status := "closed", updated_at := env.now }
          else c) ∧
    (∀ c ∈ (close_chat (run lib (boot store) inputs).state sid chatId env).state.store.chat_sessions,
      c.id = chatId → c.status = "closed" ∧ c.updated_at = env.now) ∧
    (∀ c ev, Action.emit c ev ∈ (close_chat (run lib (boot store) inputs).state sid chatId env).trace ↔
      (c ∈ members (run lib (boot store) inputs).state.rooms chatId ∧ ev = .chat_closed chatId)) ∧
    members (close_chat (run lib (boot store) inputs).state sid chatId env).state.rooms chatId = [] := by
  have hwf := roomsConnected_run lib inputs (boot store) (roomsConnected_boot store)
  have hconn := members_connected _ hwf chatId
  rw [close_chat_ok _ sid chatId env hupd hconn]
  refine ⟨?_, ?_, ?_, members_evict_nil _ chatId hconn⟩
  · simp [SessionPatch.apply]
  · intro c hc hid
    simp only [List.mem_map] at hc
    obtain ⟨d, _, hd⟩ := hc
    split at hd
    · subst hd; simp [SessionPatch.apply]
    · rename_i hne
      subst hd; exact absurd hid hne
  · intro c ev
    simp only [broadcast, List.mem_append, List.mem_cons, List.mem_map, List.mem_singleton,
      List.not_mem_nil, or_false, false_or, Action.emit.injEq, reduceCtorEq, and_false,
      exists_false]
    constructor
    · rintro ⟨d, hd, rfl, rfl⟩
      exact ⟨hd, rfl⟩
    · rintro ⟨hc, rfl⟩
      exact ⟨c, hc, rfl, rfl⟩

/-- C3 (witness): the statement at a concrete run of the demo instance. -/
theorem close_chat_closes_notifies_evicts_witness :
    (demoEnv "x" 4).fault (.updateSession ⟨some "closed", some (demoEnv "x" 4).now⟩ (.str "S1"))
      = none ∧
    (close_chat (run demoLib (boot demoStore) demoInputs).state "k1" (.str "S1")
        (demoEnv "x" 4)).state.store.chat_sessions =
      (run demoLib (boot demoStore) demoInputs).state.store.chat_sessions.map
        (fun c => if c.id = .str "S1" then
          { c with status := "closed", updated_at := (demoEnv "x" 4).now } else c) ∧
    (∀ c ∈ (close_chat (run demoLib (boot demoStore) demoInputs).state "k1" (.str "S1")
        (demoEnv "x" 4)).state.store.chat_sessions,
      c.id = .str "S1" → c.status = "closed" ∧ c.updated_at = (demoEnv "x" 4).now) ∧
    (∀ c ev, Action.emit c ev ∈
        (close_chat (run demoLib (boot demoStore) demoInputs).state "k1" (.str "S1")
          (demoEnv "x" 4)).trace ↔
      (c ∈ members (run demoLib (boot demoStore) demoInputs).state.rooms (.str "S1") ∧
        ev = .chat_closed (.str "S1"))) ∧
    members (close_chat (run demoLib (boot demoStore) demoInputs).state "k1" (.str "S1")
      (demoEnv "x" 4)).state.rooms (.str "S1") = [] :=
  ⟨by decide,
   close_chat_closes_notifies_evicts demoLib demoStore demoInputs "k1" (.str "S1")
     (demoEnv "x" 4) (by decide)⟩

/-! ## Who receives what -/

theorem emit_start_chat (s : State) (sid : String) (user : SocketUser) (customerId : Val)
    (env : Env) (c : String) (ev : ServerEvent)
    (h : Action.emit c ev ∈ (start_chat s sid user customerId env).trace) :
    c = sid ∧ ev.target = none := by
  unfold start_chat at h
  simp only at h
  split at h
  · simp at h; obtain ⟨rfl, rfl⟩ := h; exact ⟨rfl, rfl⟩
  · split at h
    · simp at h; obtain ⟨rfl, rfl⟩ := h; exact ⟨rfl, rfl⟩
    · split at h
      · simp at h; obtain ⟨rfl, rfl⟩ := h; exact ⟨rfl, rfl⟩
      · simp at h; obtain ⟨rfl, rfl⟩ := h; exact ⟨rfl, rfl⟩

theorem emit_message (s : State) (sid : String) (user : SocketUser) (chatId content : Val)
    (env : Env) (c : String) (ev : ServerEvent)
    (h : Action.emit c ev ∈ (message s sid user chatId content env).trace) :
    (c = sid ∧ ev.target = none) ∨ (ev.target = some chatId ∧ (chatId, c) ∈ s.rooms) := by
  unfold message at h
  simp only at h
  split at h
  · simp at h; obtain ⟨rfl, rfl⟩ := h; exact Or.inl ⟨rfl, rfl⟩
  · cases hf : env.fault (.insertMessage chatId user.userId content) with
    | some e =>
      simp [Store.insertMessage, hf] at h
      obtain ⟨rfl, rfl⟩ := h; exact Or.inl ⟨rfl, rfl⟩
    | none =>
      simp [Store.insertMessage, hf, mem_broadcast] at h
      obtain ⟨d, hd, rfl, rfl⟩ := h
      exact Or.inr ⟨rfl, hd⟩

theorem emit_fetch_chat_history (s : State) (sid : String) (chatId : Val) (env : Env)
    (c : String) (ev : ServerEvent)
    (h : Action.emit c ev ∈ (fetch_chat_history s sid chatId env).trace) :
    c = sid ∧ ev.target = none := by
  unfold fetch_chat_history at h
  simp only at h
  split at h
  · simp at h; obtain ⟨rfl, rfl⟩ := h; exact ⟨rfl, rfl⟩
  · split at h
    · simp at h; obtain ⟨rfl, rfl⟩ := h; exact ⟨rfl, rfl⟩
    · simp at h; obtain ⟨rfl, rfl⟩ := h; exact ⟨rfl, rfl⟩

theorem evict_no_emit (sockets : List (String × SocketUser)) (room : Val) (cs : List String) :
    ∀ (rooms : List (Val × String)) (c : String) (ev : ServerEvent),
      Action.emit c ev ∉ (evict sockets room cs rooms).2.1 := by
  induction cs with
  | nil => intro rooms c ev; simp [evict]
  | cons d cs ih =>
    intro rooms c ev
    simp only [evict]
    split
    · simp only [List.mem_cons, reduceCtorEq, false_or]
      exact ih _ c ev
    · simp

theorem emit_close_chat (s : State) (sid : String) (chatId : Val) (env : Env)
    (c : String) (ev : ServerEvent)
    (h : Action.emit c ev ∈ (close_chat s sid chatId env).trace) :
    (c = sid ∧ ev.target = none) ∨ (ev.target = some chatId ∧ (chatId, c) ∈ s.rooms) := by
  unfold close_chat at h
  simp only at h
  split at h
  · simp at h; obtain ⟨rfl, rfl⟩ := h; exact Or.inl ⟨rfl, rfl⟩
  · split at h
    · simp only [List.mem_append, List.mem_cons, List.mem_singleton, reduceCtorEq,
        List.not_mem_nil, or_false, false_or, mem_broadcast, Action.emit.injEq] at h
      rcases h with (⟨d, hd, rfl, rfl⟩ | h) | ⟨rfl, rfl⟩
      · exact Or.inr ⟨rfl, hd⟩
      · exact absurd h (evict_no_emit _ _ _ _ _ _)
      · exact Or.inl ⟨rfl, rfl⟩
    · simp only [List.mem_append, List.mem_cons, List.mem_singleton, reduceCtorEq,
        List.not_mem_nil, or_false, false_or, mem_broadcast, Action.emit.injEq] at h
      rcases h with ⟨d, hd, rfl, rfl⟩ | h
      · exact Or.inr ⟨rfl, hd⟩
      · exact absurd h (evict_no_emit _ _ _ _ _ _)

theorem emit_step (lib : Lib) (s : State) (inp : Input) (env : Env) (c : String)
    (ev : ServerEvent) (h : Action.emit c ev ∈ (step lib s inp env).trace) :
    (Connected s c ∧ ev.target = none) ∨ (∃ r, ev.target = some r ∧ (r, c) ∈ s.rooms) := by
  cases inp with
  | connect sid token =>
    simp only [step, connect] at h
    split at h
    · simp at h
    · split at h <;> simp at h
  | event sid e =>
    simp only [step, onEvent] at h
    split at h
    · simp at h
    · rename_i q hq
      have hc := find_connected s sid q hq
      cases e with
      | start_chat customerId =>
        obtain ⟨rfl, ht⟩ := emit_start_chat _ _ _ _ _ _ _ h
        exact Or.inl ⟨hc, ht⟩
      | message chatId content =>
        rcases emit_message _ _ _ _ _ _ _ _ h with ⟨rfl, ht⟩ | ⟨ht, hm⟩
        · exact Or.inl ⟨hc, ht⟩
        · exact Or.inr ⟨chatId, ht, hm⟩
      | fetch_chat_history chatId =>
        obtain ⟨rfl, ht⟩ := emit_fetch_chat_history _ _ _ _ _ _ h
        exact Or.inl ⟨hc, ht⟩
      | close_chat chatId =>
        rcases emit_close_chat _ _ _ _ _ _ h with ⟨rfl, ht⟩ | ⟨ht, hm⟩
        · exact Or.inl ⟨hc, ht⟩
        · exact Or.inr ⟨chatId, ht, hm⟩
      | typing_start _ => simp at h
      | typing_stop _ => simp at h
  | disconnect sid => simp [step, disconnect] at h
  | postChatSessions authorization customer_data =>
    simp only [step, postChatSessions] at h
    split at h
    · simp at h
    · split at h
      · simp at h
      · split at h
        · simp at h
        · simp only [List.mem_append, List.mem_cons, List.mem_singleton, reduceCtorEq,
            List.not_mem_nil, or_false, false_or, List.mem_map, Action.emit.injEq] at h
          obtain ⟨q, hq, rfl, rfl⟩ := h
          left
          refine ⟨?_, rfl⟩
          unfold Connected
          rw [List.any_eq_true]
          exact ⟨q, hq, by simp⟩
  | otherRoute users customers => simp [step] at h

theorem mem_delivered (c : String) (tr : List Action) (ev : ServerEvent) :
    ev ∈ delivered c tr ↔ Action.emit c ev ∈ tr := by
  unfold delivered
  simp only [List.mem_filterMap]
  constructor
  · rintro ⟨a, ha, h⟩
    cases a with
    | emit t e =>
      simp only at h
      split at h
      · rename_i ht
        simp only [Option.some.injEq] at h
        subst ht; subst h; exact ha
      · simp at h
    | refuse _ _ => simp at h
    | query _ => simp at h
    | join _ _ => simp at h
    | leave _ _ => simp at h
  · intro h
    exact ⟨_, h, by simp⟩

theorem run_cons_state (lib : Lib) (s : State) (inp : Input) (env : Env)
    (rest : List (Input × Env)) :
    (run lib s ((inp, env) :: rest)).state = (run lib (step lib s inp env).state rest).state := rfl

theorem run_cons_trace (lib : Lib) (s : State) (inp : Input) (env : Env)
    (rest : List (Input × Env)) :
    (run lib s ((inp, env) :: rest)).trace =
      (step lib s inp env).trace ++ (run lib (step lib s inp env).state rest).trace := rfl

theorem no_broadcast_while_outside (lib : Lib) (chatId : Val) (c : String)
    (more : List (Input × Env)) :
    ∀ s : State, (∀ k, c ∉ members (run lib s (more.take k)).state.rooms chatId) →
      ∀ ev ∈ delivered c (run lib s more).trace, ev.target ≠ some chatId := by
  induction more with
  | nil => intro s _ ev hev; simp [run, delivered] at hev
  | cons x rest ih =>
    intro s hout ev hev
    obtain ⟨inp, env⟩ := x
    rw [mem_delivered, run_cons_trace, List.mem_append] at hev
    rcases hev with hev | hev
    · intro ht
      rcases emit_step lib s inp env c ev hev with ⟨_, hn⟩ | ⟨r, hr, hm⟩
      · rw [hn] at ht; cases ht
      · rw [hr] at ht
        cases ht
        exact (hout 0) ((mem_members _ _ _).2 hm)
    · refine ih (step lib s inp env).state (fun k => ?_) ev ((mem_delivered _ _ _).2 hev)
      have := hout (k + 1)
      simpa [List.take, run_cons_state] using this

theorem filter_id_map_patch (l : List ChatSession) (p : SessionPatch) (id id2 : Val) :
    (l.map (fun c => if c.id = id then p.apply c else c)).filter (fun c => c.id = id2) =
      (l.filter (fun c => c.id = id2)).map (fun c => if c.id = id then p.apply c else c) := by
  induction l with
  | nil => rfl
  | cons x xs ih =>
    have hx : (if x.id = id then p.apply x else x).id = x.id := by
      split <;> simp [SessionPatch.apply]
    simp only [List.map_cons, List.filter_cons, hx, ih]
    split <;> simp

theorem selectSession_after_update (st : Store) (p : SessionPatch) (id id2 : Val)
    (fault : Option String)
    (h : (st.selectSession id2 none).error = none) :
    ((st.updateSession p id fault).1.selectSession id2 none).error = none := by
  obtain ⟨sess, hsess, _⟩ := selectSession_exists st id2 none h
  cases fault with
  | some e => simpa [Store.updateSession] using h
  | none =>
    simp [Store.updateSession, Store.selectSession, filter_id_map_patch, hsess, single]

/-- C4 (amended): take a state the process can reach in which the session `chatId`
exists, and let `close_chat` for it succeed.  A following `message` event for that
id from any connection (with the store accepting lookup and insert) still passes
the existence check and inserts its row, and its broadcast is delivered to no
connection at all.  Further, over every later sequence of inputs, a connection
that is outside the room of `chatId` at each point of the sequence (it has not
rejoined) receives no event addressed to that room: no `message` row of that chat
and no `chat_closed` for it. -/
theorem closed_room_receives_nothing (lib : Lib) (store : Store) (inputs : List (Input × Env))
    (sid : String) (chatId : Val) (env : Env) (s0 s1 : State)
    (hs0 : s0 = (run lib (boot store) inputs).state)
    (hs1 : s1 = (close_chat s0 sid chatId env).state)
    (hsess : (s0.store.selectSession chatId none).error = none)
    (hupd : env.fault (.updateSession ⟨some "closed", some env.now⟩ chatId) = none) :
    (∀ (sid2 : String) (user2 : SocketUser) (content : Val) (env2 : Env),
      env2.fault (.selectSession chatId) = none →
      env2.fault (.insertMessage chatId user2.userId content) = none →
      (s1.store.selectSession chatId (env2.fault (.selectSession chatId))).error = none ∧
      (message s1 sid2 user2 chatId content env2).state.store.chat_messages =
        s1.store.chat_messages ++ [newMessage env2 chatId user2.userId content] ∧
      (∀ c ev, Action.emit c ev ∉ (message s1 sid2 user2 chatId content env2).trace)) ∧
    (∀ c, c ∉ members s1.rooms chatId) ∧
    (∀ (more : List (Input × Env)) (c : String),
      (∀ k, c ∉ members (run lib s1 (more.take k)).state.rooms chatId) →
      ∀ ev ∈ delivered c (run lib s1 more).trace, ev.target ≠ some chatId) := by
  have hwf : RoomsConnected s0 := by
    rw [hs0]; exact roomsConnected_run lib inputs (boot store) (roomsConnected_boot store)
  have hconn := members_connected _ hwf chatId
  have hempty : members s1.rooms chatId = [] := by
    rw [hs1, close_chat_ok _ sid chatId env hupd hconn]
    exact members_evict_nil _ chatId hconn
  refine ⟨?_, ?_, ?_⟩
  · intro sid2 user2 content env2 hlook hins
    have hlook1 : (s1.store.selectSession chatId (env2.fault (.selectSession chatId))).error
        = none := by
      rw [hlook, hs1, close_chat_ok _ sid chatId env hupd hconn]
      have := selectSession_after_update s0.store ⟨some "closed", some env.now⟩ chatId chatId
        none hsess
      simpa [Store.updateSession] using this
    refine ⟨hlook1, ?_, ?_⟩
    · rw [message_ok s1 sid2 user2 chatId content env2 hlook1 hins]
      cases h : env2.fault (.updateSession ⟨none, some env2.now⟩ chatId) <;>
        simp [Store.updateSession]
    · intro c ev h
      rw [message_ok s1 sid2 user2 chatId content env2 hlook1 hins] at h
      simp [broadcast, hempty] at h
  · intro c; rw [hempty]; exact List.not_mem_nil c
  · intro more c hout
    exact no_broadcast_while_outside lib chatId c more s1 hout

/-- C4 (witness): in the demo run socket `k1` closes session `S1` and then sends a
message for it; the row is stored and `k1`, which stays outside the room, gets no
event addressed to the room. -/
theorem closed_room_receives_nothing_witness :
    ((run demoLib (boot demoStore) demoInputs).state.store.selectSession (.str "S1") none).error
      = none ∧
    (demoEnv "x" 4).fault (.updateSession ⟨some "closed", some (demoEnv "x" 4).now⟩ (.str "S1"))
      = none ∧
    (message (close_chat (run demoLib (boot demoStore) demoInputs).state "k1" (.str "S1")
        (demoEnv "x" 4)).state "k1" demoUser (.str "S1") (.str "Hello")
        (demoEnv "M1" 5)).state.store.chat_messages =
      [newMessage (demoEnv "M1" 5) (.str "S1") demoUser.userId (.str "Hello")] ∧
    (∀ k, "k1" ∉ members (run demoLib
        (close_chat (run demoLib (boot demoStore) demoInputs).state "k1" (.str "S1")
          (demoEnv "x" 4)).state
        (List.take k [(Input.event "k1" (.message (.str "S1") (.str "Hello")), demoEnv "M1" 5)])).state.rooms
        (.str "S1")) ∧
    (∀ ev ∈ delivered "k1" (run demoLib
        (close_chat (run demoLib (boot demoStore) demoInputs).state "k1" (.str "S1")
          (demoEnv "x" 4)).state
        [(Input.event "k1" (.message (.str "S1") (.str "Hello")), demoEnv "M1" 5)]).trace,
      ev.target ≠ some (.str "S1")) := by
  have hk : ∀ k, "k1" ∉ members (run demoLib
      (close_chat (run demoLib (boot demoStore) demoInputs).state "k1" (.str "S1")
        (demoEnv "x" 4)).state
      (List.take k [(Input.event "k1" (.message (.str "S1") (.str "Hello")), demoEnv "M1" 5)])).state.rooms
      (.str "S1") := by
    intro k
    cases k with
    | zero => decide
    | succ n => simp only [List.take_succ_cons, List.take_nil]; decide
  have h := closed_room_receives_nothing demoLib demoStore demoInputs "k1" (.str "S1")
    (demoEnv "x" 4) _ _ rfl rfl (by decide) (by decide)
  exact ⟨by decide, by decide,
    (h.1 "k1" demoUser (.str "Hello") (demoEnv "M1" 5) (by decide) (by decide)).2.1,
    hk, h.2.2 _ "k1" hk⟩

/-- C4 (counterexample): socket `k1` is in the room of session `S1`, is evicted by
a successful `close_chat`, and never rejoins; a `message` for `S1` is persisted,
and when `k1` then asks for the history it receives `chat_history` for `S1` with
that message: an event carrying that session id reaches an evicted connection. -/
theorem evicted_connection_still_gets_history :
    "k1" ∈ members (run demoLib (boot demoStore) demoInputs).state.rooms (.str "S1") ∧
    ¬ (∀ (more : List (Input × Env)) (c : String),
      (∀ k, c ∉ members (run demoLib
          (close_chat (run demoLib (boot demoStore) demoInputs).state "k1" (.str "S1")
            (demoEnv "x" 4)).state (more.take k)).state.rooms (.str "S1")) →
      ∀ ev ∈ delivered c (run demoLib
          (close_chat (run demoLib (boot demoStore) demoInputs).state "k1" (.str "S1")
            (demoEnv "x" 4)).state more).trace,
        ev.about ≠ some (.str "S1")) := by
  refine ⟨by decide, fun h => ?_⟩
  have hk : ∀ k, "k1" ∉ members (run demoLib
      (close_chat (run demoLib (boot demoStore) demoInputs).state "k1" (.str "S1")
        (demoEnv "x" 4)).state
      (List.take k [(Input.event "k1" (.message (.str "S1") (.str "Hello")), demoEnv "M1" 5),
        (Input.event "k1" (.fetch_chat_history (.str "S1")), demoEnv "x" 6)])).state.rooms
      (.str "S1") := by
    intro k
    match k with
    | 0 => decide
    | 1 => decide
    | n + 2 => simp only [List.take_succ_cons, List.take_nil]; decide
  exact h _ "k1" hk
    (.chat_history (.str "S1")
      [⟨newMessage (demoEnv "M1" 5) (.str "S1") (.str "A1") (.str "Hello"),
        some ⟨.str "A1", .str "Ann", .str "ann@x"⟩⟩])
    (by decide) rfl

theorem authMiddleware_invalid (lib : Lib) (token : Val) (h : InvalidCredential lib token) :
    authMiddleware lib token = .error "Authentication token required" ∨
    authMiddleware lib token = .error "Invalid authentication token" := by
  unfold authMiddleware
  rcases h with h | h
  · left; simp [h]
  · cases ht : token.truthy
    · left; simp
    · right; simp [h]

theorem connected_append (s : State) (sid sid2 : String) (u : SocketUser) (rooms : List (Val × String))
    (h : Connected ⟨s.store, s.sockets ++ [(sid2, u)], rooms⟩ sid) :
    Connected s sid ∨ sid2 = sid := by
  unfold Connected at *
  simp only [List.any_append, Bool.or_eq_true, List.any_cons, List.any_nil, Bool.or_false,
    decide_eq_true_eq] at h
  exact h

theorem absent_step (lib : Lib) (s : State) (inp : Input) (env : Env) (sid : String)
    (hbad : ∀ token, inp = Input.connect sid token → InvalidCredential lib token)
    (h : Absent s sid) : Absent (step lib s inp env).state sid := by
  obtain ⟨hnc, hnr⟩ := h
  cases inp with
  | connect sid2 token =>
    simp only [step, connect]
    split
    · exact ⟨hnc, hnr⟩
    · split
      · exact ⟨hnc, hnr⟩
      · rename_i hno user hok
        have hne : sid2 ≠ sid := by
          intro he
          subst he
          rcases authMiddleware_invalid lib token (hbad token rfl) with h1 | h1 <;>
            rw [h1] at hok <;> cases hok
        constructor
        · intro hc
          rcases connected_append s sid sid2 user _ hc with h1 | h1
          · exact hnc h1
          · exact hne h1
        · intro p hp
          rcases (mem_joinRoom _ _ _ _).1 hp with hp | hp
          · rcases (mem_joinRoom _ _ _ _).1 hp with hp | hp
            · exact hnr p hp
            · rw [hp]; exact hne
          · rw [hp]; exact hne
  | event sid2 ev =>
    obtain ⟨h1, h2⟩ := onEvent_frame s sid2 ev env
    constructor
    · simp only [step, Connected, h1]; exact hnc
    · intro p hp
      rcases h2 p hp with hq | ⟨hq, hc⟩
      · exact hnr p hq
      · intro he
        rw [hq] at he
        rw [he] at hc
        exact hnc hc
  | disconnect sid2 =>
    constructor
    · intro hc
      apply hnc
      simp only [Connected, step, disconnect, List.any_eq_true, List.mem_filter] at hc ⊢
      obtain ⟨q, ⟨hq, _⟩, hq2⟩ := hc
      exact ⟨q, hq, hq2⟩
    · intro p hp
      simp only [step, disconnect, List.mem_filter] at hp
      exact hnr p hp.1
  | postChatSessions authorization customer_data =>
    obtain ⟨h1, h2⟩ := postChatSessions_frame lib s authorization customer_data env
    constructor
    · simp only [step, Connected, h1]; exact hnc
    · intro p hp
      simp only [step, h2] at hp
      exact hnr p hp
  | otherRoute users customers => exact ⟨hnc, hnr⟩

theorem absent_no_delivery (lib : Lib) (s : State) (inp : Input) (env : Env) (sid : String)
    (h : Absent s sid) : delivered sid (step lib s inp env).trace = [] := by
  rw [List.eq_nil_iff_forall_not_mem]
  intro ev hev
  rw [mem_delivered] at hev
  rcases emit_step lib s inp env sid ev hev with ⟨hc, _⟩ | ⟨r, _, hm⟩
  · exact h.1 hc
  · exact h.2 (r, sid) hm rfl

theorem delivered_append (sid : String) (a b : List Action) :
    delivered sid (a ++ b) = delivered sid a ++ delivered sid b := by
  simp [delivered, List.filterMap_append]

theorem absent_run (lib : Lib) (sid : String) (inputs : List (Input × Env)) :
    ∀ s : State, Absent s sid →
      (∀ x ∈ inputs, ∀ token, x.1 = Input.connect sid token → InvalidCredential lib token) →
      Absent (run lib s inputs).state sid ∧ delivered sid (run lib s inputs).trace = [] := by
  induction inputs with
  | nil => intro s h _; exact ⟨h, rfl⟩
  | cons x rest ih =>
    intro s h hbad
    obtain ⟨inp, env⟩ := x
    have h1 := absent_step lib s inp env sid
      (fun token he => hbad (inp, env) (List.mem_cons_self _ _) token he) h
    obtain ⟨h2, h3⟩ := ih (step lib s inp env).state h1
      (fun y hy => hbad y (List.mem_cons_of_mem _ hy))
    refine ⟨h2, ?_⟩
    rw [run_cons_trace, delivered_append, absent_no_delivery lib s inp env sid h, h3]
    rfl

theorem absent_boot (store : Store) (sid : String) : Absent (boot store) sid := by
  constructor
  · simp [Connected, boot]
  · intro p hp; simp [boot] at hp

/-- C5: a connection whose handshake credential is missing or does not verify is
refused by the middleware with the state left as it was, and whatever else
happens, if every handshake made on that socket id carries such a credential then
at every point of the run the socket is not connected (no handler is registered
for it, so its events do nothing), it is in no room, and no event of any kind,
in particular no `chat_started` and no `message`, has been emitted to it. -/
theorem invalid_credential_is_shut_out (lib : Lib) (store : Store)
    (inputs : List (Input × Env)) (sid : String)
    (hbad : ∀ x ∈ inputs, ∀ token, x.1 = Input.connect sid token → InvalidCredential lib token) :
    (∀ (s : State) (token : Val), InvalidCredential lib token → ¬ Connected s sid →
      (connect lib s sid token).state = s ∧
      ∃ reason, (connect lib s sid token).trace = [.refuse sid reason]) ∧
    (∀ k, ¬ Connected (run lib (boot store) (inputs.take k)).state sid ∧
      (∀ (ev : ClientEvent) (env : Env),
        onEvent (run lib (boot store) (inputs.take k)).state sid ev env
          = ⟨(run lib (boot store) (inputs.take k)).state, []⟩) ∧
      (∀ room, sid ∉ members (run lib (boot store) (inputs.take k)).state.rooms room) ∧
      delivered sid (run lib (boot store) (inputs.take k)).trace = []) := by
  constructor
  · intro s token hinv hnc
    have hnc2 : s.sockets.any (fun p => p.1 = sid) = false := by
      unfold Connected at hnc
      exact Bool.eq_false_iff.2 hnc
    rcases authMiddleware_invalid lib token hinv with h | h <;>
      simp [connect, hnc2, h]
  · intro k
    obtain ⟨⟨h1, h2⟩, h3⟩ := absent_run lib sid (inputs.take k) (boot store)
      (absent_boot store sid) (fun x hx => hbad x (List.mem_of_mem_take hx))
    refine ⟨h1, ?_, ?_, h3⟩
    · intro ev env
      have hf : (run lib (boot store) (inputs.take k)).state.sockets.find?
          (fun p => p.1 = sid) = none := by
        rw [List.find?_eq_none]
        intro q hq hqs
        apply h1
        unfold Connected
        rw [List.any_eq_true]
        exact ⟨q, hq, hqs⟩
      simp [onEvent, hf]
    · intro room hm
      exact h2 (room, sid) ((mem_members _ _ _).1 hm) rfl

/-- C5 (witness): the statement at a concrete run of the demo instance. -/
theorem invalid_credential_is_shut_out_witness :
    (∀ x ∈ intruderInputs, ∀ token, x.1 = Input.connect "bad" token →
      InvalidCredential demoLib token) ∧
    (∀ k, ¬ Connected (run demoLib (boot demoStore) (intruderInputs.take k)).state "bad" ∧
      (∀ (ev : ClientEvent) (env : Env),
        onEvent (run demoLib (boot demoStore) (intruderInputs.take k)).state "bad" ev env
          = ⟨(run demoLib (boot demoStore) (intruderInputs.take k)).state, []⟩) ∧
      (∀ room, "bad" ∉ members (run demoLib (boot demoStore) (intruderInputs.take k)).state.rooms
        room) ∧
      delivered "bad" (run demoLib (boot demoStore) (intruderInputs.take k)).trace = []) ∧
    delivered "k1" (run demoLib (boot demoStore) intruderInputs).trace ≠ [] := by
  have hbad : ∀ x ∈ intruderInputs, ∀ token, x.1 = Input.connect "bad" token →
      InvalidCredential demoLib token := by
    intro x hx token he
    simp only [intruderInputs, List.mem_cons, List.mem_singleton, List.not_mem_nil,
      or_false] at hx
    rcases hx with rfl | rfl | rfl | rfl | rfl
    · simp only [Input.connect.injEq] at he
      obtain ⟨_, rfl⟩ := he
      right; decide
    · cases he
    · simp only [Input.connect.injEq] at he
      exact absurd he.1 (by decide)
    · cases he
    · cases he
  exact ⟨hbad, (invalid_credential_is_shut_out demoLib demoStore intruderInputs "bad" hbad).2,
    by decide⟩

/-! ## Credentials -/

theorem authMiddleware_issued (lib : Lib) (id email role : Val)
    (h : SignedVerifies lib (issuedPayload id email role)) :
    authMiddleware lib (lib.jwtSign (issuedPayload id email role)) = .ok ⟨id, email⟩ := by
  obtain ⟨h1, h2⟩ := h
  unfold authMiddleware
  rw [h1, h2]
  simp [issuedPayload, Val.or, Val.truthy]

theorem authMiddleware_verified (lib : Lib) (token : Val) (decoded : Claims)
    (htok : token.truthy = true) (hver : lib.jwtVerify token = some decoded) :
    authMiddleware lib token =
      .ok ⟨(decoded.sub.or decoded.user_id).or decoded.userId, decoded.email⟩ := by
  simp [authMiddleware, htok, hver]

theorem or_chain_firstTruthy (a b c : Val) :
    (∀ v, firstTruthy [a, b, c] = some v → (a.or b).or c = v) ∧
    (firstTruthy [a, b, c] = none → (a.or b).or c = c) := by
  constructor
  · intro v hv
    simp only [firstTruthy, List.find?, Val.or] at hv ⊢
    cases h1 : a.truthy <;> cases h2 : b.truthy <;> cases h3 : c.truthy <;> simp_all
  · intro hv
    simp only [firstTruthy, List.find?, Val.or] at hv ⊢
    cases h1 : a.truthy <;> cases h2 : b.truthy <;> cases h3 : c.truthy <;> simp_all

theorem authLogin_token (lib : Lib) (st : Store) (email password : Val) (fault : Option String)
    (t : Val) (hlogin : authLogin lib st email password fault = ⟨200, .token t⟩) :
    ∃ u ∈ st.users, u.email = email ∧ t = lib.jwtSign (issuedPayload u.id u.email u.role) := by
  unfold authLogin at hlogin
  simp only at hlogin
  split at hlogin
  · rename_i data herr hdata
    split at hlogin
    · simp only [HttpResponse.mk.injEq, HttpBody.token.injEq, true_and] at hlogin
      have hmem : data ∈ st.users ∧ data.email = email := by
        unfold single at hdata herr
        cases fault with
        | some e => simp at hdata
        | none =>
          simp only at hdata
          split at hdata
          · rename_i r hr
            simp only [Option.some.injEq] at hdata
            subst hdata
            have := mem_of_filter_eq_singleton _ _ _ hr
            exact ⟨this.1, by simpa using this.2⟩
          · simp at hdata
      exact ⟨data, hmem.1, hmem.2, hlogin.symm⟩
    · simp at hlogin
  · simp at hlogin

theorem authRegister_token (lib : Lib) (st st2 : Store) (email password role : Val) (env : Env)
    (fault : Option String) (t : Val)
    (hreg : authRegister lib st email password role env fault = (st2, ⟨201, .token t⟩)) :
    st2.users = st.users ++ [⟨env.newId, .null, email, lib.bcryptHash password, role⟩] ∧
    t = lib.jwtSign (issuedPayload env.newId email role) := by
  unfold authRegister at hreg
  split at hreg
  · simp at hreg
  · split at hreg
    · simp at hreg
    · simp only [Prod.mk.injEq, HttpResponse.mk.injEq, HttpBody.token.injEq, true_and] at hreg
      obtain ⟨hst, ht⟩ := hreg
      exact ⟨by rw [← hst], ht.symm⟩

/-- C6: a credential that is present and verifies against the shared secret makes
the middleware yield the subject whose `email` is the email claim and whose
`userId` is the first truthy of the claims `sub`, `user_id`, `userId` (and the
`userId` claim itself when none of the three is truthy).  For the token returned
by a successful `POST /auth/login` the subject id is the id of the user row with
the given email, and for the token returned by a successful `POST /auth/register`
it is the id of the user row just created; both under the assumption on the
library that the credential it signs for that user is present and verifies to the
claims that were signed. -/
theorem token_verifier_subject (lib : Lib) :
    (∀ (token : Val) (decoded : Claims),
      token.truthy = true → lib.jwtVerify token = some decoded →
      ∃ user, authMiddleware lib token = .ok user ∧ user.email = decoded.email ∧
        (∀ v, firstTruthy [decoded.sub, decoded.user_id, decoded.userId] = some v →
          user.userId = v) ∧
        (firstTruthy [decoded.sub, decoded.user_id, decoded.userId] = none →
          user.userId = decoded.userId)) ∧
    (∀ (st : Store) (email password : Val) (fault : Option String) (t : Val),
      (∀ u ∈ st.users, SignedVerifies lib (issuedPayload u.id u.email u.role)) →
      authLogin lib st email password fault = ⟨200, .token t⟩ →
      ∃ u ∈ st.users, u.email = email ∧ authMiddleware lib t = .ok ⟨u.id, u.email⟩) ∧
    (∀ (st st2 : Store) (email password role : Val) (env : Env) (fault : Option String)
        (t : Val),
      SignedVerifies lib (issuedPayload env.newId email role) →
      authRegister lib st email password role env fault = (st2, ⟨201, .token t⟩) →
      ∃ u, st2.users = st.users ++ [u] ∧ u.email = email ∧
        authMiddleware lib t = .ok ⟨u.id, u.email⟩) := by
  refine ⟨?_, ?_, ?_⟩
  · intro token decoded htok hver
    obtain ⟨h1, h2⟩ := or_chain_firstTruthy decoded.sub decoded.user_id decoded.userId
    exact ⟨_, authMiddleware_verified lib token decoded htok hver, rfl, h1, h2⟩
  · intro st email password fault t hsign hlogin
    obtain ⟨u, hu, hemail, ht⟩ := authLogin_token lib st email password fault t hlogin
    refine ⟨u, hu, hemail, ?_⟩
    rw [ht]
    exact authMiddleware_issued lib _ _ _ (hsign u hu)
  · intro st st2 email password role env fault t hsign hreg
    obtain ⟨hst, ht⟩ := authRegister_token lib st st2 email password role env fault t hreg
    refine ⟨_, hst, rfl, ?_⟩
    rw [ht]
    exact authMiddleware_issued lib _ _ _ hsign

/-- C6 (witness): the statement at the demo instance, for the token `"good"`, a
login of the demo agent and a registration into an empty store. -/
theorem token_verifier_subject_witness :
    (demoLib.jwtVerify (.str "good") = some demoClaims ∧
      ∃ user, authMiddleware demoLib (.str "good") = .ok user ∧
        user.email = demoClaims.email ∧
        (∀ v, firstTruthy [demoClaims.sub, demoClaims.user_id, demoClaims.userId] = some v →
          user.userId = v) ∧
        (firstTruthy [demoClaims.sub, demoClaims.user_id, demoClaims.userId] = none →
          user.userId = demoClaims.userId)) ∧
    (authLogin demoLib demoStore (.str "ann@x") (.str "pw") none
        = ⟨200, .token (.str "good")⟩ ∧
      ∃ u ∈ demoStore.users, u.email = .str "ann@x" ∧
        authMiddleware demoLib (.str "good") = .ok ⟨u.id, u.email⟩) ∧
    (authRegister demoLib ⟨[], [], [], []⟩ (.str "ann@x") (.str "pw") (.str "agent")
          (demoEnv "A1" 1) none
        = (⟨[⟨.str "A1", .null, .str "ann@x", .str "pw", .str "agent"⟩], [], [], []⟩,
            ⟨201, .token (.str "good")⟩) ∧
      ∃ u, [(⟨.str "A1", .null, .str "ann@x", .str "pw", .str "agent"⟩ : User)] = [] ++ [u] ∧
        u.email = .str "ann@x" ∧
        authMiddleware demoLib (.str "good") = .ok ⟨u.id, u.email⟩) :=
  ⟨⟨by decide,
    (token_verifier_subject demoLib).1 (.str "good") demoClaims (by decide) (by decide)⟩,
   ⟨by decide,
    (token_verifier_subject demoLib).2.1 demoStore (.str "ann@x") (.str "pw") none (.str "good")
      (by intro u hu
          simp only [demoStore, List.mem_singleton] at hu
          subst hu
          exact ⟨rfl, rfl⟩)
      (by decide)⟩,
   ⟨by decide,
    (token_verifier_subject demoLib).2.2 ⟨[], [], [], []⟩
      ⟨[⟨.str "A1", .null, .str "ann@x", .str "pw", .str "agent"⟩], [], [], []⟩
      (.str "ann@x") (.str "pw") (.str "agent") (demoEnv "A1" 1) none (.str "good")
      ⟨rfl, rfl⟩ (by decide)⟩⟩

/-! ## The existence check of `message` -/

theorem message_lookup_failed (s : State) (sid : String) (user : SocketUser)
    (chatId content : Val) (env : Env) (e : String)
    (h : (s.store.selectSession chatId (env.fault (.selectSession chatId))).error = some e) :
    message s sid user chatId content env =
      ⟨s, [.query (.selectSession chatId),
        .emit sid (.error "Failed to send message: Chat not found or access denied"
          "Chat not found or access denied")]⟩ := by
  unfold message
  simp only [h]
  rfl

theorem message_messages (s : State) (sid : String) (user : SocketUser)
    (chatId content : Val) (env : Env) :
    (message s sid user chatId content env).state.store.chat_messages = s.store.chat_messages ∨
    ((s.store.selectSession chatId (env.fault (.selectSession chatId))).error = none ∧
      (message s sid user chatId content env).state.store.chat_messages =
        s.store.chat_messages ++ [newMessage env chatId user.userId content]) := by
  cases hl : (s.store.selectSession chatId (env.fault (.selectSession chatId))).error with
  | some e => left; rw [message_lookup_failed s sid user chatId content env e hl]
  | none =>
    cases hi : env.fault (.insertMessage chatId user.userId content) with
    | some e => left; unfold message; simp [hl, hi, Store.insertMessage]
    | none =>
      right
      refine ⟨rfl, ?_⟩
      rw [message_ok s sid user chatId content env hl hi]
      cases h : env.fault (.updateSession ⟨none, some env.now⟩ chatId) <;>
        simp [Store.updateSession]

theorem start_chat_messages (s : State) (sid : String) (user : SocketUser) (customerId : Val)
    (env : Env) :
    (start_chat s sid user customerId env).state.store.chat_messages = s.store.chat_messages := by
  unfold start_chat
  simp only
  split
  · rfl
  · cases h : env.fault (.insertSession customerId user.userId "active") <;>
      simp [Store.insertSession, h]

theorem close_chat_messages (s : State) (sid : String) (chatId : Val) (env : Env) :
    (close_chat s sid chatId env).state.store.chat_messages = s.store.chat_messages := by
  unfold close_chat
  cases h : env.fault (.updateSession ⟨some "closed", some env.now⟩ chatId)
  · simp only [Store.updateSession, h]
    split <;> rfl
  · simp [Store.updateSession, h]

theorem postChatSessions_messages (lib : Lib) (s : State) (authorization : Option String)
    (customer_data : Val) (env : Env) :
    (postChatSessions lib s authorization customer_data env).1.state.store.chat_messages
      = s.store.chat_messages := by
  unfold postChatSessions
  split
  · rfl
  · rename_i user _
    cases h : env.fault (.insertQueuedSession customer_data "pending" user.userId) <;>
      simp [Store.insertSession, h]

/-- C7: the `message` handler sends the `chat_messages` insert only after the
lookup of `chat_sessions` by `chatId` answered with a row and no error, so a row
that any transition of the program adds to `chat_messages` has a `chat_id` for
which a session row existed in the store when it was checked; and when the lookup
fails the state is unchanged, nothing is inserted or broadcast, and the only event
is an `error` to the sender with the message
`Failed to send message: Chat not found or access denied`. -/
theorem message_inserts_only_after_lookup (lib : Lib) (s : State) (sid : String)
    (user : SocketUser) (chatId content : Val) (env : Env) :
    (∀ a b c, Action.query (.insertMessage a b c) ∈ (message s sid user chatId content env).trace →
      a = chatId ∧
      ∃ sess, s.store.selectSession chatId (env.fault (.selectSession chatId))
          = ⟨some sess, none⟩ ∧ sess ∈ s.store.chat_sessions ∧ sess.id = chatId) ∧
    (∀ (inp : Input),
      (step lib s inp env).state.store.chat_messages = s.store.chat_messages ∨
      ∃ row, (step lib s inp env).state.store.chat_messages = s.store.chat_messages ++ [row] ∧
        ∃ sess ∈ s.store.chat_sessions, sess.id = row.chat_id) ∧
    (∀ e, (s.store.selectSession chatId (env.fault (.selectSession chatId))).error = some e →
      (message s sid user chatId content env).state = s ∧
      (message s sid user chatId content env).trace =
        [.query (.selectSession chatId),
         .emit sid (.error "Failed to send message: Chat not found or access denied"
           "Chat not found or access denied")] ∧
      (∀ c ev, Action.emit c ev ∈ (message s sid user chatId content env).trace →
        c = sid ∧ ev = .error "Failed to send message: Chat not found or access denied"
          "Chat not found or access denied")) := by
  have key : ∀ (sid : String) (user : SocketUser) (chatId content : Val),
      (s.store.selectSession chatId (env.fault (.selectSession chatId))).error = none →
      ∃ sess, s.store.selectSession chatId (env.fault (.selectSession chatId))
          = ⟨some sess, none⟩ ∧ sess ∈ s.store.chat_sessions ∧ sess.id = chatId := by
    intro _ _ chatId _ hl
    obtain ⟨sess, hsess, heq⟩ := selectSession_exists _ _ _ hl
    obtain ⟨hmem, hid⟩ := mem_of_filter_eq_singleton _ _ _ hsess
    exact ⟨sess, heq, hmem, by simpa using hid⟩
  refine ⟨?_, ?_, ?_⟩
  · intro a b c hq
    cases hl : (s.store.selectSession chatId (env.fault (.selectSession chatId))).error with
    | some e =>
      rw [message_lookup_failed s sid user chatId content env e hl] at hq
      simp at hq
    | none =>
      refine ⟨?_, key sid user chatId content hl⟩
      unfold message at hq
      simp only [hl] at hq
      split at hq
      · simp at hq; exact hq.1
      · simp [broadcast] at hq; exact hq.1
  · intro inp
    cases inp with
    | connect sid2 token =>
      left
      simp only [step, connect]
      split
      · rfl
      · split <;> rfl
    | event sid2 ev =>
      simp only [step, onEvent]
      split
      · left; rfl
      · rename_i q _
        cases ev with
        | start_chat customerId => left; exact start_chat_messages _ _ _ _ _
        | message chatId2 content2 =>
          rcases message_messages s sid2 q.2 chatId2 content2 env with h | ⟨hl, h⟩
          · left; exact h
          · right
            obtain ⟨sess, _, hmem, hid⟩ := key sid2 q.2 chatId2 content2 hl
            exact ⟨_, h, sess, hmem, hid⟩
        | fetch_chat_history chatId2 => left; rw [fetch_chat_history_state]
        | close_chat chatId2 => left; exact close_chat_messages _ _ _ _
        | typing_start _ => left; rfl
        | typing_stop _ => left; rfl
    | disconnect sid2 => left; rfl
    | postChatSessions authorization customer_data =>
      left; exact postChatSessions_messages _ _ _ _ _
    | otherRoute users customers => left; rfl
  · intro e he
    rw [message_lookup_failed s sid user chatId content env e he]
    refine ⟨rfl, rfl, ?_⟩
    intro c ev h
    simp at h
    exact h

/-- C7 (witness): the statement at a concrete run of the demo instance. -/
theorem message_inserts_only_after_lookup_witness :
    ((run demoLib (boot demoStore) demoInputs).state.store.selectSession (.str "nope")
        ((demoEnv "M1" 3).fault (.selectSession (.str "nope")))).error
      = some "JSON object requested, multiple (or no) rows returned" ∧
    (message (run demoLib (boot demoStore) demoInputs).state "k1" demoUser (.str "nope")
        (.str "Hello") (demoEnv "M1" 3)).state = (run demoLib (boot demoStore) demoInputs).state ∧
    (message (run demoLib (boot demoStore) demoInputs).state "k1" demoUser (.str "nope")
        (.str "Hello") (demoEnv "M1" 3)).trace =
      [.query (.selectSession (.str "nope")),
       .emit "k1" (.error "Failed to send message: Chat not found or access denied"
         "Chat not found or access denied")] :=
  ⟨by decide,
   ((message_inserts_only_after_lookup demoLib (run demoLib (boot demoStore) demoInputs).state
      "k1" demoUser (.str "nope") (.str "Hello") (demoEnv "M1" 3)).2.2
      "JSON object requested, multiple (or no) rows returned" (by decide)).1,
   ((message_inserts_only_after_lookup demoLib (run demoLib (boot demoStore) demoInputs).state
      "k1" demoUser (.str "nope") (.str "Hello") (demoEnv "M1" 3)).2.2
      "JSON object requested, multiple (or no) rows returned" (by decide)).2.1⟩

/-! ## The session table -/

theorem start_chat_sessions (s : State) (sid : String) (user : SocketUser) (customerId : Val)
    (env : Env) :
    (start_chat s sid user customerId env).state.store.chat_sessions = s.store.chat_sessions ∨
    (start_chat s sid user customerId env).state.store.chat_sessions =
      s.store.chat_sessions ++ [newSession env customerId user.userId "active"] := by
  unfold start_chat
  simp only
  split
  · left; rfl
  · cases h : env.fault (.insertSession customerId user.userId "active") <;>
      simp [Store.insertSession, h]

theorem message_sessions (s : State) (sid : String) (user : SocketUser) (chatId content : Val)
    (env : Env) :
    (message s sid user chatId content env).state.store.chat_sessions = s.store.chat_sessions ∨
    (message s sid user chatId content env).state.store.chat_sessions =
      s.store.chat_sessions.map
        (fun c => if c.id = chatId then SessionPatch.apply ⟨none, some env.now⟩ c else c) := by
  unfold message
  simp only
  split
  · left; rfl
  · cases h : env.fault (.insertMessage chatId user.userId content)
    · cases h2 : env.fault (.updateSession ⟨none, some env.now⟩ chatId) <;>
        simp [Store.insertMessage, Store.updateSession, h, h2]
    · simp [Store.insertMessage, h]

theorem close_chat_sessions (s : State) (sid : String) (chatId : Val) (env : Env) :
    (close_chat s sid chatId env).state.store.chat_sessions = s.store.chat_sessions ∨
    (close_chat s sid chatId env).state.store.chat_sessions =
      s.store.chat_sessions.map
        (fun c => if c.id = chatId then SessionPatch.apply ⟨some "closed", some env.now⟩ c
          else c) := by
  unfold close_chat
  cases h : env.fault (.updateSession ⟨some "closed", some env.now⟩ chatId)
  · right
    simp only [Store.updateSession, h]
    split <;> rfl
  · left; simp [Store.updateSession, h]

theorem postChatSessions_sessions (lib : Lib) (s : State) (authorization : Option String)
    (customer_data : Val) (env : Env) :
    (postChatSessions lib s authorization customer_data env).1.state.store.chat_sessions
      = s.store.chat_sessions ∨
    ∃ created_by, (postChatSessions lib s authorization customer_data env).1.state.store.chat_sessions
      = s.store.chat_sessions ++ [newQueuedSession env customer_data "pending" created_by] := by
  unfold postChatSessions
  split
  · left; rfl
  · rename_i user _
    cases h : env.fault (.insertQueuedSession customer_data "pending" user.userId)
    · right; exact ⟨user.userId, by simp [Store.insertSession, h]⟩
    · left; simp [Store.insertSession, h]

theorem evolves_refl (l : List ChatSession) : Evolves l l :=
  ⟨id, [], by simp, fun c => ⟨rfl, Or.inl rfl⟩, fun c hc => by simp at hc⟩

theorem evolves_append (l : List ChatSession) (c : ChatSession) (h : WrittenStatus c.status) :
    Evolves l (l ++ [c]) :=
  ⟨id, [c], by simp, fun c => ⟨rfl, Or.inl rfl⟩, fun d hd => by
    rw [List.mem_singleton] at hd; rw [hd]; exact h⟩

theorem evolves_patch (l : List ChatSession) (p : SessionPatch) (id : Val)
    (h : p.status = none ∨ p.status = some "closed") :
    Evolves l (l.map (fun c => if c.id = id then p.apply c else c)) := by
  refine ⟨fun c => if c.id = id then p.apply c else c, [], by simp, fun c => ?_,
    fun c hc => by simp at hc⟩
  by_cases hc : c.id = id
  · beta_reduce
    rw [if_pos hc]
    refine ⟨by simp [SessionPatch.apply], ?_⟩
    rcases h with h | h
    · left; simp [SessionPatch.apply, h]
    · right; simp [SessionPatch.apply, h]
  · beta_reduce
    rw [if_neg hc]
    exact ⟨rfl, Or.inl rfl⟩

theorem evolves_trans (a b c : List ChatSession) (h1 : Evolves a b) (h2 : Evolves b c) :
    Evolves a c := by
  obtain ⟨g1, e1, rfl, hg1, he1⟩ := h1
  obtain ⟨g2, e2, rfl, hg2, he2⟩ := h2
  refine ⟨g2 ∘ g1, e1.map g2 ++ e2, by simp [List.map_append], fun x => ?_, fun x hx => ?_⟩
  · refine ⟨by simp [(hg2 (g1 x)).1, (hg1 x).1], ?_⟩
    rcases (hg2 (g1 x)).2 with h | h
    · rcases (hg1 x).2 with h' | h'
      · left; simp [h, h']
      · right; simp [h, h']
    · right; simpa using h
  · rw [List.mem_append, List.mem_map] at hx
    rcases hx with ⟨y, hy, rfl⟩ | hx
    · rcases (hg2 y).2 with h | h
      · rw [h]; exact he1 y hy
      · rw [h]; exact Or.inr (Or.inl rfl)
    · exact he2 x hx

theorem evolves_step (lib : Lib) (s : State) (inp : Input) (env : Env) :
    Evolves s.store.chat_sessions (step lib s inp env).state.store.chat_sessions := by
  cases inp with
  | connect sid token =>
    simp only [step, connect]
    split
    · exact evolves_refl _
    · split <;> exact evolves_refl _
  | event sid ev =>
    simp only [step, onEvent]
    split
    · exact evolves_refl _
    · rename_i q _
      cases ev with
      | start_chat customerId =>
        rcases start_chat_sessions s sid q.2 customerId env with h | h
        · rw [h]; exact evolves_refl _
        · rw [h]; exact evolves_append _ _ (Or.inl rfl)
      | message chatId content =>
        rcases message_sessions s sid q.2 chatId content env with h | h
        · rw [h]; exact evolves_refl _
        · rw [h]; exact evolves_patch _ _ _ (Or.inl rfl)
      | fetch_chat_history chatId => rw [fetch_chat_history_state]; exact evolves_refl _
      | close_chat chatId =>
        rcases close_chat_sessions s sid chatId env with h | h
        · rw [h]; exact evolves_refl _
        · rw [h]; exact evolves_patch _ _ _ (Or.inr rfl)
      | typing_start _ => exact evolves_refl _
      | typing_stop _ => exact evolves_refl _
  | disconnect sid => exact evolves_refl _
  | postChatSessions authorization customer_data =>
    rcases postChatSessions_sessions lib s authorization customer_data env with h | ⟨u, h⟩
    · simp only [step]; rw [h]; exact evolves_refl _
    · simp only [step]; rw [h]; exact evolves_append _ _ (Or.inr (Or.inr rfl))
  | otherRoute users customers => exact evolves_refl _

theorem evolves_run (lib : Lib) (inputs : List (Input × Env)) :
    ∀ s : State, Evolves s.store.chat_sessions (run lib s inputs).state.store.chat_sessions := by
  induction inputs with
  | nil => intro s; exact evolves_refl _
  | cons x rest ih =>
    intro s
    obtain ⟨inp, env⟩ := x
    rw [run_cons_state]
    exact evolves_trans _ _ _ (evolves_step lib s inp env) (ih _)

theorem evolves_index (before after : List ChatSession) (h : Evolves before after) (i : Nat)
    (c : ChatSession) (hc : before[i]? = some c) :
    ∃ c2, after[i]? = some c2 ∧ c2.id = c.id ∧ (c2.status = c.status ∨ c2.status = "closed") := by
  obtain ⟨g, extra, rfl, hg, _⟩ := h
  have hi : i < before.length := by
    rcases Nat.lt_or_ge i before.length with h | h
    · exact h
    · rw [List.getElem?_eq_none h] at hc; cases hc
  refine ⟨g c, ?_, (hg c).1, (hg c).2⟩
  rw [List.getElem?_append_left (by simpa using hi), List.getElem?_map, hc]
  rfl

/-- C8 (counterexample): a session queued by `POST /chat/sessions` has status
`pending`, and `close_chat` for its id moves it from `pending` to `closed`: a
change of status that does not start from `active`. -/
theorem pending_session_gets_closed :
    ¬ (∀ (inputs : List (Input × Env)) (inp : Input) (env : Env) (i : Nat)
        (c c2 : ChatSession),
      (run demoLib (boot demoStore) inputs).state.store.chat_sessions[i]? = some c →
      (step demoLib (run demoLib (boot demoStore) inputs).state inp env).state.store.chat_sessions[i]?
        = some c2 →
      c2.status ≠ c.status → c.status = "active" ∧ c2.status = "closed") := by
  intro h
  have h1 := h queueInputs (.event "k1" (.close_chat (.str "P1"))) (demoEnv "x" 3) 0
    ⟨.str "P1", .null, .null, "pending", 1, 1, .str "walk-in", .str "A1"⟩
    ⟨.str "P1", .null, .null, "closed", 1, 3, .str "walk-in", .str "A1"⟩
    (by decide) (by decide) (by decide)
  exact absurd h1.1 (by decide)

/-- C8 (amended): from every state, over every sequence of events the program
handles (socket events, connects and disconnects, `POST /chat/sessions`, the
other HTTP routes), each session row stays at its place with its id, and its
status afterwards is either the status it had or `closed`; so a session that is
`closed` stays `closed`, and the only change of status is to `closed`.  When the
table holds only statuses the program writes, such a change starts from `active`
or from `pending`, the status of a row queued over HTTP. -/
theorem closed_is_terminal (lib : Lib) (s : State) (inputs : List (Input × Env)) (i : Nat)
    (c : ChatSession) (hc : s.store.chat_sessions[i]? = some c) :
    ∃ c2, (run lib s inputs).state.store.chat_sessions[i]? = some c2 ∧ c2.id = c.id ∧
      (c2.status = c.status ∨ c2.status = "closed") ∧
      (c.status = "closed" → c2.status = "closed") ∧
      ((∀ d ∈ s.store.chat_sessions, WrittenStatus d.status) → c2.status ≠ c.status →
        (c.status = "active" ∨ c.status = "pending") ∧ c2.status = "closed") := by
  obtain ⟨c2, h1, h2, h3⟩ := evolves_index _ _ (evolves_run lib inputs s) i c hc
  refine ⟨c2, h1, h2, h3, fun hcl => ?_, fun hw hne => ?_⟩
  · rcases h3 with h | h
    · rw [h, hcl]
    · exact h
  · have hmem : c ∈ s.store.chat_sessions := List.getElem?_mem hc
    rcases h3 with h | h
    · exact absurd h hne
    · refine ⟨?_, h⟩
      rcases hw c hmem with ha | hcl | hp
      · exact Or.inl ha
      · rw [h, hcl] at hne; exact absurd rfl hne
      · exact Or.inr hp

/-- C8 (witness): the queued session `P1`, once closed, is still `closed` after a
later `message` for it and a later `start_chat`. -/
theorem closed_is_terminal_witness :
    (step demoLib (run demoLib (boot demoStore) queueInputs).state
        (.event "k1" (.close_chat (.str "P1"))) (demoEnv "x" 3)).state.store.chat_sessions[0]?
      = some ⟨.str "P1", .null, .null, "closed", 1, 3, .str "walk-in", .str "A1"⟩ ∧
    ∃ c2, (run demoLib
        (step demoLib (run demoLib (boot demoStore) queueInputs).state
          (.event "k1" (.close_chat (.str "P1"))) (demoEnv "x" 3)).state
        [(.event "k1" (.message (.str "P1") (.str "Hello")), demoEnv "M1" 4),
         (.event "k1" (.start_chat (.str "C1")), demoEnv "S1" 5)]).state.store.chat_sessions[0]?
        = some c2 ∧
      c2.id = .str "P1" ∧ c2.status = "closed" := by
  obtain ⟨c2, h1, h2, _, h4, _⟩ := closed_is_terminal demoLib
    (step demoLib (run demoLib (boot demoStore) queueInputs).state
      (.event "k1" (.close_chat (.str "P1"))) (demoEnv "x" 3)).state
    [(.event "k1" (.message (.str "P1") (.str "Hello")), demoEnv "M1" 4),
     (.event "k1" (.start_chat (.str "C1")), demoEnv "S1" 5)] 0
    ⟨.str "P1", .null, .null, "closed", 1, 3, .str "walk-in", .str "A1"⟩ (by decide)
  exact ⟨by decide, c2, h1, h2, h4 rfl⟩

/-- C9 (counterexample): starting from an empty `chat_sessions` table, the row
created by `POST /chat/sessions` has status `pending`, which is neither `active`
nor `closed`. -/
theorem queued_session_is_pending :
    ¬ (∀ (inputs : List (Input × Env)),
      ∀ c ∈ (run demoLib (boot demoStore) inputs).state.store.chat_sessions,
        c.status = "active" ∨ c.status = "closed") := by
  intro h
  have h1 := h queueInputs ⟨.str "P1", .null, .null, "pending", 1, 1, .str "walk-in", .str "A1"⟩
    (by decide)
  exact absurd h1 (by decide)

/-- C9 (amended): starting from a `chat_sessions` table whose rows have status
`active`, `closed` or `pending` (an empty table in particular), after every
sequence of events each row has one of these three statuses: a row is created
with `active` by `start_chat` and with `pending` by `POST /chat/sessions`, and an
update either keeps the status or writes `closed`. -/
theorem session_status_is_written (lib : Lib) (s : State) (inputs : List (Input × Env))
    (h0 : ∀ c ∈ s.store.chat_sessions, WrittenStatus c.status) :
    Evolves s.store.chat_sessions (run lib s inputs).state.store.chat_sessions ∧
    ∀ c ∈ (run lib s inputs).state.store.chat_sessions, WrittenStatus c.status := by
  have hev := evolves_run lib inputs s
  refine ⟨hev, ?_⟩
  obtain ⟨g, extra, heq, hg, hextra⟩ := hev
  intro c hc
  rw [heq, List.mem_append, List.mem_map] at hc
  rcases hc with ⟨d, hd, rfl⟩ | hc
  · rcases (hg d).2 with h | h
    · rw [h]; exact h0 d hd
    · rw [h]; exact Or.inr (Or.inl rfl)
  · exact hextra c hc

/-- C9 (witness): the statement at a concrete run of the demo instance. -/
theorem session_status_is_written_witness :
    (∀ c ∈ (boot demoStore).store.chat_sessions, WrittenStatus c.status) ∧
    ∀ c ∈ (run demoLib (boot demoStore) (queueInputs ++ demoInputs)).state.store.chat_sessions,
      WrittenStatus c.status :=
  ⟨by intro c hc; simp [boot, demoStore] at hc,
   (session_status_is_written demoLib (boot demoStore) (queueInputs ++ demoInputs)
     (by intro c hc; simp [boot, demoStore] at hc)).2⟩

/-- C10: `start_chat` sends the store a customer lookup and at most one
`chat_sessions` insert and nothing else, so it never looks an existing session
up; whatever the outcome it leaves the existing session rows as they are; a
successful one sends exactly one insert and adds exactly one row behind them; and
two successful `start_chat` events of the same subject for the same customer
leave two new rows for that pair. -/
theorem start_chat_always_inserts (s : State) :
    (∀ (e : Env) (k : String) (u : SocketUser) (cid : Val),
      (∀ op ∈ queries (start_chat s k u cid e).trace,
        op = .selectCustomer cid ∨ op = .insertSession cid u.userId "active") ∧
      ((start_chat s k u cid e).state.store.chat_sessions = s.store.chat_sessions ∨
       ∃ row, (start_chat s k u cid e).state.store.chat_sessions
         = s.store.chat_sessions ++ [row])) ∧
    (∀ (sid sid2 : String) (user : SocketUser) (customerId : Val) (env env2 : Env)
        (c : Customer),
      s.store.selectCustomer customerId none = ⟨some c, none⟩ →
      env.fault (.selectCustomer customerId) = none →
      env.fault (.insertSession customerId user.userId "active") = none →
      env2.fault (.selectCustomer customerId) = none →
      env2.fault (.insertSession customerId user.userId "active") = none →
      queries (start_chat s sid user customerId env).trace =
        [.selectCustomer customerId, .insertSession customerId user.userId "active"] ∧
      ∃ r1 r2 : ChatSession,
        (start_chat s sid user customerId env).state.store.chat_sessions
          = s.store.chat_sessions ++ [r1] ∧
        (start_chat (start_chat s sid user customerId env).state sid2 user customerId
            env2).state.store.chat_sessions
          = s.store.chat_sessions ++ [r1, r2] ∧
        r1.agent_id = user.userId ∧ r1.customer_id = customerId ∧ r1.status = "active" ∧
        r2.agent_id = user.userId ∧ r2.customer_id = customerId ∧ r2.status = "active" ∧
        r1.id = env.newId ∧ r2.id = env2.newId) := by
  refine ⟨?_, ?_⟩
  · intro e k u cid
    constructor
    · intro op hop
      unfold start_chat at hop
      simp only at hop
      split at hop
      · simp [queries] at hop; exact Or.inl hop
      · split at hop
        · simp [queries] at hop; exact hop
        · split at hop
          · simp [queries] at hop; exact hop
          · simp [queries] at hop; exact hop
    · rcases start_chat_sessions s k u cid e with h | h
      · exact Or.inl h
      · exact Or.inr ⟨_, h⟩
  · intro sid sid2 user customerId env env2 c hcust hlook hins hlook2 hins2
    have h1 : s.store.selectCustomer customerId (env.fault (.selectCustomer customerId))
        = ⟨some c, none⟩ := by rw [hlook]; exact hcust
    have h2 : (start_chat s sid user customerId env).state.store.selectCustomer customerId
        (env2.fault (.selectCustomer customerId)) = ⟨some c, none⟩ := by
      rw [hlook2, start_chat_ok s sid user customerId env c h1 hins]
      exact hcust
    refine ⟨?_, newSession env customerId user.userId "active",
      newSession env2 customerId user.userId "active", ?_, ?_, rfl, rfl, rfl, rfl, rfl, rfl,
      rfl, rfl⟩
    · rw [start_chat_ok s sid user customerId env c h1 hins]
      rfl
    · rw [start_chat_ok s sid user customerId env c h1 hins]
    · rw [start_chat_ok _ sid2 user customerId env2 c h2 hins2,
        start_chat_ok s sid user customerId env c h1 hins]
      simp

/-- C10 (witness): two `start_chat` events of the demo agent for customer `C1`
leave the two rows `S1` and `S2`. -/
theorem start_chat_always_inserts_witness :
    (boot demoStore).store.selectCustomer (.str "C1") none
      = ⟨some ⟨.str "C1", .str "Carl", .str "carl@x"⟩, none⟩ ∧
    (start_chat (start_chat (boot demoStore) "k1" demoUser (.str "C1") (demoEnv "S1" 2)).state
        "k1" demoUser (.str "C1") (demoEnv "S2" 3)).state.store.chat_sessions
      = [newSession (demoEnv "S1" 2) (.str "C1") (.str "A1") "active",
         newSession (demoEnv "S2" 3) (.str "C1") (.str "A1") "active"] ∧
    queries (start_chat (boot demoStore) "k1" demoUser (.str "C1") (demoEnv "S1" 2)).trace =
      [.selectCustomer (.str "C1"), .insertSession (.str "C1") demoUser.userId "active"] :=
  ⟨by decide, by decide,
   ((start_chat_always_inserts (boot demoStore)).2 "k1" "k1" demoUser (.str "C1")
     (demoEnv "S1" 2) (demoEnv "S2" 3) ⟨.str "C1", .str "Carl", .str "carl@x"⟩ (by decide)
     (by decide) (by decide) (by decide) (by decide)).1⟩

/-! ## Failures of `start_chat` -/

theorem start_chat_customer_missing (s : State) (sid : String) (user : SocketUser)
    (customerId : Val) (env : Env)
    (h : (s.store.selectCustomer customerId (env.fault (.selectCustomer customerId))).error.isSome
          = true ∨
        (s.store.selectCustomer customerId (env.fault (.selectCustomer customerId))).data.isNone
          = true) :
    start_chat s sid user customerId env =
      ⟨s, [.query (.selectCustomer customerId),
        .emit sid (.error "Failed to start chat: Customer not found" "Customer not found")]⟩ := by
  unfold start_chat
  have h2 : ((s.store.selectCustomer customerId
      (env.fault (.selectCustomer customerId))).error.isSome ||
      (s.store.selectCustomer customerId
        (env.fault (.selectCustomer customerId))).data.isNone) = true := by
    rcases h with h | h <;> simp [h]
  simp only [h2, if_true]
  rfl

theorem start_chat_insert_failed (s : State) (sid : String) (user : SocketUser)
    (customerId : Val) (env : Env) (e : String)
    (hcust : ((s.store.selectCustomer customerId
        (env.fault (.selectCustomer customerId))).error.isSome ||
      (s.store.selectCustomer customerId
        (env.fault (.selectCustomer customerId))).data.isNone) = false)
    (hins : env.fault (.insertSession customerId user.userId "active") = some e) :
    start_chat s sid user customerId env =
      ⟨s, [.query (.selectCustomer customerId),
        .query (.insertSession customerId user.userId "active"),
        .emit sid (.error ("Failed to start chat: " ++ ("Failed to create chat session: " ++ e))
          ("Failed to create chat session: " ++ e))]⟩ := by
  unfold start_chat
  simp [hcust, hins, Store.insertSession]

/-- C12: when the customer lookup of `start_chat` answers with an error or without
a row, or when the lookup passes and the session insert fails, the initiating
connection receives exactly one event, an `error` whose message starts with
`Failed to start chat: `; nothing is emitted to anyone else, so no `chat_started`
is emitted; no room is joined and the rooms are as before; and in the first case
no insert is sent and the session table is as before. -/
theorem start_chat_failure_is_reported (s : State) (sid : String) (user : SocketUser)
    (customerId : Val) (env : Env) :
    (((s.store.selectCustomer customerId (env.fault (.selectCustomer customerId))).error.isSome
          = true ∨
        (s.store.selectCustomer customerId (env.fault (.selectCustomer customerId))).data.isNone
          = true) →
      (∃ rest, delivered sid (start_chat s sid user customerId env).trace =
        [.error ("Failed to start chat: " ++ rest) rest]) ∧
      (∀ c ev, Action.emit c ev ∈ (start_chat s sid user customerId env).trace →
        c = sid ∧ ∃ m d, ev = .error m d) ∧
      (∀ c room, Action.join c room ∉ (start_chat s sid user customerId env).trace) ∧
      (start_chat s sid user customerId env).state.rooms = s.rooms ∧
      queries (start_chat s sid user customerId env).trace = [.selectCustomer customerId] ∧
      (start_chat s sid user customerId env).state.store.chat_sessions
        = s.store.chat_sessions) ∧
    (∀ e,
      ((s.store.selectCustomer customerId
          (env.fault (.selectCustomer customerId))).error.isSome ||
        (s.store.selectCustomer customerId
          (env.fault (.selectCustomer customerId))).data.isNone) = false →
      env.fault (.insertSession customerId user.userId "active") = some e →
      (∃ rest, delivered sid (start_chat s sid user customerId env).trace =
        [.error ("Failed to start chat: " ++ rest) rest]) ∧
      (∀ c ev, Action.emit c ev ∈ (start_chat s sid user customerId env).trace →
        c = sid ∧ ∃ m d, ev = .error m d) ∧
      (∀ c room, Action.join c room ∉ (start_chat s sid user customerId env).trace) ∧
      (start_chat s sid user customerId env).state.rooms = s.rooms) := by
  constructor
  · intro h
    rw [start_chat_customer_missing s sid user customerId env h]
    refine ⟨⟨"Customer not found", ?_⟩, ?_, ?_, rfl, rfl, rfl⟩
    · simp [delivered]
    · intro c ev hmem
      simp at hmem
      exact ⟨hmem.1, _, _, hmem.2⟩
    · intro c room hmem
      simp at hmem
  · intro e hcust hins
    rw [start_chat_insert_failed s sid user customerId env e hcust hins]
    refine ⟨⟨"Failed to create chat session: " ++ e, ?_⟩, ?_, ?_, rfl⟩
    · simp [delivered]
    · intro c ev hmem
      simp at hmem
      exact ⟨hmem.1, _, _, hmem.2⟩
    · intro c room hmem
      simp at hmem

/-- C12 (witness): in the demo store a `start_chat` for the unknown customer `C9`
and one for `C1` against a store that refuses inserts each end in one `error`
event to `k1`. -/
theorem start_chat_failure_is_reported_witness :
    ((boot demoStore).store.selectCustomer (.str "C9")
        ((demoEnv "S1" 2).fault (.selectCustomer (.str "C9")))).data.isNone = true ∧
    delivered "k1" (start_chat (boot demoStore) "k1" demoUser (.str "C9") (demoEnv "S1" 2)).trace
      = [.error "Failed to start chat: Customer not found" "Customer not found"] ∧
    (refusingEnv "S1" 2).fault (.insertSession (.str "C1") demoUser.userId "active")
      = some "insert refused" ∧
    delivered "k1" (start_chat (boot demoStore) "k1" demoUser (.str "C1")
        (refusingEnv "S1" 2)).trace
      = [.error "Failed to start chat: Failed to create chat session: insert refused"
          "Failed to create chat session: insert refused"] ∧
    (start_chat (boot demoStore) "k1" demoUser (.str "C9") (demoEnv "S1" 2)).state.rooms
      = (boot demoStore).rooms ∧
    (start_chat (boot demoStore) "k1" demoUser (.str "C1") (refusingEnv "S1" 2)).state.rooms
      = (boot demoStore).rooms :=
  ⟨by decide, by decide, by decide, by decide,
   ((start_chat_failure_is_reported (boot demoStore) "k1" demoUser (.str "C9")
      (demoEnv "S1" 2)).1 (Or.inr (by decide))).2.2.2.1,
   ((start_chat_failure_is_reported (boot demoStore) "k1" demoUser (.str "C1")
      (refusingEnv "S1" 2)).2 "insert refused" (by decide) (by decide)).2.2.2⟩

/-! ## Error events -/

theorem error_start_chat (s : State) (sid : String) (user : SocketUser) (customerId : Val)
    (env : Env) (c : String) (m d : String)
    (h : Action.emit c (.error m d) ∈ (start_chat s sid user customerId env).trace) :
    c = sid ∧ m = "Failed to start chat: " ++ d ∧
      (start_chat s sid user customerId env).state = s := by
  unfold start_chat at h ⊢
  simp only at h ⊢
  split
  · rename_i hc
    simp only [hc, if_true] at h
    simp at h
    obtain ⟨rfl, rfl, rfl⟩ := h
    exact ⟨rfl, rfl, rfl⟩
  · rename_i hc
    simp only [hc] at h
    cases hf : env.fault (.insertSession customerId user.userId "active") with
    | some e =>
      simp [Store.insertSession, hf] at h ⊢
      obtain ⟨rfl, rfl, rfl⟩ := h
      exact ⟨rfl, rfl⟩
    | none =>
      simp [Store.insertSession, hf] at h

theorem error_message (s : State) (sid : String) (user : SocketUser) (chatId content : Val)
    (env : Env) (c : String) (m d : String)
    (h : Action.emit c (.error m d) ∈ (message s sid user chatId content env).trace) :
    c = sid ∧ m = "Failed to send message: " ++ d ∧
      (message s sid user chatId content env).state = s := by
  cases hl : (s.store.selectSession chatId (env.fault (.selectSession chatId))).error with
  | some e =>
    rw [message_lookup_failed s sid user chatId content env e hl] at h ⊢
    simp at h
    obtain ⟨rfl, rfl, rfl⟩ := h
    exact ⟨rfl, rfl, rfl⟩
  | none =>
    cases hi : env.fault (.insertMessage chatId user.userId content) with
    | some e =>
      unfold message at h ⊢
      simp [hl, hi, Store.insertMessage] at h ⊢
      obtain ⟨rfl, rfl, rfl⟩ := h
      exact ⟨rfl, rfl⟩
    | none =>
      rw [message_ok s sid user chatId content env hl hi] at h
      simp [broadcast] at h

theorem error_fetch_chat_history (s : State) (sid : String) (chatId : Val) (env : Env)
    (c : String) (m d : String)
    (h : Action.emit c (.error m d) ∈ (fetch_chat_history s sid chatId env).trace) :
    c = sid ∧ m = "Failed to fetch chat history: " ++ d ∧
      (fetch_chat_history s sid chatId env).state = s := by
  refine ⟨?_, ?_, fetch_chat_history_state s sid chatId env⟩
  · exact (emit_fetch_chat_history s sid chatId env c _ h).1
  · unfold fetch_chat_history at h
    simp only at h
    split at h
    · simp at h; obtain ⟨_, rfl, rfl⟩ := h; rfl
    · split at h
      · simp at h; obtain ⟨_, rfl, rfl⟩ := h; rfl
      · simp at h

theorem error_close_chat (s : State) (sid : String) (chatId : Val) (env : Env)
    (hconn : ∀ c ∈ members s.rooms chatId, Connected s c)
    (c : String) (m d : String)
    (h : Action.emit c (.error m d) ∈ (close_chat s sid chatId env).trace) :
    c = sid ∧ m = "Failed to close chat: " ++ d ∧
      (close_chat s sid chatId env).state = s := by
  cases hu : env.fault (.updateSession ⟨some "closed", some env.now⟩ chatId) with
  | some e =>
    unfold close_chat at h ⊢
    simp [hu, Store.updateSession] at h ⊢
    obtain ⟨rfl, rfl, rfl⟩ := h
    exact ⟨rfl, rfl⟩
  | none =>
    rw [close_chat_ok s sid chatId env hu hconn] at h
    simp [broadcast] at h

/-- C13: whenever one of the four relay handlers emits an `error` event, that
event goes to the connection that triggered the handler, it carries a message
(the handler's prefix followed by the text of the failure) and the failure as
details, and the handler leaves the whole state, the session and message tables
included, as it was.  This holds for `start_chat`, `message` and
`fetch_chat_history` from every state, and for `close_chat` from every state the
process can reach. -/
theorem error_events_are_advisory (lib : Lib) (store : Store) (inputs : List (Input × Env))
    (sid : String) (user : SocketUser) (env : Env) (c : String) (m d : String) :
    (∀ (s : State) (customerId : Val),
      Action.emit c (.error m d) ∈ (start_chat s sid user customerId env).trace →
      c = sid ∧ m = "Failed to start chat: " ++ d ∧
      (start_chat s sid user customerId env).state = s) ∧
    (∀ (s : State) (chatId content : Val),
      Action.emit c (.error m d) ∈ (message s sid user chatId content env).trace →
      c = sid ∧ m = "Failed to send message: " ++ d ∧
      (message s sid user chatId content env).state = s) ∧
    (∀ (s : State) (chatId : Val),
      Action.emit c (.error m d) ∈ (fetch_chat_history s sid chatId env).trace →
      c = sid ∧ m = "Failed to fetch chat history: " ++ d ∧
      (fetch_chat_history s sid chatId env).state = s) ∧
    (∀ chatId,
      Action.emit c (.error m d) ∈
        (close_chat (run lib (boot store) inputs).state sid chatId env).trace →
      c = sid ∧ m = "Failed to close chat: " ++ d ∧
      (close_chat (run lib (boot store) inputs).state sid chatId env).state
        = (run lib (boot store) inputs).state) := by
  have hwf := roomsConnected_run lib inputs (boot store) (roomsConnected_boot store)
  refine ⟨?_, ?_, ?_, ?_⟩
  · intro s customerId h
    exact error_start_chat s sid user customerId env c m d h
  · intro s chatId content h
    exact error_message s sid user chatId content env c m d h
  · intro s chatId h
    exact error_fetch_chat_history s sid chatId env c m d h
  · intro chatId h
    exact error_close_chat _ sid chatId env (members_connected _ hwf chatId) c m d h

/-- C13 (witness): after the demo run, a `message` for the unknown chat `nope`
emits an `error` to `k1` and leaves the state as it was. -/
theorem error_events_are_advisory_witness :
    Action.emit "k1" (.error "Failed to send message: Chat not found or access denied"
        "Chat not found or access denied") ∈
      (message (run demoLib (boot demoStore) demoInputs).state "k1" demoUser (.str "nope")
        (.str "Hello") (demoEnv "M1" 3)).trace ∧
    (message (run demoLib (boot demoStore) demoInputs).state "k1" demoUser (.str "nope")
        (.str "Hello") (demoEnv "M1" 3)).state
      = (run demoLib (boot demoStore) demoInputs).state :=
  ⟨by decide,
   ((error_events_are_advisory demoLib demoStore demoInputs "k1" demoUser (demoEnv "M1" 3) "k1"
      "Failed to send message: Chat not found or access denied"
      "Chat not found or access denied").2.1 (run demoLib (boot demoStore) demoInputs).state
      (.str "nope") (.str "Hello") (by decide)).2.2⟩

/-! ## The history query -/

theorem insertByCreated_perm (m : ChatMessage) (l : List ChatMessage) :
    (insertByCreated m l).Perm (m :: l) := by
  induction l with
  | nil => exact List.Perm.refl _
  | cons x xs ih =>
    simp only [insertByCreated]
    split
    · exact (List.Perm.cons x ih).trans (List.Perm.swap m x xs)
    · exact List.Perm.refl _

theorem insertByCreated_sorted (m : ChatMessage) (l : List ChatMessage)
    (h : l.Pairwise (fun a b => a.created_at ≤ b.created_at)) :
    (insertByCreated m l).Pairwise (fun a b => a.created_at ≤ b.created_at) := by
  induction l with
  | nil => simp [insertByCreated]
  | cons x xs ih =>
    rw [List.pairwise_cons] at h
    simp only [insertByCreated]
    split
    · rename_i hx
      rw [List.pairwise_cons]
      refine ⟨fun b hb => ?_, ih h.2⟩
      rcases List.mem_cons.1 ((insertByCreated_perm m xs).subset hb) with hb | hb
      · rw [hb]; exact hx
      · exact h.1 b hb
    · rename_i hx
      have hlt : m.created_at ≤ x.created_at := Nat.le_of_lt (Nat.lt_of_not_le hx)
      rw [List.pairwise_cons]
      refine ⟨fun b hb => ?_, List.pairwise_cons.2 h⟩
      rcases List.mem_cons.1 hb with hb | hb
      · rw [hb]; exact hlt
      · exact Nat.le_trans hlt (h.1 b hb)

theorem foldl_insert_spec (l : List ChatMessage) :
    ∀ acc : List ChatMessage, acc.Pairwise (fun a b => a.created_at ≤ b.created_at) →
      (l.foldl (fun acc m => insertByCreated m acc) acc).Perm (acc ++ l) ∧
      (l.foldl (fun acc m => insertByCreated m acc) acc).Pairwise
        (fun a b => a.created_at ≤ b.created_at) := by
  induction l with
  | nil => intro acc h; simpa using h
  | cons x xs ih =>
    intro acc h
    obtain ⟨h1, h2⟩ := ih (insertByCreated x acc) (insertByCreated_sorted x acc h)
    refine ⟨h1.trans ?_, h2⟩
    have hp : (insertByCreated x acc ++ xs).Perm ((x :: acc) ++ xs) :=
      List.Perm.append_right xs (insertByCreated_perm x acc)
    refine hp.trans ?_
    have hm : (acc ++ x :: xs).Perm (x :: (acc ++ xs)) := List.perm_middle
    simpa using hm.symm

theorem orderByCreated_perm (l : List ChatMessage) : (orderByCreated l).Perm l := by
  simpa [orderByCreated] using (foldl_insert_spec l [] List.Pairwise.nil).1

theorem orderByCreated_sorted (l : List ChatMessage) :
    (orderByCreated l).Pairwise (fun a b => a.created_at ≤ b.created_at) :=
  (foldl_insert_spec l [] List.Pairwise.nil).2

theorem map_row_hydrate (st : Store) (l : List ChatMessage) :
    (l.map st.hydrate).map (fun m => m.row) = l := by
  induction l with
  | nil => rfl
  | cons x xs ih => simp [Store.hydrate, ih]

theorem fetch_chat_history_ok (s : State) (sid : String) (chatId : Val) (env : Env)
    (hq : env.fault (.selectMessages chatId) = none) :
    fetch_chat_history s sid chatId env =
      ⟨s, [.query (.selectMessages chatId),
        .emit sid (.chat_history chatId
          ((orderByCreated (s.store.chat_messages.filter (fun m => m.chat_id = chatId))).map
            s.store.hydrate))]⟩ := by
  unfold fetch_chat_history
  simp [Store.selectMessages, hq]

/-- C15: when the query succeeds, `fetch_chat_history` does one thing besides the
query: it emits one `chat_history` event carrying `chatId` to the requesting
connection and to nobody else.  The rows of its `messages` are a rearrangement of
exactly the `chat_messages` rows whose `chat_id` is `chatId` (so none of another
session, and the empty list when there is none), each with its sender embedded,
in ascending `created_at` order; the store, the sockets and the rooms are as
before. -/
theorem fetch_chat_history_returns_session_rows (s : State) (sid : String) (chatId : Val)
    (env : Env) (hq : env.fault (.selectMessages chatId) = none) :
    ∃ messages : List HydratedMessage,
      (fetch_chat_history s sid chatId env).trace =
        [.query (.selectMessages chatId), .emit sid (.chat_history chatId messages)] ∧
      (∀ c ev, Action.emit c ev ∈ (fetch_chat_history s sid chatId env).trace →
        c = sid ∧ ev = .chat_history chatId messages) ∧
      (messages.map (fun m => m.row)).Perm
        (s.store.chat_messages.filter (fun m => m.chat_id = chatId)) ∧
      (∀ m, m ∈ messages ↔
        ∃ row ∈ s.store.chat_messages, row.chat_id = chatId ∧ m = s.store.hydrate row) ∧
      (messages.map (fun m => m.row)).Pairwise (fun a b => a.created_at ≤ b.created_at) ∧
      ((∀ row ∈ s.store.chat_messages, row.chat_id ≠ chatId) → messages = []) ∧
      (fetch_chat_history s sid chatId env).state = s := by
  rw [fetch_chat_history_ok s sid chatId env hq]
  refine ⟨_, rfl, ?_, ?_, ?_, ?_, ?_, rfl⟩
  · intro c ev h
    simp at h
    exact h
  · rw [map_row_hydrate]; exact orderByCreated_perm _
  · intro m
    simp only [List.mem_map, (orderByCreated_perm _).mem_iff, List.mem_filter,
      decide_eq_true_eq]
    constructor
    · rintro ⟨row, ⟨h1, h2⟩, rfl⟩; exact ⟨row, h1, h2, rfl⟩
    · rintro ⟨row, h1, h2, rfl⟩; exact ⟨row, ⟨h1, h2⟩, rfl⟩
  · rw [map_row_hydrate]; exact orderByCreated_sorted _
  · intro hnone
    have : s.store.chat_messages.filter (fun m => m.chat_id = chatId) = [] := by
      rw [List.filter_eq_nil_iff]
      intro row hrow
      simpa using hnone row hrow
    rw [this]
    rfl

/-- C15 (witness): after the intruder run, which stores one message for `S1`,
socket `k1` fetches the history of `S1` and of the unknown chat `S9`. -/
theorem fetch_chat_history_returns_session_rows_witness :
    (demoEnv "x" 6).fault (.selectMessages (.str "S1")) = none ∧
    (fetch_chat_history (run demoLib (boot demoStore) intruderInputs).state "k1" (.str "S1")
        (demoEnv "x" 6)).trace =
      [.query (.selectMessages (.str "S1")),
       .emit "k1" (.chat_history (.str "S1")
        [⟨⟨.str "M1", .str "S1", .str "A1", .str "Hello", 5⟩,
          some ⟨.str "A1", .str "Ann", .str "ann@x"⟩⟩])] ∧
    (fetch_chat_history (run demoLib (boot demoStore) intruderInputs).state "k1" (.str "S9")
        (demoEnv "x" 6)).trace =
      [.query (.selectMessages (.str "S9")), .emit "k1" (.chat_history (.str "S9") [])] ∧
    ∃ messages : List HydratedMessage,
      (fetch_chat_history (run demoLib (boot demoStore) intruderInputs).state "k1" (.str "S1")
          (demoEnv "x" 6)).trace =
        [.query (.selectMessages (.str "S1")), .emit "k1" (.chat_history (.str "S1") messages)] ∧
      (fetch_chat_history (run demoLib (boot demoStore) intruderInputs).state "k1" (.str "S1")
          (demoEnv "x" 6)).state = (run demoLib (boot demoStore) intruderInputs).state := by
  obtain ⟨ms, h1, _, _, _, _, _, h7⟩ := fetch_chat_history_returns_session_rows
    (run demoLib (boot demoStore) intruderInputs).state "k1" (.str "S1") (demoEnv "x" 6)
    (by decide)
  exact ⟨by decide, by decide, by decide, ms, h1, h7⟩

/-! ## The message table over time -/

theorem step_messages_grow (lib : Lib) (s : State) (inp : Input) (env : Env) :
    ∃ extra, (step lib s inp env).state.store.chat_messages = s.store.chat_messages ++ extra := by
  cases inp with
  | connect sid token =>
    refine ⟨[], ?_⟩
    simp only [step, connect]
    split
    · simp
    · split <;> simp
  | event sid ev =>
    simp only [step, onEvent]
    split
    · exact ⟨[], by simp⟩
    · rename_i q _
      cases ev with
      | start_chat customerId => exact ⟨[], by simp [start_chat_messages]⟩
      | message chatId content =>
        rcases message_messages s sid q.2 chatId content env with h | ⟨_, h⟩
        · exact ⟨[], by simp [h]⟩
        · exact ⟨_, h⟩
      | fetch_chat_history chatId => exact ⟨[], by simp [fetch_chat_history_state]⟩
      | close_chat chatId => exact ⟨[], by simp [close_chat_messages]⟩
      | typing_start _ => exact ⟨[], by simp⟩
      | typing_stop _ => exact ⟨[], by simp⟩
  | disconnect sid => exact ⟨[], by simp [step, disconnect]⟩
  | postChatSessions authorization customer_data =>
    exact ⟨[], by simp [step, postChatSessions_messages]⟩
  | otherRoute users customers => exact ⟨[], by simp [step]⟩

theorem run_messages_grow (lib : Lib) (inputs : List (Input × Env)) :
    ∀ s : State, ∃ extra,
      (run lib s inputs).state.store.chat_messages = s.store.chat_messages ++ extra := by
  induction inputs with
  | nil => intro s; exact ⟨[], by simp [run]⟩
  | cons x rest ih =>
    intro s
    obtain ⟨inp, env⟩ := x
    obtain ⟨e1, h1⟩ := step_messages_grow lib s inp env
    obtain ⟨e2, h2⟩ := ih (step lib s inp env).state
    exact ⟨e1 ++ e2, by rw [run_cons_state, h2, h1, List.append_assoc]⟩

theorem step_messages_same (lib : Lib) (s : State) (inp : Input) (env : Env)
    (h : ¬ IsMessageEvent inp) :
    (step lib s inp env).state.store.chat_messages = s.store.chat_messages := by
  cases inp with
  | connect sid token =>
    simp only [step, connect]
    split
    · rfl
    · split <;> rfl
  | event sid ev =>
    simp only [step, onEvent]
    split
    · rfl
    · rename_i q _
      cases ev with
      | start_chat customerId => exact start_chat_messages _ _ _ _ _
      | message chatId content => exact absurd ⟨sid, chatId, content, rfl⟩ h
      | fetch_chat_history chatId => rw [fetch_chat_history_state]
      | close_chat chatId => exact close_chat_messages _ _ _ _
      | typing_start _ => rfl
      | typing_stop _ => rfl
  | disconnect sid => rfl
  | postChatSessions authorization customer_data => exact postChatSessions_messages _ _ _ _ _
  | otherRoute users customers => rfl

theorem run_messages_same (lib : Lib) (inputs : List (Input × Env)) :
    ∀ s : State, (∀ x ∈ inputs, ¬ IsMessageEvent x.1) →
      (run lib s inputs).state.store.chat_messages = s.store.chat_messages := by
  induction inputs with
  | nil => intro s _; rfl
  | cons x rest ih =>
    intro s h
    obtain ⟨inp, env⟩ := x
    rw [run_cons_state, ih _ (fun y hy => h y (List.mem_cons_of_mem _ hy)),
      step_messages_same lib s inp env (h (inp, env) (List.mem_cons_self _ _))]

theorem start_chat_users (s : State) (sid : String) (user : SocketUser) (customerId : Val)
    (env : Env) :
    (start_chat s sid user customerId env).state.store.users = s.store.users := by
  unfold start_chat
  simp only
  split
  · rfl
  · cases h : env.fault (.insertSession customerId user.userId "active") <;>
      simp [Store.insertSession, h]

theorem message_users (s : State) (sid : String) (user : SocketUser) (chatId content : Val)
    (env : Env) :
    (message s sid user chatId content env).state.store.users = s.store.users := by
  unfold message
  simp only
  split
  · rfl
  · cases h : env.fault (.insertMessage chatId user.userId content)
    · cases h2 : env.fault (.updateSession ⟨none, some env.now⟩ chatId) <;>
        simp [Store.insertMessage, Store.updateSession, h, h2]
    · simp [Store.insertMessage, h]

theorem close_chat_users (s : State) (sid : String) (chatId : Val) (env : Env) :
    (close_chat s sid chatId env).state.store.users = s.store.users := by
  unfold close_chat
  cases h : env.fault (.updateSession ⟨some "closed", some env.now⟩ chatId)
  · simp only [Store.updateSession, h]
    split <;> rfl
  · simp [Store.updateSession, h]

theorem postChatSessions_users (lib : Lib) (s : State) (authorization : Option String)
    (customer_data : Val) (env : Env) :
    (postChatSessions lib s authorization customer_data env).1.state.store.users
      = s.store.users := by
  unfold postChatSessions
  split
  · rfl
  · rename_i user _
    cases h : env.fault (.insertQueuedSession customer_data "pending" user.userId) <;>
      simp [Store.insertSession, h]

theorem step_users_same (lib : Lib) (s : State) (inp : Input) (env : Env)
    (h : ¬ IsOtherRoute inp) :
    (step lib s inp env).state.store.users = s.store.users := by
  cases inp with
  | connect sid token =>
    simp only [step, connect]
    split
    · rfl
    · split <;> rfl
  | event sid ev =>
    simp only [step, onEvent]
    split
    · rfl
    · rename_i q _
      cases ev with
      | start_chat customerId => exact start_chat_users _ _ _ _ _
      | message chatId content => exact message_users _ _ _ _ _ _
      | fetch_chat_history chatId => rw [fetch_chat_history_state]
      | close_chat chatId => exact close_chat_users _ _ _ _
      | typing_start _ => rfl
      | typing_stop _ => rfl
  | disconnect sid => rfl
  | postChatSessions authorization customer_data => exact postChatSessions_users _ _ _ _ _
  | otherRoute users customers => exact absurd ⟨users, customers, rfl⟩ h

theorem run_users_same (lib : Lib) (inputs : List (Input × Env)) :
    ∀ s : State, (∀ x ∈ inputs, ¬ IsOtherRoute x.1) →
      (run lib s inputs).state.store.users = s.store.users := by
  induction inputs with
  | nil => intro s _; rfl
  | cons x rest ih =>
    intro s h
    obtain ⟨inp, env⟩ := x
    rw [run_cons_state, ih _ (fun y hy => h y (List.mem_cons_of_mem _ hy)),
      step_users_same lib s inp env (h (inp, env) (List.mem_cons_self _ _))]

theorem message_appends (s : State) (sid : String) (user : SocketUser) (chatId content : Val)
    (env : Env)
    (hlook : (s.store.selectSession chatId (env.fault (.selectSession chatId))).error = none)
    (hins : env.fault (.insertMessage chatId user.userId content) = none) :
    (message s sid user chatId content env).state.store.chat_messages =
      s.store.chat_messages ++ [newMessage env chatId user.userId content] := by
  rw [message_ok s sid user chatId content env hlook hins]
  cases h : env.fault (.updateSession ⟨none, some env.now⟩ chatId) <;>
    simp [Store.updateSession]

/-- C16: after an accepted `message` event of subject `user.userId` for `chatId`
with content `content`, and after whatever the process does next, a
`fetch_chat_history` for `chatId` whose query succeeds emits a `chat_history`
whose list contains a message with that content, that sender id and that chat
id. -/
theorem message_round_trip (lib : Lib) (s : State) (sid : String) (user : SocketUser)
    (chatId content : Val) (env : Env) (later : List (Input × Env)) (sid2 : String)
    (env2 : Env)
    (hlook : (s.store.selectSession chatId (env.fault (.selectSession chatId))).error = none)
    (hins : env.fault (.insertMessage chatId user.userId content) = none)
    (hq : env2.fault (.selectMessages chatId) = none) :
    ∃ messages : List HydratedMessage,
      (fetch_chat_history
          (run lib (message s sid user chatId content env).state later).state sid2 chatId
          env2).trace =
        [.query (.selectMessages chatId), .emit sid2 (.chat_history chatId messages)] ∧
      ∃ m ∈ messages,
        m.row.content = content ∧ m.row.sender_id = user.userId ∧ m.row.chat_id = chatId := by
  rw [fetch_chat_history_ok _ sid2 chatId env2 hq]
  refine ⟨_, rfl, ?_⟩
  obtain ⟨extra, hex⟩ := run_messages_grow lib later (message s sid user chatId content env).state
  rw [message_appends s sid user chatId content env hlook hins] at hex
  refine ⟨(run lib (message s sid user chatId content env).state later).state.store.hydrate
    (newMessage env chatId user.userId content), ?_, rfl, rfl, rfl⟩
  rw [List.mem_map]
  refine ⟨_, ?_, rfl⟩
  rw [(orderByCreated_perm _).mem_iff, List.mem_filter, hex]
  exact ⟨by simp, by simp [newMessage]⟩

/-- C16 (witness): in the demo run `k1` sends `Hello` for `S1`, closes the chat,
and a later history of `S1` holds the message. -/
theorem message_round_trip_witness :
    ((run demoLib (boot demoStore) demoInputs).state.store.selectSession (.str "S1")
        ((demoEnv "M1" 3).fault (.selectSession (.str "S1")))).error = none ∧
    ∃ messages : List HydratedMessage,
      (fetch_chat_history
          (run demoLib
            (message (run demoLib (boot demoStore) demoInputs).state "k1" demoUser (.str "S1")
              (.str "Hello") (demoEnv "M1" 3)).state
            [(.event "k1" (.close_chat (.str "S1")), demoEnv "x" 4)]).state "k1" (.str "S1")
          (demoEnv "x" 5)).trace =
        [.query (.selectMessages (.str "S1")), .emit "k1" (.chat_history (.str "S1") messages)] ∧
      ∃ m ∈ messages,
        m.row.content = .str "Hello" ∧ m.row.sender_id = demoUser.userId ∧
          m.row.chat_id = .str "S1" :=
  ⟨by decide,
   message_round_trip demoLib (run demoLib (boot demoStore) demoInputs).state "k1" demoUser
     (.str "S1") (.str "Hello") (demoEnv "M1" 3)
     [(.event "k1" (.close_chat (.str "S1")), demoEnv "x" 4)] "k1" (demoEnv "x" 5)
     (by decide) (by decide) (by decide)⟩

/-! ## Order of the history -/

theorem sublist_insertByCreated (m : ChatMessage) (l : List ChatMessage) :
    List.Sublist l (insertByCreated m l) := by
  induction l with
  | nil => simp [insertByCreated]
  | cons x xs ih =>
    simp only [insertByCreated]
    split
    · exact List.cons_sublist_cons.2 ih
    · exact List.sublist_cons_self _ _

theorem pair_sublist_insertByCreated (a m : ChatMessage) (l : List ChatMessage)
    (hs : l.Pairwise (fun x y => x.created_at ≤ y.created_at)) (ha : a ∈ l)
    (hle : a.created_at ≤ m.created_at) : List.Sublist [a, m] (insertByCreated m l) := by
  induction l with
  | nil => cases ha
  | cons x xs ih =>
    rw [List.pairwise_cons] at hs
    simp only [insertByCreated]
    split
    · rcases List.mem_cons.1 ha with h | h
      · subst h
        exact List.cons_sublist_cons.2
          (List.singleton_sublist.2 ((insertByCreated_perm m xs).symm.subset
            (List.mem_cons_self _ _)))
      · exact (ih hs.2 h).cons _
    · rename_i hx
      rcases List.mem_cons.1 ha with h | h
      · subst h; exact absurd hle hx
      · exact absurd (Nat.le_trans (hs.1 a h) hle) hx

theorem sublist_foldl_insert (l : List ChatMessage) :
    ∀ acc : List ChatMessage,
      List.Sublist acc (l.foldl (fun acc m => insertByCreated m acc) acc) := by
  induction l with
  | nil => intro acc; exact List.Sublist.refl _
  | cons x xs ih =>
    intro acc
    exact (sublist_insertByCreated x acc).trans (ih _)

theorem pair_sublist_foldl_of_mem (a b : ChatMessage) (hle : a.created_at ≤ b.created_at)
    (l : List ChatMessage) :
    ∀ acc : List ChatMessage, acc.Pairwise (fun x y => x.created_at ≤ y.created_at) →
      a ∈ acc → b ∈ l →
      List.Sublist [a, b] (l.foldl (fun acc m => insertByCreated m acc) acc) := by
  induction l with
  | nil => intro acc _ _ hb; cases hb
  | cons x xs ih =>
    intro acc hs ha hb
    rcases List.mem_cons.1 hb with h | h
    · subst h
      exact (pair_sublist_insertByCreated a b acc hs ha hle).trans (sublist_foldl_insert xs _)
    · exact ih _ (insertByCreated_sorted x acc hs)
        ((insertByCreated_perm x acc).symm.subset (List.mem_cons_of_mem _ ha)) h

theorem pair_sublist_foldl (a b : ChatMessage) (hle : a.created_at ≤ b.created_at)
    (l : List ChatMessage) :
    ∀ acc : List ChatMessage, acc.Pairwise (fun x y => x.created_at ≤ y.created_at) →
      List.Sublist [a, b] l →
      List.Sublist [a, b] (l.foldl (fun acc m => insertByCreated m acc) acc) := by
  induction l with
  | nil => intro acc _ h; cases h
  | cons x xs ih =>
    intro acc hs h
    rcases List.sublist_cons_iff.1 h with h | ⟨r, hr, hsub⟩
    · exact ih _ (insertByCreated_sorted x acc hs) h
    · simp only [List.cons.injEq] at hr
      obtain ⟨rfl, rfl⟩ := hr
      exact pair_sublist_foldl_of_mem a b hle xs _ (insertByCreated_sorted a acc hs)
        ((insertByCreated_perm a acc).symm.subset (List.mem_cons_self _ _))
        (List.singleton_sublist.1 hsub)

theorem pair_sublist_orderByCreated (a b : ChatMessage) (l : List ChatMessage)
    (hle : a.created_at ≤ b.created_at) (h : List.Sublist [a, b] l) :
    List.Sublist [a, b] (orderByCreated l) :=
  pair_sublist_foldl a b hle l [] List.Pairwise.nil h

/-- C17 (counterexample): socket `k1` sends `first` and then `second` for session
`S1`, both accepted, but the store stamps the first row with `created_at` 9 and
the second with 4; the history then lists `second` before `first`. -/
theorem history_follows_stamps_not_arrival :
    (fetch_chat_history
        (run demoLib (boot demoStore)
          (demoInputs ++
            [(.event "k1" (.message (.str "S1") (.str "first")), demoEnv "M1" 9),
             (.event "k1" (.message (.str "S1") (.str "second")), demoEnv "M2" 4)])).state
        "k1" (.str "S1") (demoEnv "x" 10)).trace =
      [.query (.selectMessages (.str "S1")),
       .emit "k1" (.chat_history (.str "S1")
        [⟨⟨.str "M2", .str "S1", .str "A1", .str "second", 4⟩,
          some ⟨.str "A1", .str "Ann", .str "ann@x"⟩⟩,
         ⟨⟨.str "M1", .str "S1", .str "A1", .str "first", 9⟩,
          some ⟨.str "A1", .str "Ann", .str "ann@x"⟩⟩])] ∧
    (run demoLib (boot demoStore)
      (demoInputs ++
        [(.event "k1" (.message (.str "S1") (.str "first")), demoEnv "M1" 9),
         (.event "k1" (.message (.str "S1") (.str "second")), demoEnv "M2" 4)])).state.store.chat_messages
      = [⟨.str "M1", .str "S1", .str "A1", .str "first", 9⟩,
         ⟨.str "M2", .str "S1", .str "A1", .str "second", 4⟩] ∧
    ¬ List.Sublist
        [(⟨.str "M1", .str "S1", .str "A1", .str "first", 9⟩ : ChatMessage),
         ⟨.str "M2", .str "S1", .str "A1", .str "second", 4⟩]
        [⟨.str "M2", .str "S1", .str "A1", .str "second", 4⟩,
         ⟨.str "M1", .str "S1", .str "A1", .str "first", 9⟩] := by
  refine ⟨by decide, by decide, ?_⟩
  intro h
  rcases List.sublist_cons_iff.1 h with h | ⟨r, hr, _⟩
  · rcases List.sublist_cons_iff.1 h with h | ⟨r, hr, hsub⟩
    · cases h
    · simp only [List.cons.injEq] at hr
      obtain ⟨_, rfl⟩ := hr
      cases hsub
  · simp only [List.cons.injEq] at hr
    exact absurd hr.1 (by decide)

/-- C17 (amended): a connection sends `c1` and later `c2` for the same session,
both accepted, and the store stamps the first row with a `created_at` that is not
later than that of the second.  Then, whatever else happens in between and
afterwards, every `fetch_chat_history` for that session whose query succeeds lists
the first row before the second. -/
theorem history_keeps_send_order (lib : Lib) (s : State) (sid : String) (user : SocketUser)
    (chatId c1 c2 : Val) (env1 env2 : Env) (between later : List (Input × Env))
    (sid3 : String) (env3 : Env)
    (hlook1 : (s.store.selectSession chatId (env1.fault (.selectSession chatId))).error = none)
    (hins1 : env1.fault (.insertMessage chatId user.userId c1) = none)
    (hlook2 : ((run lib (message s sid user chatId c1 env1).state between).state.store.selectSession
      chatId (env2.fault (.selectSession chatId))).error = none)
    (hins2 : env2.fault (.insertMessage chatId user.userId c2) = none)
    (hstamp : env1.dbNow ≤ env2.dbNow)
    (hq : env3.fault (.selectMessages chatId) = none) :
    ∃ messages : List HydratedMessage,
      (fetch_chat_history
          (run lib
            (message (run lib (message s sid user chatId c1 env1).state between).state sid user
              chatId c2 env2).state later).state sid3 chatId env3).trace =
        [.query (.selectMessages chatId), .emit sid3 (.chat_history chatId messages)] ∧
      List.Sublist
        [newMessage env1 chatId user.userId c1, newMessage env2 chatId user.userId c2]
        (messages.map (fun m => m.row)) := by
  rw [fetch_chat_history_ok _ sid3 chatId env3 hq]
  refine ⟨_, rfl, ?_⟩
  rw [map_row_hydrate]
  obtain ⟨e3, h3⟩ := run_messages_grow lib later
    (message (run lib (message s sid user chatId c1 env1).state between).state sid user chatId
      c2 env2).state
  obtain ⟨e2, h2⟩ := run_messages_grow lib between (message s sid user chatId c1 env1).state
  rw [message_appends _ sid user chatId c2 env2 hlook2 hins2, h2,
    message_appends s sid user chatId c1 env1 hlook1 hins1] at h3
  apply pair_sublist_orderByCreated _ _ _ hstamp
  have hsub : List.Sublist
      [newMessage env1 chatId user.userId c1, newMessage env2 chatId user.userId c2]
      (run lib
        (message (run lib (message s sid user chatId c1 env1).state between).state sid user
          chatId c2 env2).state later).state.store.chat_messages := by
    rw [h3]
    have h4 : List.Sublist
        ([newMessage env1 chatId user.userId c1] ++ [newMessage env2 chatId user.userId c2])
        (((s.store.chat_messages ++ [newMessage env1 chatId user.userId c1]) ++ e2) ++
          ([newMessage env2 chatId user.userId c2] ++ e3)) :=
      List.Sublist.append
        (List.sublist_append_of_sublist_left (List.sublist_append_right _ _))
        (List.sublist_append_left _ _)
    rw [← List.append_assoc] at h4
    exact h4
  have hf := hsub.filter (fun m => decide (m.chat_id = chatId))
  simpa [newMessage] using hf

/-- C17 (witness): in the demo run `k1` sends `first` and `second` for `S1`,
stamped 3 and 4, and the history lists them in that order. -/
theorem history_keeps_send_order_witness :
    (demoEnv "M1" 3).dbNow ≤ (demoEnv "M2" 4).dbNow ∧
    ∃ messages : List HydratedMessage,
      (fetch_chat_history
          (run demoLib
            (message (run demoLib
              (message (run demoLib (boot demoStore) demoInputs).state "k1" demoUser (.str "S1")
                (.str "first") (demoEnv "M1" 3)).state []).state "k1" demoUser (.str "S1")
              (.str "second") (demoEnv "M2" 4)).state []).state "k1" (.str "S1")
          (demoEnv "x" 5)).trace =
        [.query (.selectMessages (.str "S1")), .emit "k1" (.chat_history (.str "S1") messages)] ∧
      List.Sublist
        [newMessage (demoEnv "M1" 3) (.str "S1") demoUser.userId (.str "first"),
          newMessage (demoEnv "M2" 4) (.str "S1") demoUser.userId (.str "second")]
        (messages.map (fun m => m.row)) :=
  ⟨by decide,
   history_keeps_send_order demoLib (run demoLib (boot demoStore) demoInputs).state "k1"
     demoUser (.str "S1") (.str "first") (.str "second") (demoEnv "M1" 3) (demoEnv "M2" 4) [] []
     "k1" (demoEnv "x" 5) (by decide) (by decide) (by decide) (by decide) (by decide)
     (by decide)⟩

theorem hydrate_congr (st st2 : Store) (h : st.users = st2.users) (m : ChatMessage) :
    st.hydrate m = st2.hydrate m := by
  simp [Store.hydrate, h]

/-- C18: a `fetch_chat_history` for `chatId` followed, after any inputs among
which there is no `message` event, by a second one for the same `chatId` (both
queries succeeding) emits twice the same rows in the same order; when none of the
inputs in between is an HTTP route that writes `users`, the two lists are
identical with the embedded senders as well.  With no input in between this is
the case of two requests in succession. -/
theorem history_is_idempotent (lib : Lib) (s : State) (sid1 sid2 : String) (chatId : Val)
    (env1 env2 : Env) (between : List (Input × Env))
    (hq1 : env1.fault (.selectMessages chatId) = none)
    (hq2 : env2.fault (.selectMessages chatId) = none)
    (hnone : ∀ x ∈ between, ¬ IsMessageEvent x.1) :
    ∃ first second : List HydratedMessage,
      (fetch_chat_history s sid1 chatId env1).trace =
        [.query (.selectMessages chatId), .emit sid1 (.chat_history chatId first)] ∧
      (fetch_chat_history
          (run lib (fetch_chat_history s sid1 chatId env1).state between).state sid2 chatId
          env2).trace =
        [.query (.selectMessages chatId), .emit sid2 (.chat_history chatId second)] ∧
      first.map (fun m => m.row) = second.map (fun m => m.row) ∧
      ((∀ x ∈ between, ¬ IsOtherRoute x.1) → first = second) := by
  rw [fetch_chat_history_ok s sid1 chatId env1 hq1, fetch_chat_history_ok _ sid2 chatId env2 hq2]
  refine ⟨_, _, rfl, rfl, ?_, ?_⟩
  · rw [map_row_hydrate, map_row_hydrate, run_messages_same lib between s hnone]
  · intro hroute
    rw [run_messages_same lib between s hnone]
    apply List.map_congr_left
    intro m _
    exact hydrate_congr _ _ (run_users_same lib between s hroute).symm m

/-- C18 (witness): after the intruder run `k1` fetches the history of `S1`, starts
another chat, and fetches it again; both answers are the same list. -/
theorem history_is_idempotent_witness :
    (∀ x ∈ [((Input.event "k1" (.start_chat (.str "C1")), demoEnv "S2" 7) : Input × Env)],
      ¬ IsMessageEvent x.1) ∧
    ∃ first second : List HydratedMessage,
      (fetch_chat_history (run demoLib (boot demoStore) intruderInputs).state "k1" (.str "S1")
          (demoEnv "x" 6)).trace =
        [.query (.selectMessages (.str "S1")), .emit "k1" (.chat_history (.str "S1") first)] ∧
      (fetch_chat_history
          (run demoLib
            (fetch_chat_history (run demoLib (boot demoStore) intruderInputs).state "k1"
              (.str "S1") (demoEnv "x" 6)).state
            [(.event "k1" (.start_chat (.str "C1")), demoEnv "S2" 7)]).state "k1" (.str "S1")
          (demoEnv "x" 8)).trace =
        [.query (.selectMessages (.str "S1")), .emit "k1" (.chat_history (.str "S1") second)] ∧
      first.map (fun m => m.row) = second.map (fun m => m.row) ∧
      first = second := by
  have hnone : ∀ x ∈ [((Input.event "k1" (.start_chat (.str "C1")), demoEnv "S2" 7) :
      Input × Env)], ¬ IsMessageEvent x.1 := by
    intro x hx
    rw [List.mem_singleton] at hx
    subst hx
    rintro ⟨sid, chatId, content, h⟩
    cases h
  have hroute : ∀ x ∈ [((Input.event "k1" (.start_chat (.str "C1")), demoEnv "S2" 7) :
      Input × Env)], ¬ IsOtherRoute x.1 := by
    intro x hx
    rw [List.mem_singleton] at hx
    subst hx
    rintro ⟨u, c, h⟩
    cases h
  obtain ⟨first, second, h1, h2, h3, h4⟩ := history_is_idempotent demoLib
    (run demoLib (boot demoStore) intruderInputs).state "k1" "k1" (.str "S1") (demoEnv "x" 6)
    (demoEnv "x" 8) [(.event "k1" (.start_chat (.str "C1")), demoEnv "S2" 7)]
    (by decide) (by decide) hnone
  exact ⟨hnone, first, second, h1, h2, h3, h4 hroute⟩

/-! ## Who may send and close -/

theorem roomEmits_broadcast (rooms : List (Val × String)) (room : Val) (ev : ServerEvent)
    (h : ev.target.isSome = true) :
    roomEmits (broadcast rooms room ev) = (members rooms room).map (fun c => (c, ev)) := by
  unfold roomEmits broadcast
  induction members rooms room with
  | nil => rfl
  | cons c cs ih => simp [List.filterMap_cons, h, ih]

theorem replies_broadcast (rooms : List (Val × String)) (room : Val) (ev : ServerEvent)
    (h : ev.target.isSome = true) : replies (broadcast rooms room ev) = [] := by
  unfold replies broadcast
  induction members rooms room with
  | nil => rfl
  | cons c cs ih => simp [List.filterMap_cons, h, ih]

theorem roomEmits_append (a b : List Action) : roomEmits (a ++ b) = roomEmits a ++ roomEmits b := by
  simp [roomEmits, List.filterMap_append]

theorem replies_append (a b : List Action) : replies (a ++ b) = replies a ++ replies b := by
  simp [replies, List.filterMap_append]

theorem roomEmits_leaves (cs : List String) (room : Val) :
    roomEmits (cs.map (fun c => Action.leave c room)) = [] := by
  induction cs with
  | nil => rfl
  | cons c cs _ => simp [roomEmits, List.filterMap_cons]

theorem replies_leaves (cs : List String) (room : Val) :
    replies (cs.map (fun c => Action.leave c room)) = [] := by
  induction cs with
  | nil => rfl
  | cons c cs _ => simp [replies, List.filterMap_cons]

theorem message_any_subject (s : State) (sid1 sid2 : String) (u1 u2 : SocketUser)
    (chatId content : Val) (env : Env)
    (hfault : env.fault (.insertMessage chatId u1.userId content)
      = env.fault (.insertMessage chatId u2.userId content)) :
    replies (message s sid1 u1 chatId content env).trace
      = replies (message s sid2 u2 chatId content env).trace ∧
    (message s sid1 u1 chatId content env).state.store.users
      = (message s sid2 u2 chatId content env).state.store.users ∧
    (message s sid1 u1 chatId content env).state.store.customers
      = (message s sid2 u2 chatId content env).state.store.customers ∧
    (message s sid1 u1 chatId content env).state.store.chat_sessions
      = (message s sid2 u2 chatId content env).state.store.chat_sessions ∧
    (message s sid1 u1 chatId content env).state.store.chat_messages.map ChatMessage.unsigned
      = (message s sid2 u2 chatId content env).state.store.chat_messages.map
          ChatMessage.unsigned ∧
    (message s sid1 u1 chatId content env).state.sockets
      = (message s sid2 u2 chatId content env).state.sockets ∧
    (message s sid1 u1 chatId content env).state.rooms
      = (message s sid2 u2 chatId content env).state.rooms ∧
    (roomEmits (message s sid1 u1 chatId content env).trace).map
        (fun p => (p.1, p.2.unsigned))
      = (roomEmits (message s sid2 u2 chatId content env).trace).map
          (fun p => (p.1, p.2.unsigned)) := by
  cases hl : (s.store.selectSession chatId (env.fault (.selectSession chatId))).error with
  | some e =>
    rw [message_lookup_failed s sid1 u1 chatId content env e hl,
      message_lookup_failed s sid2 u2 chatId content env e hl]
    simp [replies, roomEmits, ServerEvent.target]
  | none =>
    cases hi : env.fault (.insertMessage chatId u1.userId content) with
    | some e =>
      have hi2 : env.fault (.insertMessage chatId u2.userId content) = some e := by
        rw [← hfault]; exact hi
      unfold message
      simp [hl, hi, hi2, Store.insertMessage, replies, roomEmits, ServerEvent.target]
    | none =>
      have hi2 : env.fault (.insertMessage chatId u2.userId content) = none := by
        rw [← hfault]; exact hi
      rw [message_ok s sid1 u1 chatId content env hl hi,
        message_ok s sid2 u2 chatId content env hl hi2]
      refine ⟨?_, ?_, ?_, ?_, ?_, rfl, rfl, ?_⟩
      · rw [replies_append, replies_append,
          replies_broadcast s.rooms chatId
            (.message (some (s.store.hydrate (newMessage env chatId u1.userId content)))) rfl,
          replies_append, replies_append,
          replies_broadcast s.rooms chatId
            (.message (some (s.store.hydrate (newMessage env chatId u2.userId content)))) rfl]
        rfl
      · cases h : env.fault (.updateSession ⟨none, some env.now⟩ chatId) <;>
          simp [Store.updateSession]
      · cases h : env.fault (.updateSession ⟨none, some env.now⟩ chatId) <;>
          simp [Store.updateSession]
      · cases h : env.fault (.updateSession ⟨none, some env.now⟩ chatId) <;>
          simp [Store.updateSession]
      · cases h : env.fault (.updateSession ⟨none, some env.now⟩ chatId) <;>
          simp [Store.updateSession, ChatMessage.unsigned, newMessage]
      · rw [roomEmits_append, roomEmits_append,
          roomEmits_broadcast s.rooms chatId
            (.message (some (s.store.hydrate (newMessage env chatId u1.userId content)))) rfl,
          roomEmits_append, roomEmits_append,
          roomEmits_broadcast s.rooms chatId
            (.message (some (s.store.hydrate (newMessage env chatId u2.userId content)))) rfl]
        simp [roomEmits, ServerEvent.unsigned, ChatMessage.unsigned, newMessage, Store.hydrate]

theorem close_chat_any_subject (s : State) (sid1 sid2 : String) (chatId : Val) (env : Env)
    (hconn : ∀ c ∈ members s.rooms chatId, Connected s c) :
    (close_chat s sid1 chatId env).state = (close_chat s sid2 chatId env).state ∧
    replies (close_chat s sid1 chatId env).trace = replies (close_chat s sid2 chatId env).trace ∧
    roomEmits (close_chat s sid1 chatId env).trace
      = roomEmits (close_chat s sid2 chatId env).trace := by
  cases hu : env.fault (.updateSession ⟨some "closed", some env.now⟩ chatId) with
  | some e =>
    unfold close_chat
    simp [hu, Store.updateSession, replies, roomEmits, ServerEvent.target]
  | none =>
    rw [close_chat_ok s sid1 chatId env hu hconn, close_chat_ok s sid2 chatId env hu hconn]
    exact ⟨rfl, rfl, rfl⟩

/-- C19: `message` and `close_chat` look at nothing about the subject.  From one
state of the store and the rooms, a `message` for a session id sent by any two
subjects on any two connections (with the store treating the two inserts alike)
gets the same replies, so it is accepted or rejected alike and with the same
error; it leaves the same users, customers, sessions, sockets and rooms and the
same message rows up to the recorded `sender_id`; and it emits to the same
connections, in the same order, the same `message` event up to the sender it
carries.  In every state the process can reach, `close_chat` by any two
connections gives the same state, the same replies and the same broadcasts. -/
theorem no_authorization_on_message_or_close (lib : Lib) (store : Store)
    (inputs : List (Input × Env)) (sid1 sid2 : String) (u1 u2 : SocketUser)
    (chatId : Val) (env : Env) :
    (∀ (s : State) (content : Val),
      env.fault (.insertMessage chatId u1.userId content)
        = env.fault (.insertMessage chatId u2.userId content) →
      replies (message s sid1 u1 chatId content env).trace
        = replies (message s sid2 u2 chatId content env).trace ∧
      (message s sid1 u1 chatId content env).state.store.users
        = (message s sid2 u2 chatId content env).state.store.users ∧
      (message s sid1 u1 chatId content env).state.store.customers
        = (message s sid2 u2 chatId content env).state.store.customers ∧
      (message s sid1 u1 chatId content env).state.store.chat_sessions
        = (message s sid2 u2 chatId content env).state.store.chat_sessions ∧
      (message s sid1 u1 chatId content env).state.store.chat_messages.map ChatMessage.unsigned
        = (message s sid2 u2 chatId content env).state.store.chat_messages.map
            ChatMessage.unsigned ∧
      (message s sid1 u1 chatId content env).state.sockets
        = (message s sid2 u2 chatId content env).state.sockets ∧
      (message s sid1 u1 chatId content env).state.rooms
        = (message s sid2 u2 chatId content env).state.rooms ∧
      (roomEmits (message s sid1 u1 chatId content env).trace).map
          (fun p => (p.1, p.2.unsigned))
        = (roomEmits (message s sid2 u2 chatId content env).trace).map
            (fun p => (p.1, p.2.unsigned))) ∧
    ((close_chat (run lib (boot store) inputs).state sid1 chatId env).state
        = (close_chat (run lib (boot store) inputs).state sid2 chatId env).state ∧
      replies (close_chat (run lib (boot store) inputs).state sid1 chatId env).trace
        = replies (close_chat (run lib (boot store) inputs).state sid2 chatId env).trace ∧
      roomEmits (close_chat (run lib (boot store) inputs).state sid1 chatId env).trace
        = roomEmits (close_chat (run lib (boot store) inputs).state sid2 chatId env).trace) := by
  refine ⟨fun s content hfault => message_any_subject s sid1 sid2 u1 u2 chatId content env hfault,
    ?_⟩
  exact close_chat_any_subject _ sid1 sid2 chatId env
    (members_connected _
      (roomsConnected_run lib inputs (boot store) (roomsConnected_boot store)) chatId)

/-- C19 (witness): after the demo run the agent on `k1` and an outsider on `k2`,
who is in no room of the session, each send `Hello` for `S1`: both are accepted
and both are broadcast to `k1`. -/
theorem no_authorization_on_message_or_close_witness :
    (demoEnv "M1" 3).fault (.insertMessage (.str "S1") demoUser.userId (.str "Hello"))
      = (demoEnv "M1" 3).fault (.insertMessage (.str "S1") outsider.userId (.str "Hello")) ∧
    replies (message (run demoLib (boot demoStore) demoInputs).state "k1" demoUser (.str "S1")
        (.str "Hello") (demoEnv "M1" 3)).trace = [] ∧
    replies (message (run demoLib (boot demoStore) demoInputs).state "k2" outsider (.str "S1")
        (.str "Hello") (demoEnv "M1" 3)).trace = [] ∧
    (roomEmits (message (run demoLib (boot demoStore) demoInputs).state "k2" outsider (.str "S1")
        (.str "Hello") (demoEnv "M1" 3)).trace).map (fun p => p.1) = ["k1"] ∧
    (roomEmits (message (run demoLib (boot demoStore) demoInputs).state "k1" demoUser (.str "S1")
        (.str "Hello") (demoEnv "M1" 3)).trace).map (fun p => (p.1, p.2.unsigned))
      = (roomEmits (message (run demoLib (boot demoStore) demoInputs).state "k2" outsider
          (.str "S1") (.str "Hello") (demoEnv "M1" 3)).trace).map
            (fun p => (p.1, p.2.unsigned)) :=
  ⟨by decide, by decide, by decide, by decide,
   ((no_authorization_on_message_or_close demoLib demoStore demoInputs "k1" "k2" demoUser
      outsider (.str "S1") (demoEnv "M1" 3)).1 (run demoLib (boot demoStore) demoInputs).state
      (.str "Hello") (by decide)).2.2.2.2.2.2.2⟩

/-! ## Typing indicators -/

/-- C20 (counterexample): after the demo run socket `k1` is in the room of session
`S1`; a `typing_start` from `k1` makes the relay emit nothing to the members of
that room. -/
theorem typing_is_not_relayed :
    members (run demoLib (boot demoStore) demoInputs).state.rooms (.str "S1") = ["k1"] ∧
    ¬ (∀ c ∈ members (run demoLib (boot demoStore) demoInputs).state.rooms (.str "S1"),
      ∃ ev, Action.emit c ev ∈
        (step demoLib (run demoLib (boot demoStore) demoInputs).state
          (.event "k1" (.typing_start (.str "A1"))) (demoEnv "x" 3)).trace) := by
  refine ⟨by decide, fun h => ?_⟩
  obtain ⟨ev, hev⟩ := h "k1" (by decide)
  have ht : (step demoLib (run demoLib (boot demoStore) demoInputs).state
      (.event "k1" (.typing_start (.str "A1"))) (demoEnv "x" 3)).trace = [] := by decide
  rw [ht] at hev
  cases hev

/-- C20 (amended): the relay registers no listener for `typing_start` or
`typing_stop`: on receiving either from any connection it emits nothing, sends
nothing to the store, and leaves the store, the sockets and the rooms as they
were. -/
theorem typing_events_do_nothing (lib : Lib) (s : State) (sid : String) (userId : Val)
    (env : Env) :
    step lib s (.event sid (.typing_start userId)) env = ⟨s, []⟩ ∧
    step lib s (.event sid (.typing_stop userId)) env = ⟨s, []⟩ := by
  constructor <;>
  · simp only [step, onEvent]
    split <;> rfl

/-! ## Payloads that are not objects -/

/-- C14 (the code at the failing input): when a client sends `start_chat`,
`message`, `fetch_chat_history` or `close_chat` with no argument, or with `null`,
the parameter pattern of the listener throws before the `try` is entered: the
promise of the listener is rejected and no `error` event is emitted.  For an
object argument the promise is fulfilled with the outcome of the body, which
turns its own failures into `error` events. -/
theorem listener_rejects_missing_payload (s : State) (sid : String) (user : SocketUser)
    (env : Env) :
    (start_chat_listener s sid user (.value .undefined) env
        = .rejected "TypeError: Cannot destructure property of undefined" ∧
      message_listener s sid user (.value .undefined) env
        = .rejected "TypeError: Cannot destructure property of undefined" ∧
      fetch_chat_history_listener s sid (.value .undefined) env
        = .rejected "TypeError: Cannot destructure property of undefined" ∧
      close_chat_listener s sid (.value .undefined) env
        = .rejected "TypeError: Cannot destructure property of undefined") ∧
    (start_chat_listener s sid user (.value .null) env
        = .rejected "TypeError: Cannot destructure property of null" ∧
      message_listener s sid user (.value .null) env
        = .rejected "TypeError: Cannot destructure property of null" ∧
      fetch_chat_history_listener s sid (.value .null) env
        = .rejected "TypeError: Cannot destructure property of null" ∧
      close_chat_listener s sid (.value .null) env
        = .rejected "TypeError: Cannot destructure property of null") ∧
    ((start_chat_listener s sid user (.value .undefined) env).errors = [] ∧
      (message_listener s sid user (.value .undefined) env).errors = [] ∧
      (fetch_chat_history_listener s sid (.value .undefined) env).errors = [] ∧
      (close_chat_listener s sid (.value .undefined) env).errors = []) ∧
    (∀ fields : List (String × Val),
      start_chat_listener s sid user (.object fields) env
        = .fulfilled (start_chat s sid user ((fields.lookup "customerId").getD .undefined) env) ∧
      message_listener s sid user (.object fields) env
        = .fulfilled (message s sid user ((fields.lookup "chatId").getD .undefined)
            ((fields.lookup "content").getD .undefined) env) ∧
      fetch_chat_history_listener s sid (.object fields) env
        = .fulfilled (fetch_chat_history s sid ((fields.lookup "chatId").getD .undefined) env) ∧
      close_chat_listener s sid (.object fields) env
        = .fulfilled (close_chat s sid ((fields.lookup "chatId").getD .undefined) env)) := by
  refine ⟨⟨rfl, rfl, rfl, rfl⟩, ⟨rfl, rfl, rfl, rfl⟩, ⟨rfl, rfl, rfl, rfl⟩, fun fields => ?_⟩
  exact ⟨rfl, rfl, rfl, rfl⟩

/-! ## The client's guard against a second chat -/

theorem startChat_state (st : ClientState) (customerId : Val) :
    (startChat st customerId).1.activeChats = st.activeChats := by
  unfold startChat
  split <;> rfl

theorem fetchChatHistory_sends (st : ClientState) (chatId : Val) (ev : ClientEvent)
    (h : ev ∈ (fetchChatHistory st chatId).2) : ev = .fetch_chat_history chatId := by
  unfold fetchChatHistory at h
  split at h
  · cases h
  · simpa using h

theorem fetchChatHistory_state (st : ClientState) (chatId : Val) :
    (fetchChatHistory st chatId).1.activeChats = st.activeChats := by
  unfold fetchChatHistory
  split <;> rfl

theorem handleCustomerSelect_state (st : ClientState) (customer : Customer) :
    (handleCustomerSelect st customer).1.activeChats = st.activeChats := by
  unfold handleCustomerSelect
  split
  · rw [fetchChatHistory_state]
  · exact startChat_state _ _

theorem handleCustomerSelect_start (st : ClientState) (customer : Customer) (cid : Val)
    (h : ClientEvent.start_chat cid ∈ (handleCustomerSelect st customer).2) :
    cid = customer.id ∧ ∀ chat ∈ st.activeChats, chat.customer_id ≠ cid := by
  unfold handleCustomerSelect at h
  split at h
  · have := fetchChatHistory_sends _ _ _ h
    cases this
  · rename_i hnone
    unfold startChat at h
    split at h
    · cases h
    · simp only [List.mem_singleton, ClientEvent.start_chat.injEq] at h
      subst h
      refine ⟨rfl, fun chat hchat heq => ?_⟩
      rw [List.find?_eq_none] at hnone
      exact hnone chat hchat (by simpa using heq)

theorem clientStep_start (st : ClientState) (inp : ClientInput) (cid : Val)
    (h : ClientEvent.start_chat cid ∈ (clientStep st inp).2) :
    (∃ customer, inp = .select customer ∧ customer.id = cid) ∧
      ∀ chat ∈ st.activeChats, chat.customer_id ≠ cid := by
  cases inp with
  | select customer =>
    obtain ⟨h1, h2⟩ := handleCustomerSelect_start st customer cid h
    exact ⟨⟨customer, rfl, h1.symm⟩, h2⟩
  | server ev => simp [clientStep] at h
  | connected => simp [clientStep] at h
  | disconnected => simp [clientStep] at h

theorem clientStep_keeps_chat (st : ClientState) (inp : ClientInput) (id customer_id : Val)
    (hinp : inp ≠ .server (.chat_closed id))
    (h : ∃ chat ∈ st.activeChats, chat.id = id ∧ chat.customer_id = customer_id) :
    ∃ chat ∈ (clientStep st inp).1.activeChats, chat.id = id ∧ chat.customer_id = customer_id := by
  obtain ⟨chat, hmem, hid, hcust⟩ := h
  cases inp with
  | select customer =>
    simp only [clientStep]
    rw [handleCustomerSelect_state]
    exact ⟨chat, hmem, hid, hcust⟩
  | server ev =>
    cases ev with
    | chat_started id2 c2 a2 s2 t2 cu2 =>
      simp only [clientStep, onServerEvent]
      split
      · exact ⟨chat, hmem, hid, hcust⟩
      · exact ⟨chat, List.mem_append_left _ hmem, hid, hcust⟩
    | chat_closed chatId =>
      have hne : chatId ≠ id := fun he => hinp (by rw [he])
      refine ⟨chat, ?_, hid, hcust⟩
      simp only [clientStep, onServerEvent, List.mem_filter, decide_not, Bool.not_eq_true',
        decide_eq_false_iff_not]
      exact ⟨hmem, fun he => hne (by rw [← he, hid])⟩
    | message m => exact ⟨chat, hmem, hid, hcust⟩
    | chat_history c ms => exact ⟨chat, hmem, hid, hcust⟩
    | error m d => exact ⟨chat, hmem, hid, hcust⟩
    | chat_queued sess => exact ⟨chat, hmem, hid, hcust⟩
  | connected => exact ⟨chat, hmem, hid, hcust⟩
  | disconnected => exact ⟨chat, hmem, hid, hcust⟩

theorem clientRun_no_second_start (id customer_id : Val) (inputs : List ClientInput) :
    ∀ st : ClientState,
      (∃ chat ∈ st.activeChats, chat.id = id ∧ chat.customer_id = customer_id) →
      (∀ x ∈ inputs, x ≠ ClientInput.server (.chat_closed id)) →
      ClientEvent.start_chat customer_id ∉ (clientRun st inputs).2 := by
  induction inputs with
  | nil => intro st _ _ h; simp [clientRun] at h
  | cons x rest ih =>
    intro st hinv hno h
    simp only [clientRun, List.mem_append] at h
    rcases h with h | h
    · obtain ⟨chat, hmem, _, hcust⟩ := hinv
      exact (clientStep_start st x customer_id h).2 chat hmem hcust
    · exact ih _ (clientStep_keeps_chat st x id customer_id (hno x (List.mem_cons_self _ _)) hinv)
        (fun y hy => hno y (List.mem_cons_of_mem _ hy)) h

/-- C11 (counterexample): a connected client with no chat selects the same
customer twice before any server event arrives; both times `activeChats` is empty,
so it sends `start_chat` twice, and the relay creates two `active` sessions for
the same agent and customer.  The same happens when the agent, with session `S1`
active, opens the page anew on socket `k2`: the new client starts with an empty
`activeChats` and its selection creates `S2`. -/
theorem double_select_creates_two_sessions :
    clientRun freshClient [.select carl, .select carl]
      = (freshClient, [.start_chat (.str "C1"), .start_chat (.str "C1")]) ∧
    (run demoLib (boot demoStore)
      ((Input.connect "k1" (.str "good"), demoEnv "x" 1) ::
        feed "k1" (clientRun freshClient [.select carl, .select carl]).2
          [demoEnv "S1" 2, demoEnv "S2" 3])).state.store.chat_sessions
      = [newSession (demoEnv "S1" 2) (.str "C1") (.str "A1") "active",
         newSession (demoEnv "S2" 3) (.str "C1") (.str "A1") "active"] ∧
    (∃ r1 r2 : ChatSession,
      r1 ∈ (run demoLib (boot demoStore)
        ((Input.connect "k1" (.str "good"), demoEnv "x" 1) ::
          feed "k1" (clientRun freshClient [.select carl, .select carl]).2
            [demoEnv "S1" 2, demoEnv "S2" 3])).state.store.chat_sessions ∧
      r2 ∈ (run demoLib (boot demoStore)
        ((Input.connect "k1" (.str "good"), demoEnv "x" 1) ::
          feed "k1" (clientRun freshClient [.select carl, .select carl]).2
            [demoEnv "S1" 2, demoEnv "S2" 3])).state.store.chat_sessions ∧
      r1.id ≠ r2.id ∧ r1.status = "active" ∧ r2.status = "active" ∧
      r1.agent_id = r2.agent_id ∧ r1.customer_id = r2.customer_id) ∧
    (run demoLib (run demoLib (boot demoStore) demoInputs).state
      ((Input.connect "k2" (.str "good"), demoEnv "x" 3) ::
        feed "k2" (clientRun freshClient [.select carl]).2
          [demoEnv "S2" 4])).state.store.chat_sessions
      = [newSession (demoEnv "S1" 2) (.str "C1") (.str "A1") "active",
         newSession (demoEnv "S2" 4) (.str "C1") (.str "A1") "active"] :=
  ⟨by decide, by decide,
   ⟨newSession (demoEnv "S1" 2) (.str "C1") (.str "A1") "active",
    newSession (demoEnv "S2" 3) (.str "C1") (.str "A1") "active",
    by decide, by decide, by decide, rfl, rfl, rfl, rfl⟩,
   by decide⟩

/-- C11 (amended): the client sends `start_chat` for a customer only on a
selection of that customer made while its `activeChats` holds no chat with that
`customer_id`.  Once it has handled `chat_started` for a session with that
customer, it sends no further `start_chat` for the customer over any sequence of
selections and server events that does not contain `chat_closed` for that
session. -/
theorem start_chat_only_without_cached_chat (st : ClientState) :
    (∀ (inp : ClientInput) (cid : Val), ClientEvent.start_chat cid ∈ (clientStep st inp).2 →
      (∃ customer, inp = .select customer ∧ customer.id = cid) ∧
      ∀ chat ∈ st.activeChats, chat.customer_id ≠ cid) ∧
    (∀ (id customer_id agent_id : Val) (status : String) (created_at : Nat)
        (customer : Option Customer) (inputs : List ClientInput),
      (∀ chat ∈ st.activeChats, chat.id ≠ id) →
      (∀ x ∈ inputs, x ≠ ClientInput.server (.chat_closed id)) →
      ClientEvent.start_chat customer_id ∉
        (clientRun
          (clientStep st
            (.server (.chat_started id customer_id agent_id status created_at customer))).1
          inputs).2) := by
  refine ⟨fun inp cid h => clientStep_start st inp cid h, ?_⟩
  intro id customer_id agent_id status created_at customer inputs hfresh hno
  apply clientRun_no_second_start id customer_id inputs _ _ hno
  have hany : st.activeChats.any (fun c => decide (c.id = id)) = false := by
    rw [List.any_eq_false]
    intro c hc
    simpa using hfresh c hc
  simp only [clientStep, onServerEvent, hany]
  exact ⟨⟨id, customer_id, agent_id, status, created_at, customer⟩, by simp, rfl, rfl⟩

/-- C11 (witness): once the fresh client has handled `chat_started` for session
`S1` with customer `C1`, selecting that customer twice sends no `start_chat`. -/
theorem start_chat_only_without_cached_chat_witness :
    (∀ chat ∈ freshClient.activeChats, chat.id ≠ Val.str "S1") ∧
    (∀ x ∈ [ClientInput.select carl, ClientInput.select carl],
      x ≠ ClientInput.server (.chat_closed (.str "S1"))) ∧
    ClientEvent.start_chat (.str "C1") ∉
      (clientRun
        (clientStep freshClient
          (.server (.chat_started (.str "S1") (.str "C1") (.str "A1") "active" 2
            (some carl)))).1
        [.select carl, .select carl]).2 ∧
    (clientRun
        (clientStep freshClient
          (.server (.chat_started (.str "S1") (.str "C1") (.str "A1") "active" 2
            (some carl)))).1
        [.select carl, .select carl]).2
      = [.fetch_chat_history (.str "S1"), .fetch_chat_history (.str "S1")] :=
  ⟨by decide, by decide,
   (start_chat_only_without_cached_chat freshClient).2 (.str "S1") (.str "C1") (.str "A1")
     "active" 2 (some carl) [.select carl, .select carl] (by decide) (by decide),
   by decide⟩

/-! ## Closing a chat that does not exist -/

theorem map_patch_of_no_match (l : List ChatSession) (p : SessionPatch) (id : Val)
    (h : ∀ c ∈ l, c.id ≠ id) :
    l.map (fun c => if c.id = id then p.apply c else c) = l := by
  induction l with
  | nil => rfl
  | cons x xs ih =>
    have hx : x.id ≠ id := h x (List.mem_cons_self _ _)
    have hxs : ∀ c ∈ xs, c.id ≠ id := fun c hc => h c (List.mem_cons_of_mem _ hc)
    simp [hx, ih hxs]

/-- C30: `close_chat` has no existence check.  In every state the process can
reach, for a `chatId` that is the id of no session row, a `close_chat` whose
store update reports no error leaves the table of sessions exactly as it was,
emits no `error` event, emits `chat_closed` with that `chatId` to every
connection in the room of `chatId` (and nothing else to anybody), and leaves that
room without members. -/
theorem close_chat_has_no_existence_check (lib : Lib) (store : Store)
    (inputs : List (Input × Env)) (sid : String) (chatId : Val) (env : Env)
    (hnone : ∀ c ∈ (run lib (boot store) inputs).state.store.chat_sessions, c.id ≠ chatId)
    (hupd : env.fault (.updateSession ⟨some "closed", some env.now⟩ chatId) = none) :
    (close_chat (run lib (boot store) inputs).state sid chatId env).state.store
      = (run lib (boot store) inputs).state.store ∧
    (∀ c m d, Action.emit c (.error m d) ∉
      (close_chat (run lib (boot store) inputs).state sid chatId env).trace) ∧
    (∀ c ev, Action.emit c ev ∈ (close_chat (run lib (boot store) inputs).state sid chatId env).trace ↔
      (c ∈ members (run lib (boot store) inputs).state.rooms chatId ∧ ev = .chat_closed chatId)) ∧
    (close_chat (run lib (boot store) inputs).state sid chatId env).trace =
      [.query (.updateSession ⟨some "closed", some env.now⟩ chatId)]
        ++ (members (run lib (boot store) inputs).state.rooms chatId).map
            (fun c => Action.emit c (.chat_closed chatId))
        ++ (members (run lib (boot store) inputs).state.rooms chatId).map
            (fun c => Action.leave c chatId) ∧
    members (close_chat (run lib (boot store) inputs).state sid chatId env).state.rooms chatId = [] := by
  have hwf := roomsConnected_run lib inputs (boot store) (roomsConnected_boot store)
  have hconn := members_connected _ hwf chatId
  have hemit : ∀ c ev, Action.emit c ev ∈
      ([Action.query (.updateSession ⟨some "closed", some env.now⟩ chatId)]
        ++ broadcast (run lib (boot store) inputs).state.rooms chatId (.chat_closed chatId)
        ++ (members (run lib (boot store) inputs).state.rooms chatId).map
            (fun c => Action.leave c chatId)) ↔
      (c ∈ members (run lib (boot store) inputs).state.rooms chatId ∧ ev = .chat_closed chatId) := by
    intro c ev
    simp only [broadcast, List.mem_append, List.mem_cons, List.mem_map, List.mem_singleton,
      List.not_mem_nil, or_false, false_or, Action.emit.injEq, reduceCtorEq, and_false,
      exists_false]
    constructor
    · rintro ⟨d, hd, rfl, rfl⟩
      exact ⟨hd, rfl⟩
    · rintro ⟨hc, rfl⟩
      exact ⟨c, hc, rfl, rfl⟩
  rw [close_chat_ok _ sid chatId env hupd hconn]
  refine ⟨?_, ?_, hemit, rfl, members_evict_nil _ chatId hconn⟩
  · simp only [map_patch_of_no_match _ _ _ hnone]
  · intro c m d h
    have := (hemit c (.error m d)).1 h
    simp at this

/-- C30 (witness): after the demo run the agent's socket `k1` is in the room
named by the agent's user id `A1`, which is the id of no session; closing the
"chat" `A1` changes no row, tells `k1` that it was closed and empties the room. -/
theorem close_chat_has_no_existence_check_witness :
    (∀ c ∈ (run demoLib (boot demoStore) demoInputs).state.store.chat_sessions, c.id ≠ .str "A1") ∧
    (close_chat (run demoLib (boot demoStore) demoInputs).state "k1" (.str "A1")
        (demoEnv "x" 4)).state.store
      = (run demoLib (boot demoStore) demoInputs).state.store ∧
    (close_chat (run demoLib (boot demoStore) demoInputs).state "k1" (.str "A1")
        (demoEnv "x" 4)).trace =
      [.query (.updateSession ⟨some "closed", some 4⟩ (.str "A1")),
       .emit "k1" (.chat_closed (.str "A1")), .leave "k1" (.str "A1")] ∧
    members (close_chat (run demoLib (boot demoStore) demoInputs).state "k1" (.str "A1")
      (demoEnv "x" 4)).state.rooms (.str "A1") = [] :=
  have h := close_chat_has_no_existence_check demoLib demoStore demoInputs "k1" (.str "A1")
    (demoEnv "x" 4) (by decide) (by decide)
  ⟨by decide, h.1, by decide, h.2.2.2.2⟩
/-! ## `authenticateToken` -/

theorem splitSpaces_ne_nil (cs : List Char) : splitSpaces cs ≠ [] := by
  cases cs with
  | nil => simp [splitSpaces]
  | cons c cs =>
    unfold splitSpaces
    split
    · simp
    · split <;> simp

theorem splitSpaces_no_space (cs : List Char) (h : ' ' ∉ cs) : splitSpaces cs = [cs] := by
  induction cs with
  | nil => rfl
  | cons c cs ih =>
    have hc : c ≠ ' ' := fun e => h (by simp [e])
    have hcs : ' ' ∉ cs := fun e => h (List.mem_cons_of_mem _ e)
    unfold splitSpaces
    rw [ih hcs]
    simp [hc]

theorem splitSpaces_space (cs : List Char) (h : ' ' ∈ cs) : 2 ≤ (splitSpaces cs).length := by
  induction cs with
  | nil => simp at h
  | cons c cs ih =>
    unfold splitSpaces
    cases hs : splitSpaces cs with
    | nil => exact absurd hs (splitSpaces_ne_nil cs)
    | cons w ws =>
      by_cases hc : c = ' '
      · simp [hc]
      · have hcs : ' ' ∈ cs := by
          rcases List.mem_cons.1 h with e | e
          · exact absurd e.symm hc
          · exact e
        have := ih hcs
        rw [hs] at this
        simpa [hc] using this

/-- The header yields no second part exactly when it is absent or holds no space. -/
theorem bearerToken_none (authorization : Option String) :
    bearerToken authorization = none ↔
      authorization = none ∨ ∃ h, authorization = some h ∧ ' ' ∉ h.data := by
  cases authorization with
  | none => simp [bearerToken]
  | some h =>
    simp only [bearerToken, reduceCtorEq, Option.some.injEq, exists_eq_left', false_or]
    constructor
    · intro hn hs
      have h2 := splitSpaces_space h.data hs
      rw [List.getElem?_eq_none_iff] at hn
      simp at hn
      omega
    · intro hs
      rw [splitSpaces_no_space h.data hs]
      rfl

theorem authenticateTokenRun_agrees (lib : Lib) (authorization : Option String) :
    authenticateTokenRun lib authorization none =
      match authenticateToken lib authorization with
      | .error r => [.respond r]
      | .ok payload => [.setUser payload, .next] := by
  unfold authenticateTokenRun authenticateToken
  cases bearerToken authorization with
  | none => rfl
  | some token =>
    by_cases ht : token = ""
    · simp [ht]
    · simp only [ht, if_false]
      cases lib.jwtVerify (.str token) <;> rfl

/-- C21: `authenticateToken` decides every request by its `Authorization` header.
When the header is absent, when it holds no space (so that splitting it at spaces
gives no second part), or when that second part is empty, the middleware answers
401 with `Authentication required` and does nothing else, whatever `next` would
do.  When the second part is a non-empty token on which `jwt.verify` throws, it
answers 403 with `Invalid token` and does nothing else.  In every other case the
token verifies: the middleware stores the verified payload in `req.user`, calls
`next` once and, `next` returning, sends no response.  These cases cover every
header. -/
theorem authenticateToken_decides (lib : Lib) (authorization : Option String) :
    (authorization = none →
      ∀ nx, authenticateTokenRun lib authorization nx
        = [.respond ⟨401, .error "Authentication required"⟩]) ∧
    (∀ h, authorization = some h → ' ' ∉ h.data →
      ∀ nx, authenticateTokenRun lib authorization nx
        = [.respond ⟨401, .error "Authentication required"⟩]) ∧
    (bearerToken authorization = some "" →
      ∀ nx, authenticateTokenRun lib authorization nx
        = [.respond ⟨401, .error "Authentication required"⟩]) ∧
    (∀ token, bearerToken authorization = some token → token ≠ "" →
      lib.jwtVerify (.str token) = none →
      ∀ nx, authenticateTokenRun lib authorization nx
        = [.respond ⟨403, .error "Invalid token"⟩]) ∧
    (∀ token payload, bearerToken authorization = some token → token ≠ "" →
      lib.jwtVerify (.str token) = some payload →
      authenticateTokenRun lib authorization none = [.setUser payload, .next]) ∧
    (authorization = none ∨ (∃ h, authorization = some h ∧ ' ' ∉ h.data) ∨
      bearerToken authorization = some "" ∨
      (∃ token, bearerToken authorization = some token ∧ token ≠ "" ∧
        lib.jwtVerify (.str token) = none) ∨
      (∃ token payload, bearerToken authorization = some token ∧ token ≠ "" ∧
        lib.jwtVerify (.str token) = some payload)) := by
  refine ⟨?_, ?_, ?_, ?_, ?_, ?_⟩
  · intro h nx
    have hb := (bearerToken_none authorization).2 (Or.inl h)
    simp [authenticateTokenRun, hb]
  · intro h hh hs nx
    have hb := (bearerToken_none authorization).2 (Or.inr ⟨h, hh, hs⟩)
    simp [authenticateTokenRun, hb]
  · intro hb nx
    simp [authenticateTokenRun, hb]
  · intro token hb ht hv nx
    simp [authenticateTokenRun, hb, ht, hv]
  · intro token payload hb ht hv
    simp [authenticateTokenRun, hb, ht, hv]
  · cases hb : bearerToken authorization with
    | none =>
      rcases (bearerToken_none authorization).1 hb with h | h
      · exact Or.inl h
      · exact Or.inr (Or.inl h)
    | some token =>
      by_cases ht : token = ""
      · exact Or.inr (Or.inr (Or.inl (by rw [ht])))
      · cases hv : lib.jwtVerify (.str token) with
        | none => exact Or.inr (Or.inr (Or.inr (Or.inl ⟨token, rfl, ht, hv⟩)))
        | some payload => exact Or.inr (Or.inr (Or.inr (Or.inr ⟨token, payload, rfl, ht, hv⟩)))

/-- C21 (witness): with the demo library a request without header, one with the
header `Bearer` alone, one with `Bearer ` and nothing behind the space, one with a
forged token and one with the good token. -/
theorem authenticateToken_decides_witness :
    authenticateTokenRun demoLib none none
      = [.respond ⟨401, .error "Authentication required"⟩] ∧
    authenticateTokenRun demoLib (some "Bearer") none
      = [.respond ⟨401, .error "Authentication required"⟩] ∧
    authenticateTokenRun demoLib (some "Bearer ") none
      = [.respond ⟨401, .error "Authentication required"⟩] ∧
    authenticateTokenRun demoLib (some "Bearer forged") none
      = [.respond ⟨403, .error "Invalid token"⟩] ∧
    authenticateTokenRun demoLib (some "Bearer good") none = [.setUser demoClaims, .next] :=
  ⟨(authenticateToken_decides demoLib none).1 rfl none,
   (authenticateToken_decides demoLib (some "Bearer")).2.1 "Bearer" rfl (by decide) none,
   (authenticateToken_decides demoLib (some "Bearer ")).2.2.1 (by decide) none,
   (authenticateToken_decides demoLib (some "Bearer forged")).2.2.2.1 "forged" (by decide)
     (by decide) (by decide) none,
   (authenticateToken_decides demoLib (some "Bearer good")).2.2.2.2.1 "good" demoClaims
     (by decide) (by decide) (by decide)⟩

/-! ## `authorize` -/

theorem everyIncluded_some (l : List Val) (required : List Val) :
    everyIncluded (some l) required = some (decide (∀ p ∈ required, p ∈ l)) := by
  induction required with
  | nil => simp [everyIncluded]
  | cons p ps ih =>
    unfold everyIncluded
    by_cases hp : p ∈ l
    · simp [hp, ih]
    · simp [hp]

theorem authorize_known (required : List Val) (user : Claims) (l : List Val)
    (h : rolePermissions user.role = some l) :
    authorize required user =
      if ∀ p ∈ required, p ∈ l then [.next]
      else [.respond ⟨403, .error "Insufficient permissions"⟩] := by
  unfold authorize
  rw [h, everyIncluded_some]
  by_cases ha : ∀ p ∈ required, p ∈ l
  · rw [if_pos ha, decide_eq_true ha]
    rfl
  · rw [if_neg ha, decide_eq_false ha]
    rfl

theorem rolePermissions_defined (role : Val)
    (h : role = .str "admin" ∨ role = .str "manager" ∨ role = .str "agent") :
    ∃ l, rolePermissions role = some l := by
  rcases h with h | h | h <;> subst h <;> exact ⟨_, rfl⟩

/-- C27: for a request whose role is `admin`, `manager` or `agent` and for every
list of required permissions, `authorize` calls `next` (and does nothing else)
exactly when every required permission is in the list `rolePermissions` has for
the role, and otherwise it answers 403 with `Insufficient permissions` and does
not call `next`.  An `admin` passes for every list made of defined permissions,
and a list that lets an `agent` pass lets a `manager` pass. -/
theorem authorize_checks_role_permissions (required : List Val) (user : Claims)
    (hrole : user.role = .str "admin" ∨ user.role = .str "manager" ∨ user.role = .str "agent") :
    (∃ l, rolePermissions user.role = some l ∧
      (authorize required user = [.next] ↔ ∀ p ∈ required, p ∈ l) ∧
      (¬ (∀ p ∈ required, p ∈ l) →
        authorize required user = [.respond ⟨403, .error "Insufficient permissions"⟩])) ∧
    (user.role = .str "admin" → (∀ p ∈ required, p ∈ PERMISSIONS) →
      authorize required user = [.next]) ∧
    (∀ agent manager : Claims, agent.role = .str "agent" → manager.role = .str "manager" →
      authorize required agent = [.next] → authorize required manager = [.next]) := by
  refine ⟨?_, ?_, ?_⟩
  · obtain ⟨l, hl⟩ := rolePermissions_defined user.role hrole
    refine ⟨l, hl, ?_, ?_⟩
    · rw [authorize_known required user l hl]
      by_cases ha : ∀ p ∈ required, p ∈ l
      · simp only [if_pos ha, true_iff]
        exact ha
      · simp only [if_neg ha]
        constructor
        · intro h; simp at h
        · intro h; exact absurd h ha
    · intro hn
      rw [authorize_known required user l hl, if_neg hn]
  · intro ha hall
    have hl : rolePermissions user.role = some PERMISSIONS := by rw [ha]; rfl
    rw [authorize_known required user _ hl, if_pos hall]
  · intro agent manager hag hman hpass
    have hla : rolePermissions agent.role
        = some [.str "read_customer", .str "update_customer", .str "read_campaign"] := by
      rw [hag]; rfl
    have hlm : rolePermissions manager.role
        = some [.str "read_user", .str "create_customer", .str "read_customer",
            .str "update_customer", .str "create_campaign", .str "read_campaign",
            .str "update_campaign", .str "assign_customer"] := by
      rw [hman]; rfl
    rw [authorize_known required agent _ hla] at hpass
    rw [authorize_known required manager _ hlm]
    by_cases ha : ∀ p ∈ required,
        p ∈ [Val.str "read_customer", .str "update_customer", .str "read_campaign"]
    · rw [if_pos]
      intro p hp
      have := ha p hp
      simp only [List.mem_cons, List.mem_singleton, List.not_mem_nil, or_false] at this ⊢
      rcases this with h | h | h <;> simp [h]
    · rw [if_neg ha] at hpass
      simp at hpass

/-- C27 (witness): a manager may read users and update customers, and may not
delete customers. -/
theorem authorize_checks_role_permissions_witness :
    authorize [.str "read_user", .str "update_customer"] (demoRole "manager") = [.next] ∧
    authorize [.str "read_user", .str "delete_customer"] (demoRole "manager")
      = [.respond ⟨403, .error "Insufficient permissions"⟩] ∧
    authorize [.str "create_user", .str "delete_campaign"] (demoRole "admin") = [.next] :=
  ⟨by
    obtain ⟨l, hl, h1, _⟩ := (authorize_checks_role_permissions
      [.str "read_user", .str "update_customer"] (demoRole "manager") (by decide)).1
    have e : l = [.str "read_user", .str "create_customer", .str "read_customer",
        .str "update_customer", .str "create_campaign", .str "read_campaign",
        .str "update_campaign", .str "assign_customer"] :=
      (Option.some.inj (hl.symm.trans rfl))
    subst e
    exact h1.2 (by decide),
   by decide,
   (authorize_checks_role_permissions [.str "create_user", .str "delete_campaign"]
      (demoRole "admin") (by decide)).2.1 rfl (by decide)⟩
/-! ## Where the client's messages come from -/

theorem sendMessage_messages (p : Provider) (chatId content : Val) :
    (sendMessage p chatId content).1.messages = p.messages := by
  unfold sendMessage
  split <;> rfl

theorem closeChat_messages (p : Provider) (chatId : Val) :
    (closeChat p chatId).1.messages = p.messages := by
  unfold closeChat
  split <;> rfl

/-- An input other than a server event keeps the message lists. -/
theorem providerStep_messages (p p2 : Provider) (inp : ProviderInput) (sent : List ClientEvent)
    (h : providerStep p inp = some (p2, sent))
    (hno : ∀ ev, inp ≠ .client (.server ev)) :
    p2.messages = p.messages := by
  cases inp with
  | client ci =>
    cases ci with
    | server ev => exact absurd rfl (hno ev)
    | select c =>
      simp only [providerStep, Option.some.injEq, Prod.mk.injEq] at h
      rw [← h.1]
    | connected =>
      simp only [providerStep, Option.some.injEq, Prod.mk.injEq] at h
      rw [← h.1]
    | disconnected =>
      simp only [providerStep, Option.some.injEq, Prod.mk.injEq] at h
      rw [← h.1]
  | sendMessage chatId content =>
    simp only [providerStep, Option.some.injEq] at h
    rw [← sendMessage_messages p chatId content, h]
  | closeChat chatId =>
    simp only [providerStep, Option.some.injEq] at h
    rw [← closeChat_messages p chatId, h]

/-- The message lists after a server event. -/
theorem providerStep_server (p p2 : Provider) (ev : ServerEvent) (sent : List ClientEvent)
    (h : providerStep p (.client (.server ev)) = some (p2, sent)) :
    onServerEventMessages p.messages ev = some p2.messages := by
  simp only [providerStep] at h
  cases hm : onServerEventMessages p.messages ev with
  | none => rw [hm] at h; simp at h
  | some ms =>
    rw [hm] at h
    simp only [Option.some.injEq, Prod.mk.injEq] at h
    rw [← h.1]

/-- C23: optimistic UI is not used.  `sendMessage` leaves the `messages` state as
it is for every chat id and content (it only sends the `message` event, or sets
the error text).  For every transition of the provider and every key: a message
in the list of that key afterwards was in that list before, or the transition
handled a server `message` event carrying this message for this key, which put it
at the end of the list that was there, or it handled a `chat_history` event for
this key, whose list replaced the one that was there.  Every transition other
than a server event keeps `messages`. -/
theorem messages_come_from_the_server (p : Provider) :
    (∀ chatId content, (sendMessage p chatId content).1.messages = p.messages) ∧
    (∀ inp p2 sent, providerStep p inp = some (p2, sent) →
      (∀ ev, inp ≠ .client (.server ev)) → p2.messages = p.messages) ∧
    (∀ inp p2 sent, providerStep p inp = some (p2, sent) →
      ∀ key m, m ∈ p2.messages.listOf key →
        m ∈ p.messages.listOf key ∨
        (inp = .client (.server (.message (some m))) ∧ key = m.row.chat_id.toKey ∧
          p2.messages key = some (p.messages.listOf key ++ [m])) ∨
        (∃ chatId chatMessages, inp = .client (.server (.chat_history chatId chatMessages)) ∧
          key = chatId.toKey ∧ p2.messages key = some chatMessages)) ∧
    (∀ m p2 sent, providerStep p (.client (.server (.message (some m)))) = some (p2, sent) →
      p2.messages m.row.chat_id.toKey = some (p.messages.listOf m.row.chat_id.toKey ++ [m]) ∧
      ∀ key, key ≠ m.row.chat_id.toKey → p2.messages key = p.messages key) ∧
    (∀ chatId chatMessages p2 sent,
      providerStep p (.client (.server (.chat_history chatId chatMessages))) = some (p2, sent) →
      p2.messages chatId.toKey = some chatMessages ∧
      ∀ key, key ≠ chatId.toKey → p2.messages key = p.messages key) := by
  refine ⟨sendMessage_messages p, ?_, ?_, ?_, ?_⟩
  · intro inp p2 sent h hno
    exact providerStep_messages p p2 inp sent h hno
  · intro inp p2 sent h key m hm
    by_cases hs : ∃ ev, inp = .client (.server ev)
    · obtain ⟨ev, rfl⟩ := hs
      have h2 := providerStep_server p p2 ev sent h
      cases ev with
      | message mo =>
        cases mo with
        | none => simp [onServerEventMessages] at h2
        | some m2 =>
          simp only [onServerEventMessages, Option.some.injEq] at h2
          rw [← h2] at hm ⊢
          by_cases hk : key = m2.row.chat_id.toKey
          · subst hk
            simp only [Messages.listOf, Messages.set, if_true, Option.getD_some,
              List.mem_append, List.mem_singleton] at hm
            rcases hm with hm | hm
            · exact Or.inl hm
            · subst hm
              exact Or.inr (Or.inl ⟨rfl, rfl, by simp [Messages.set, Messages.listOf]⟩)
          · simp only [Messages.listOf, Messages.set, if_neg hk] at hm
            exact Or.inl hm
      | chat_history chatId chatMessages =>
        simp only [onServerEventMessages, Option.some.injEq] at h2
        rw [← h2] at hm ⊢
        by_cases hk : key = chatId.toKey
        · subst hk
          exact Or.inr (Or.inr ⟨chatId, chatMessages, rfl, rfl, by simp [Messages.set]⟩)
        · simp only [Messages.listOf, Messages.set, if_neg hk] at hm
          exact Or.inl hm
      | chat_closed chatId =>
        simp only [onServerEventMessages, Option.some.injEq] at h2
        rw [← h2] at hm
        by_cases hk : key = chatId.toKey
        · simp [Messages.listOf, Messages.delete, hk] at hm
        · simp only [Messages.listOf, Messages.delete, if_neg hk] at hm
          exact Or.inl hm
      | chat_started _ _ _ _ _ _ =>
        simp only [onServerEventMessages, Option.some.injEq] at h2
        rw [← h2] at hm; exact Or.inl hm
      | error _ _ =>
        simp only [onServerEventMessages, Option.some.injEq] at h2
        rw [← h2] at hm; exact Or.inl hm
      | chat_queued _ =>
        simp only [onServerEventMessages, Option.some.injEq] at h2
        rw [← h2] at hm; exact Or.inl hm
    · have hno : ∀ ev, inp ≠ .client (.server ev) := fun ev e => hs ⟨ev, e⟩
      rw [providerStep_messages p p2 inp sent h hno] at hm
      exact Or.inl hm
  · intro m p2 sent h
    have h2 := providerStep_server p p2 _ sent h
    simp only [onServerEventMessages, Option.some.injEq] at h2
    rw [← h2]
    refine ⟨by simp [Messages.set], ?_⟩
    intro key hk
    simp [Messages.set, hk]
  · intro chatId chatMessages p2 sent h
    have h2 := providerStep_server p p2 _ sent h
    simp only [onServerEventMessages, Option.some.injEq] at h2
    rw [← h2]
    refine ⟨by simp [Messages.set], ?_⟩
    intro key hk
    simp [Messages.set, hk]

/-- C23 (witness): the demo provider shows one message of chat `S1`.  Sending
`Again` changes no list; when the relay's `message` event for it arrives, the
message stands at the end of the list of `S1`. -/
theorem messages_come_from_the_server_witness :
    (sendMessage demoProvider (.str "S1") (.str "Again")).2
      = [.message (.str "S1") (.str "Again")] ∧
    (sendMessage demoProvider (.str "S1") (.str "Again")).1.messages = demoProvider.messages ∧
    ∃ p2 sent,
      providerStep demoProvider
        (.client (.server (.message (some (demoMessage "M2" "S1" "Again" 4))))) = some (p2, sent) ∧
      p2.messages "S1"
        = some [demoMessage "M1" "S1" "Hello" 3, demoMessage "M2" "S1" "Again" 4] :=
  ⟨by decide,
   (messages_come_from_the_server demoProvider).1 (.str "S1") (.str "Again"),
   _, _, rfl,
   ((messages_come_from_the_server demoProvider).2.2.2.1
     (demoMessage "M2" "S1" "Again" 4) _ _ rfl).1⟩
/-! ## Bulk import of users -/

theorem single_data_none_of_nil {α : Type} (fault : Option String) (rows : List α)
    (h : rows = []) : (single fault rows).data = none := by
  subst h
  cases fault <;> rfl

theorem single_data_of_one {α : Type} (r : α) : (single none [r]).data = some r := rfl

theorem single_data_some {α : Type} (fault : Option String) (rows : List α) (r : α)
    (h : (single fault rows).data = some r) : fault = none ∧ rows = [r] := by
  unfold single at h
  cases fault with
  | some e => simp at h
  | none =>
    simp only at h
    split at h
    · simp only [Option.some.injEq] at h
      subst h
      exact ⟨rfl, rfl⟩
    · simp at h

/-- Every branch of the loop body pushes to exactly one of the two lists. -/
theorem importRecord_one (lib : Lib) (actor : Claims) (st : Store) (userData : ImportRecord)
    (env : ImportEnv) :
    ((importRecord lib actor st userData env).successful.length = 1 ∧
      (importRecord lib actor st userData env).failed = []) ∨
    ((importRecord lib actor st userData env).successful = [] ∧
      (importRecord lib actor st userData env).failed.length = 1) := by
  unfold importRecord
  split
  · exact Or.inr ⟨rfl, rfl⟩
  · split
    · exact Or.inr ⟨rfl, rfl⟩
    · simp only
      split
      · exact Or.inr ⟨rfl, rfl⟩
      · split
        · exact Or.inr ⟨rfl, rfl⟩
        · split
          · exact Or.inr ⟨rfl, rfl⟩
          · exact Or.inl ⟨rfl, rfl⟩

theorem importUsers_count (lib : Lib) (actor : Claims) (envs : Nat → ImportEnv)
    (users : List (Option ImportRecord)) :
    ∀ (i : Nat) (st : Store), (importUsers lib actor envs i st users).thrown = none →
      (importUsers lib actor envs i st users).successful.length
        + (importUsers lib actor envs i st users).failed.length = users.length := by
  induction users with
  | nil => intro i st _; rfl
  | cons u rest ih =>
    intro i st h
    cases u with
    | none => simp [importUsers] at h
    | some userData =>
      simp only [importUsers] at h ⊢
      have h1 := ih (i + 1) (importRecord lib actor st userData (envs i)).store h
      have h2 := importRecord_one lib actor st userData (envs i)
      simp only [List.length_append, List.length_cons]
      rcases h2 with ⟨a, b⟩ | ⟨a, b⟩
      · rw [a, b]; simp only [List.length_nil]; omega
      · rw [a, b]; simp only [List.length_nil]; omega

theorem importUsers_objects (lib : Lib) (actor : Claims) (envs : Nat → ImportEnv)
    (users : List (Option ImportRecord)) (hobj : ∀ u ∈ users, u ≠ none) :
    ∀ (i : Nat) (st : Store), (importUsers lib actor envs i st users).thrown = none := by
  induction users with
  | nil => intro i st; rfl
  | cons u rest ih =>
    intro i st
    cases u with
    | none => exact absurd rfl (hobj none (List.mem_cons_self _ _))
    | some userData =>
      simp only [importUsers]
      exact ih (fun u hu => hobj u (List.mem_cons_of_mem _ hu)) _ _

theorem importRecord_insert_attempted (lib : Lib) (actor : Claims) (st : Store)
    (userData : ImportRecord) (env : ImportEnv) (e p r n ph : Val)
    (h : ImportOp.insertUser e p r n ph ∈ (importRecord lib actor st userData env).ops) :
    userData.email.truthy = true ∧ userData.password.truthy = true ∧
    userData.role.truthy = true ∧ userData.role ∈ ROLES ∧
    (single env.selectFault (st.users.filter (fun u => u.email = userData.email))).data = none := by
  unfold importRecord at h
  split at h
  · simp at h
  · rename_i hmiss
    split at h
    · simp at h
    · rename_i hrole
      simp only [Bool.or_eq_true, Bool.not_eq_true', not_or, Bool.not_eq_false] at hmiss
      refine ⟨hmiss.1.1, hmiss.1.2, hmiss.2, not_not.1 hrole, ?_⟩
      simp only at h
      split at h
      · simp at h
      · rename_i hnone
        exact hnone

theorem importRecord_store (lib : Lib) (actor : Claims) (st : Store)
    (userData : ImportRecord) (env : ImportEnv)
    (h : (importRecord lib actor st userData env).store ≠ st) :
    ImportOp.insertUser userData.email (lib.bcryptHash userData.password) userData.role
        userData.name userData.phone ∈ (importRecord lib actor st userData env).ops ∧
    (importRecord lib actor st userData env).store.users = st.users ++
      [⟨env.newId, userData.name, userData.email, lib.bcryptHash userData.password,
        userData.role⟩] := by
  unfold importRecord at h ⊢
  split
  · rename_i hc; simp [hc] at h
  · rename_i hc
    simp only [hc] at h
    split
    · rename_i hr; simp [hr] at h
    · rename_i hr
      simp only [hr, if_false] at h ⊢
      split
      · rename_i x hx; simp [hx] at h
      · rename_i hx
        simp only [hx] at h
        split
        · rename_i e he; simp [he] at h
        · rename_i he
          simp only [he] at h
          split
          · rename_i e2 he2; simp [he2] at h
          · simp

/-- C24, as the code behaves: the bulk import tests each record in the order of
the claim.  A record with a missing (falsy) email, password or role is reported
with `Missing required fields (email, password, or role)`, a complete record
whose role is none of `admin`, `manager`, `agent` with `Invalid role`, both
without any request to the store; a complete record with a valid role for which
the lookup by email returns a user is reported with `User already exists` after
the lookup alone.  An insert is attempted only after these three tests, and the
table of users changes only by such an insert.  But the third test reads only the
`data` of the lookup: when the lookup fails, or when it matches more than one
user, `data` is `null`, and the record is inserted like a new one, whatever users
the table holds; it is not reported as existing. -/
theorem import_trusts_the_lookup_data (lib : Lib) (actor : Claims) (st : Store)
    (userData : ImportRecord) (env : ImportEnv) :
    ((userData.email.truthy = false ∨ userData.password.truthy = false ∨
        userData.role.truthy = false) →
      importRecord lib actor st userData env =
        ⟨st, [], [⟨userData.email.or (.str "unknown"),
          "Missing required fields (email, password, or role)"⟩], []⟩) ∧
    (userData.email.truthy = true → userData.password.truthy = true →
      userData.role.truthy = true →
      ¬ (userData.role = .str "admin" ∨ userData.role = .str "manager" ∨
          userData.role = .str "agent") →
      importRecord lib actor st userData env =
        ⟨st, [], [⟨userData.email, "Invalid role"⟩], []⟩) ∧
    (∀ u, userData.email.truthy = true → userData.password.truthy = true →
      userData.role.truthy = true →
      (userData.role = .str "admin" ∨ userData.role = .str "manager" ∨
          userData.role = .str "agent") →
      (single env.selectFault (st.users.filter (fun u => u.email = userData.email))).data
        = some u →
      importRecord lib actor st userData env =
        ⟨st, [], [⟨userData.email, "User already exists"⟩], [.selectUser userData.email]⟩) ∧
    (∀ e p r n ph,
      ImportOp.insertUser e p r n ph ∈ (importRecord lib actor st userData env).ops →
      userData.email.truthy = true ∧ userData.password.truthy = true ∧
      userData.role.truthy = true ∧
      (userData.role = .str "admin" ∨ userData.role = .str "manager" ∨
          userData.role = .str "agent") ∧
      (single env.selectFault (st.users.filter (fun u => u.email = userData.email))).data
        = none) ∧
    ((importRecord lib actor st userData env).store ≠ st →
      ImportOp.insertUser userData.email (lib.bcryptHash userData.password) userData.role
        userData.name userData.phone ∈ (importRecord lib actor st userData env).ops) ∧
    (userData.email.truthy = true → userData.password.truthy = true →
      userData.role.truthy = true →
      (userData.role = .str "admin" ∨ userData.role = .str "manager" ∨
          userData.role = .str "agent") →
      ((∃ e, env.selectFault = some e) ∨
        2 ≤ (st.users.filter (fun u => u.email = userData.email)).length) →
      env.hashFault = none → env.insertFault = none →
      importRecord lib actor st userData env =
        ⟨{ st with users := st.users ++
            [⟨env.newId, userData.name, userData.email, lib.bcryptHash userData.password,
              userData.role⟩] },
          [⟨env.newId, userData.email, userData.role⟩], [],
          [.selectUser userData.email,
           .insertUser userData.email (lib.bcryptHash userData.password) userData.role
             userData.name userData.phone,
           .insertActivity actor.userId "user_imported" env.newId userData.email]⟩) := by
  have hroles : ∀ v : Val, v ∈ ROLES ↔
      (v = .str "admin" ∨ v = .str "manager" ∨ v = .str "agent") := by
    intro v; simp [ROLES]
  refine ⟨?_, ?_, ?_, ?_, ?_, ?_⟩
  · intro h
    have hc : (!userData.email.truthy || !userData.password.truthy || !userData.role.truthy)
        = true := by
      rcases h with h | h | h <;> simp [h]
    unfold importRecord
    rw [if_pos hc]
  · intro h1 h2 h3 hr
    unfold importRecord
    have hc : ¬ (!userData.email.truthy || !userData.password.truthy || !userData.role.truthy)
        = true := by simp [h1, h2, h3]
    rw [if_neg hc, if_pos (fun hm => hr ((hroles _).1 hm))]
  · intro u h1 h2 h3 hr hu
    unfold importRecord
    have hc : ¬ (!userData.email.truthy || !userData.password.truthy || !userData.role.truthy)
        = true := by simp [h1, h2, h3]
    have hr2 : ¬ userData.role ∉ ROLES := not_not.2 ((hroles _).2 hr)
    rw [if_neg hc, if_neg hr2]
    simp only [hu]
  · intro e p r n ph h
    obtain ⟨h1, h2, h3, h4, h5⟩ :=
      importRecord_insert_attempted lib actor st userData env e p r n ph h
    exact ⟨h1, h2, h3, (hroles _).1 h4, h5⟩
  · intro h
    exact (importRecord_store lib actor st userData env h).1
  · intro h1 h2 h3 hr hlook hh hi
    have hnone : (single env.selectFault
        (st.users.filter (fun u => u.email = userData.email))).data = none := by
      rcases hlook with ⟨e, he⟩ | hlen
      · rw [he]; rfl
      · cases hl : st.users.filter (fun u => u.email = userData.email) with
        | nil => rw [hl] at hlen; simp at hlen
        | cons a rest =>
          cases rest with
          | nil => rw [hl] at hlen; simp at hlen
          | cons b rest2 => cases env.selectFault <;> rfl
    unfold importRecord
    have hc : ¬ (!userData.email.truthy || !userData.password.truthy || !userData.role.truthy)
        = true := by simp [h1, h2, h3]
    have hr2 : ¬ userData.role ∉ ROLES := not_not.2 ((hroles _).2 hr)
    rw [if_neg hc, if_neg hr2]
    simp only [hnone, hh, hi]

/-- C24 (witness): `demoStore` holds the user `ann@x`.  When the lookup for the
record `ann@x` fails, the record is inserted: the table then holds two users with
that email, the record is reported as successful and nothing is reported as
failed.  When the lookup is answered the record is reported as existing. -/
theorem import_trusts_the_lookup_data_witness :
    (demoStore.users.map (fun u => u.email)) = [.str "ann@x"] ∧
    importRecord demoLib demoClaims demoStore
        ⟨.str "ann@x", .str "pw", .str "agent", .str "Ann", .undefined⟩
        ⟨some "fetch failed", none, none, .str "U2"⟩ =
      ⟨{ demoStore with users := demoStore.users ++
          [⟨.str "U2", .str "Ann", .str "ann@x", .str "pw", .str "agent"⟩] },
        [⟨.str "U2", .str "ann@x", .str "agent"⟩], [],
        [.selectUser (.str "ann@x"),
         .insertUser (.str "ann@x") (.str "pw") (.str "agent") (.str "Ann") .undefined,
         .insertActivity (.str "A1") "user_imported" (.str "U2") (.str "ann@x")]⟩ ∧
    importRecord demoLib demoClaims demoStore
        ⟨.str "ann@x", .str "pw", .str "agent", .str "Ann", .undefined⟩ (demoImportEnv "U2") =
      ⟨demoStore, [], [⟨.str "ann@x", "User already exists"⟩], [.selectUser (.str "ann@x")]⟩ :=
  ⟨rfl,
   (import_trusts_the_lookup_data demoLib demoClaims demoStore
      ⟨.str "ann@x", .str "pw", .str "agent", .str "Ann", .undefined⟩
      ⟨some "fetch failed", none, none, .str "U2"⟩).2.2.2.2.2
      (by decide) (by decide) (by decide) (by decide) (Or.inl ⟨_, rfl⟩) rfl rfl,
   (import_trusts_the_lookup_data demoLib demoClaims demoStore
      ⟨.str "ann@x", .str "pw", .str "agent", .str "Ann", .undefined⟩
      (demoImportEnv "U2")).2.2.1 ⟨.str "A1", .str "Ann", .str "ann@x", .str "pw", .str "agent"⟩
      (by decide) (by decide) (by decide) (by decide) (by decide)⟩

/-- C29: the bulk import accounts for every record exactly once.  The body of the
loop pushes each record to exactly one of `results.successful` and
`results.failed`; whenever the route answers 201, the summary counts the two
lists, its total is the length of the parsed array, and
`total = successful + failed`; and the route answers 201 for every parsed array
whose elements are objects. -/
theorem import_accounts_for_every_record (lib : Lib) (actor : Claims) (envs : Nat → ImportEnv)
    (st : Store) :
    (∀ userData env,
      ((importRecord lib actor st userData env).successful.length = 1 ∧
        (importRecord lib actor st userData env).failed = []) ∨
      ((importRecord lib actor st userData env).successful = [] ∧
        (importRecord lib actor st userData env).failed.length = 1)) ∧
    (∀ file st2 summary successful failed,
      postUsersImport lib actor envs st file = (st2, .created summary successful failed) →
      summary.total = summary.successful + summary.failed ∧
      summary.successful = successful.length ∧ summary.failed = failed.length ∧
      ∃ users, file = some (.ok users) ∧ summary.total = users.length) ∧
    (∀ users : List (Option ImportRecord), (∀ u ∈ users, u ≠ none) →
      ∃ st2 summary successful failed,
        postUsersImport lib actor envs st (some (.ok users))
          = (st2, .created summary successful failed)) := by
  refine ⟨fun userData env => importRecord_one lib actor st userData env, ?_, ?_⟩
  · intro file st2 summary successful failed h
    unfold postUsersImport at h
    cases file with
    | none => simp at h
    | some f =>
      cases f with
      | error e => simp at h
      | ok users =>
        simp only at h
        cases ht : (importUsers lib actor envs 0 st users).thrown with
        | some e => rw [ht] at h; simp at h
        | none =>
          rw [ht] at h
          simp only [Prod.mk.injEq, ImportResponse.created.injEq] at h
          obtain ⟨_, hs, hsucc, hfail⟩ := h
          have hc := importUsers_count lib actor envs users 0 st ht
          subst hs hsucc hfail
          exact ⟨by simp only; omega, rfl, rfl, users, rfl, rfl⟩
  · intro users hobj
    have ht := importUsers_objects lib actor envs users hobj 0 st
    unfold postUsersImport
    simp only [ht]
    exact ⟨_, _, _, _, rfl⟩

/-- C29 (witness): the demo file of four records is answered with one success
and three failures. -/
theorem import_accounts_for_every_record_witness :
    (postUsersImport demoLib demoClaims (fun _ => demoImportEnv "U2") demoStore
        (some (.ok demoImport))).2 =
      .created ⟨4, 1, 3⟩ [⟨.str "U2", .str "bea@x", .str "manager"⟩]
        [⟨.str "cy@x", "Missing required fields (email, password, or role)"⟩,
         ⟨.str "di@x", "Invalid role"⟩, ⟨.str "ann@x", "User already exists"⟩] ∧
    (4 : Nat) = 1 + 3 :=
  ⟨by decide,
   ((import_accounts_for_every_record demoLib demoClaims (fun _ => demoImportEnv "U2")
      demoStore).2.1 (some (.ok demoImport)) _ ⟨4, 1, 3⟩ _ _ rfl).1⟩
/-! ## The row range of `GET /customers` -/

theorem digitValue_digitChar (d : Nat) (h : d < 10) : digitValue (Nat.digitChar d) = some d := by
  interval_cases d <;> rfl

theorem digitsValue_toDigitsCore (fuel : Nat) :
    ∀ (n : Nat) (ds : List Char), n < fuel →
      digitsValue (Nat.toDigitsCore 10 fuel n ds) 0 = digitsValue ds n := by
  induction fuel with
  | zero => intro n ds h; omega
  | succ fuel ih =>
    intro n ds h
    rw [Nat.toDigitsCore]
    have hd := digitValue_digitChar (n % 10) (Nat.mod_lt _ (by decide))
    split
    · rename_i h0
      have hn : n % 10 = n := by omega
      rw [hn] at hd
      simp only [digitsValue, hd, Nat.zero_mul, Nat.zero_add, hn]
    · rename_i h0
      rw [ih (n / 10) _ (by omega)]
      simp only [digitsValue, hd]
      congr 1
      omega

theorem digitsValue_toDigits (n : Nat) (cs : List Char) :
    digitsValue (Nat.toDigits 10 n ++ cs) 0 = digitsValue cs n := by
  have h : ∀ (fuel m : Nat) (ds : List Char),
      Nat.toDigitsCore 10 fuel m ds ++ cs = Nat.toDigitsCore 10 fuel m (ds ++ cs) := by
    intro fuel
    induction fuel with
    | zero => intro m ds; rfl
    | succ fuel ih =>
      intro m ds
      rw [Nat.toDigitsCore, Nat.toDigitsCore]
      split
      · rfl
      · rw [ih]; rfl
  unfold Nat.toDigits
  rw [h, List.nil_append]
  exact digitsValue_toDigitsCore (n + 1) n cs (by omega)

theorem digitsValue_shift (cs : List Char) :
    ∀ acc : Nat, digitsValue cs acc = (digitsValue cs 0).map (fun v => acc * 10 ^ cs.length + v) := by
  induction cs with
  | nil => intro acc; simp [digitsValue]
  | cons c cs ih =>
    intro acc
    simp only [digitsValue]
    cases hd : digitValue c with
    | none => rfl
    | some d =>
      simp only
      rw [ih (acc * 10 + d), ih (0 * 10 + d)]
      cases digitsValue cs 0 with
      | none => rfl
      | some v =>
        simp only [Option.map_some', List.length_cons, Option.some.injEq]
        ring

theorem stringToNumber_digits (s : String) (n : Nat) (h : digitsValue s.data 0 = some n) :
    stringToNumber s = some (n : Int) := by
  unfold stringToNumber
  split
  · rename_i cs hs
    rw [hs] at h
    simp [digitsValue, digitValue] at h
  · rw [h]; rfl

theorem digits_length_pos (cs : List Char) (n : Nat) (h : digitsValue cs 0 = some n)
    (hn : 1 ≤ n) : 1 ≤ cs.length := by
  cases cs with
  | nil => simp [digitsValue] at h; omega
  | cons c cs => simp

/-- C28, as the code behaves: for a page `p ≥ 1` and a page size `q ≥ 1` that are
supplied in the query string, written in decimal digits, `from` is
`(p - 1) * q`, but `to` is the number written by the digits of `from` followed by
the digits of the page size, less one: `from + pageSize` concatenates, because
`pageSize` is a string.  The requested range therefore covers `pageSize` rows
only on the first page. -/
theorem range_concatenates_page_size (page pageSize : String) (p q : Nat)
    (hp : digitsValue page.data 0 = some p) (hq : digitsValue pageSize.data 0 = some q)
    (h1 : 1 ≤ p) (h2 : 1 ≤ q) :
    getCustomersRange (some page) (some pageSize) =
      (some (((p - 1) * q : Nat) : Int),
       some ((((p - 1) * q * 10 ^ pageSize.length + q : Nat) : Int) - 1)) ∧
    (((((p - 1) * q * 10 ^ pageSize.length + q : Nat) : Int) - 1) - (((p - 1) * q : Nat) : Int) + 1
      = (q : Int) ↔ p = 1) := by
  have hps := stringToNumber_digits page p hp
  have hqs := stringToNumber_digits pageSize q hq
  constructor
  · have hfrom : jsMul (jsSub (.str page) (.num 1)) (.str pageSize)
        = some (((p - 1) * q : Nat) : Int) := by
      simp only [jsMul, jsSub, Val.toNumber, hps, hqs, Option.some.injEq]
      push_cast [h1]
      ring
    have hcat : digitsValue (toString (((p - 1) * q : Nat) : Int) ++ pageSize).data 0
        = some ((p - 1) * q * 10 ^ pageSize.length + q) := by
      have e : (toString (((p - 1) * q : Nat) : Int) ++ pageSize).data
          = Nat.toDigits 10 ((p - 1) * q) ++ pageSize.data := by
        rw [String.data_append]; rfl
      rw [e, digitsValue_toDigits, digitsValue_shift, hq]
      rfl
    have hto := stringToNumber_digits _ _ hcat
    unfold getCustomersRange
    simp only [queryParam]
    rw [hfrom]
    simp only [jsAdd, jsPred, numberToString, jsSub, Val.toNumber, hto]
  · have hl : 1 ≤ pageSize.length := digits_length_pos pageSize.data q hq h2
    have h10 : 10 ≤ 10 ^ pageSize.length := by
      calc 10 = 10 ^ 1 := by norm_num
        _ ≤ 10 ^ pageSize.length := Nat.pow_le_pow_right (by norm_num) hl
    constructor
    · intro h
      by_contra hne
      have hp2 : 1 ≤ p - 1 := by omega
      have hm : 1 ≤ (p - 1) * q := Nat.mul_le_mul hp2 h2
      have hbig : (p - 1) * q * 10 ≤ (p - 1) * q * 10 ^ pageSize.length :=
        Nat.mul_le_mul_left _ h10
      have : (((p - 1) * q * 10 ^ pageSize.length + q : Nat) : Int)
          = (((p - 1) * q : Nat) : Int) + q := by linarith
      have h3 : (p - 1) * q * 10 ^ pageSize.length + q = (p - 1) * q + q := by exact_mod_cast this
      omega
    · intro h
      subst h
      simp

/-- C28 (witness): the second page of ten, requested as `page=2&pageSize=10`,
asks for the rows 10 to 1009; the first page asks for the rows 0 to 9, and so
does a request without parameters. -/
theorem range_concatenates_page_size_witness :
    getCustomersRange (some "2") (some "10") = (some 10, some 1009) ∧
    getCustomersRange (some "1") (some "10") = (some 0, some 9) ∧
    getCustomersRange none none = (some 0, some 9) ∧
    getCustomersRange (some "3") none = (some 20, some 29) :=
  ⟨(range_concatenates_page_size "2" "10" 2 10 (by decide) (by decide) (by decide)
      (by decide)).1,
   by decide, by decide, by decide⟩
/-! ## The record of a stage change -/

theorem updateDeal_one (db : Pipeline) (patch : DealPatch) (id : Val) (d : Deal)
    (h : db.deals.filter (fun d => d.id = id) = [d]) :
    db.updateDeal patch id none =
      (⟨db.deals.map (fun d => if d.id = id then patch.apply d else d), db.customer_activities⟩,
        ⟨some (patch.apply d), none⟩) := by
  unfold Pipeline.updateDeal
  simp [h]

/-- C26, as the code behaves: when the update of `PATCH /pipeline/deals/:id/stage`
(or of `PUT /pipeline/deals/:id` with a stage in the body) succeeds on the one
deal with that id, the deal gets the stage `t` of the request, and the
`deal_stage_changed` activity that is recorded carries `t` both as `new_stage`
and as `previous_stage`: the route reads `previous_stage` from the row that the
update returns, which is the row after the update.  The stage `s` the deal had
before is recorded nowhere. -/
theorem stage_change_records_new_stage_as_previous (db : Pipeline) (id t : Val) (now : Nat)
    (d : Deal) (hone : db.deals.filter (fun d => d.id = id) = [d]) (ht : t.truthy = true) :
    (patchDealStage db id t now none none).1.customer_activities =
      db.customer_activities ++
        [⟨d.customer_id, "deal_stage_changed", d.id, d.title, t, t⟩] ∧
    (∀ body : DealPatch, body.stage = some t →
      (putDeal db id body now none none).1.customer_activities =
        db.customer_activities ++
          [⟨body.customer_id.getD d.customer_id, "deal_stage_changed", d.id,
            body.title.getD d.title, t, t⟩]) ∧
    (∀ a ∈ (patchDealStage db id t now none none).1.customer_activities,
      a ∉ db.customer_activities → a.previous_stage = t ∧ a.new_stage = t) ∧
    (patchDealStage db id t now none none).1.deals =
      db.deals.map (fun x => if x.id = id then { x with stage := t, updated_at := now } else x) := by
  have hund : t ≠ .undefined := by
    intro h; rw [h] at ht; simp [Val.truthy] at ht
  have hp : patchDealStage db id t now none none =
      (⟨db.deals.map (fun x => if x.id = id then
            DealPatch.apply ⟨none, none, some t, none, none, none, some now⟩ x else x),
          db.customer_activities ++
            [⟨d.customer_id, "deal_stage_changed", d.id, d.title, t, t⟩]⟩,
        .deal (DealPatch.apply ⟨none, none, some t, none, none, none, some now⟩ d)) := by
    unfold patchDealStage
    simp only [sentValue, if_neg hund]
    rw [updateDeal_one db _ id d hone]
    simp [trackCustomerActivity, DealPatch.apply]
  refine ⟨?_, ?_, ?_, ?_⟩
  · rw [hp]
  · intro body hs
    unfold putDeal
    rw [updateDeal_one db _ id d hone]
    simp [trackCustomerActivity, DealPatch.apply, bodyValue, hs, ht]
  · intro a ha hnew
    rw [hp] at ha
    simp only [List.mem_append, List.mem_singleton] at ha
    rcases ha with ha | ha
    · exact absurd ha hnew
    · subst ha; exact ⟨rfl, rfl⟩
  · rw [hp]
    simp [DealPatch.apply]

/-- C26 (witness): the deal `D1` is in stage `lead`; moving it to `proposal`
records a change from `proposal` to `proposal`. -/
theorem stage_change_records_new_stage_as_previous_witness :
    (demoPipeline.deals.map (fun d => d.stage)) = [.str "lead"] ∧
    (patchDealStage demoPipeline (.str "D1") (.str "proposal") 2 none none).1.customer_activities =
      [⟨.str "C1", "deal_stage_changed", .str "D1", .str "Licences", .str "proposal",
        .str "proposal"⟩] :=
  ⟨rfl,
   (stage_change_records_new_stage_as_previous demoPipeline (.str "D1") (.str "proposal") 2
      ⟨.str "D1", .str "Licences", .str "C1", .str "lead", some 1200, .str "2025-03-01",
        .str "A1", 1⟩ (by decide) (by decide)).1⟩
/-! ## Rounding to double precision -/

theorem roundHalfEven_intCast (n : ℤ) : roundHalfEven (n : ℚ) = n := by
  unfold roundHalfEven
  simp

theorem floor_le_roundHalfEven (y : ℚ) : ⌊y⌋ ≤ roundHalfEven y := by
  unfold roundHalfEven
  split_ifs <;> omega

theorem roundHalfEven_le_floor_succ (y : ℚ) : roundHalfEven y ≤ ⌊y⌋ + 1 := by
  unfold roundHalfEven
  split_ifs <;> omega

theorem roundHalfEven_mono {x y : ℚ} (h : x ≤ y) : roundHalfEven x ≤ roundHalfEven y := by
  have hf : ⌊x⌋ ≤ ⌊y⌋ := Int.floor_mono h
  rcases lt_or_eq_of_le hf with hlt | heq
  · calc roundHalfEven x ≤ ⌊x⌋ + 1 := roundHalfEven_le_floor_succ x
      _ ≤ ⌊y⌋ := hlt
      _ ≤ roundHalfEven y := floor_le_roundHalfEven y
  · have hxy : x - ⌊x⌋ ≤ y - ⌊y⌋ := by rw [heq]; linarith
    unfold roundHalfEven
    rw [heq]
    rw [heq] at hxy
    split_ifs <;> first | omega | (exfalso; linarith)

theorem roundHalfEven_near (y : ℚ) (m : ℤ) (h : |y - m| < 1 / 2) : roundHalfEven y = m := by
  rw [abs_lt] at h
  obtain ⟨h1, h2⟩ := h
  by_cases hm : (m : ℚ) ≤ y
  · have hfl : ⌊y⌋ = m := by
      rw [Int.floor_eq_iff]
      constructor
      · exact hm
      · linarith
    unfold roundHalfEven
    rw [hfl, if_pos (by linarith)]
  · have hfl : ⌊y⌋ = m - 1 := by
      rw [Int.floor_eq_iff]
      push_cast
      constructor <;> linarith
    unfold roundHalfEven
    rw [hfl]
    push_cast
    rw [if_neg (by linarith), if_pos (by linarith)]
    ring

theorem roundHalfEven_tie (y : ℚ) (m : ℤ) (h : |y - m| = 1 / 2) (hm : m % 2 = 0) :
    roundHalfEven y = m := by
  rcases abs_eq (by norm_num : (0 : ℚ) ≤ 1 / 2) |>.1 h with h1 | h1
  · have hfl : ⌊y⌋ = m := by
      rw [Int.floor_eq_iff]
      constructor <;> linarith
    unfold roundHalfEven
    rw [hfl, if_neg (by linarith), if_neg (by linarith), if_pos hm]
  · have hfl : ⌊y⌋ = m - 1 := by
      rw [Int.floor_eq_iff]
      push_cast
      constructor <;> linarith
    unfold roundHalfEven
    rw [hfl]
    push_cast
    rw [if_neg (by linarith), if_neg (by linarith), if_neg (by omega)]
    ring

theorem two_zpow_pos (k : ℤ) : (0 : ℚ) < 2 ^ k := zpow_pos (by norm_num) k

theorem log_two_eq (x : ℚ) (k : ℤ) (hlo : (2 : ℚ) ^ k ≤ x) (hhi : x < 2 ^ (k + 1)) :
    Int.log 2 x = k := by
  have hx : 0 < x := lt_of_lt_of_le (two_zpow_pos k) hlo
  have h1 : k ≤ Int.log 2 x := by
    rw [← Int.zpow_le_iff_le_log (by norm_num) hx]
    simpa using hlo
  have h2 : Int.log 2 x < k + 1 := by
    rw [← Int.lt_zpow_iff_log_lt (by norm_num) hx]
    simpa using hhi
  omega

/-- The double nearest to a number between `2 ^ (k + 52)` and `2 ^ (k + 53)`, with
`k` not below the least exponent: the number is rounded to a multiple of `2 ^ k`. -/
theorem fl_eval (x : ℚ) (k : ℤ) (hk : -1074 ≤ k) (hlo : (2 : ℚ) ^ (k + 52) ≤ |x|)
    (hhi : |x| < 2 ^ (k + 53)) : fl x = (roundHalfEven (x / 2 ^ k) : ℚ) * 2 ^ k := by
  have hlog : Int.log 2 |x| = k + 52 := log_two_eq |x| (k + 52) hlo (by
    have : k + 52 + 1 = k + 53 := by ring
    rw [this]; exact hhi)
  have hx : x ≠ 0 := by
    intro h
    rw [h, abs_zero] at hlo
    exact absurd hlo (not_le.2 (two_zpow_pos _))
  have he : max (Int.log 2 |x| - 52) (-1074) = k := by
    rw [hlog]; omega
  unfold fl
  rw [if_neg hx, he]

theorem fl_zero : fl 0 = 0 := by
  unfold fl; simp

/-- A number with at most 53 significant bits above the least exponent is a
double: rounding returns it. -/
theorem fl_of_representable (m k : ℤ) (hm : |m| < 2 ^ 53) (hk : -1074 ≤ k) :
    fl ((m : ℚ) * 2 ^ k) = (m : ℚ) * 2 ^ k := by
  by_cases hm0 : m = 0
  · subst hm0; simp [fl_zero]
  have hx : (m : ℚ) * 2 ^ k ≠ 0 :=
    mul_ne_zero (by exact_mod_cast hm0) (ne_of_gt (two_zpow_pos k))
  have habs : |(m : ℚ) * 2 ^ k| = (|m| : ℤ) * 2 ^ k := by
    rw [abs_mul, abs_of_pos (two_zpow_pos k)]
    push_cast
    rfl
  have hlt : |(m : ℚ) * 2 ^ k| < 2 ^ (53 + k) := by
    rw [habs, zpow_add₀ (by norm_num : (2 : ℚ) ≠ 0)]
    apply mul_lt_mul_of_pos_right _ (two_zpow_pos k)
    have h53 : ((|m| : ℤ) : ℚ) < (2 : ℚ) ^ (53 : ℕ) := by exact_mod_cast hm
    rw [show (53 : ℤ) = ((53 : ℕ) : ℤ) by norm_num, zpow_natCast]
    exact h53
  have hlog : Int.log 2 |(m : ℚ) * 2 ^ k| < 53 + k := by
    rw [← Int.lt_zpow_iff_log_lt (by norm_num) (abs_pos.2 hx)]
    simpa using hlt
  have he : max (Int.log 2 |(m : ℚ) * 2 ^ k| - 52) (-1074) ≤ k := by omega
  obtain ⟨j, hj⟩ : ∃ j : ℕ, k = max (Int.log 2 |(m : ℚ) * 2 ^ k| - 52) (-1074) + j :=
    ⟨(k - max (Int.log 2 |(m : ℚ) * 2 ^ k| - 52) (-1074)).toNat, by omega⟩
  unfold fl
  rw [if_neg hx]
  generalize max (Int.log 2 |(m : ℚ) * 2 ^ k| - 52) (-1074) = e at hj he
  have hpow : (2 : ℚ) ^ k = 2 ^ e * 2 ^ j := by
    rw [hj, zpow_add₀ (by norm_num : (2 : ℚ) ≠ 0), zpow_natCast]
  have hdiv : (m : ℚ) * 2 ^ k / 2 ^ e = ((m * 2 ^ j : ℤ) : ℚ) := by
    rw [hpow]
    push_cast
    field_simp
    ring
  rw [hdiv, roundHalfEven_intCast, hpow]
  push_cast
  ring

theorem fl_natCast (n : ℕ) (h : n < 2 ^ 53) : fl (n : ℚ) = n := by
  have := fl_of_representable (n : ℤ) 0 (by
    rw [abs_of_nonneg (by positivity)]
    exact_mod_cast h) (by norm_num)
  simpa using this

theorem fl_nonneg {x : ℚ} (h : 0 ≤ x) : 0 ≤ fl x := by
  unfold fl
  split_ifs with h0
  · exact le_refl _
  · apply mul_nonneg _ (le_of_lt (two_zpow_pos _))
    have : roundHalfEven 0 ≤ roundHalfEven (x / 2 ^ max (Int.log 2 |x| - 52) (-1074)) :=
      roundHalfEven_mono (div_nonneg h (le_of_lt (two_zpow_pos _)))
    have h00 : roundHalfEven 0 = 0 := by
      have := roundHalfEven_intCast 0
      simpa using this
    rw [h00] at this
    exact_mod_cast this

/-- Rounding to double precision keeps the order of non-negative numbers. -/
theorem fl_mono_nonneg {x y : ℚ} (hx : 0 ≤ x) (h : x ≤ y) : fl x ≤ fl y := by
  rcases eq_or_lt_of_le hx with h0 | hpos
  · rw [← h0, fl_zero]; exact fl_nonneg (le_trans hx h)
  have hypos : 0 < y := lt_of_lt_of_le hpos h
  have hlog : Int.log 2 |x| ≤ Int.log 2 |y| := by
    rw [abs_of_pos hpos, abs_of_pos hypos]
    exact Int.log_mono_right hpos h
  have hxl : (2 : ℚ) ^ Int.log 2 |x| ≤ x := by
    have := Int.zpow_log_le_self (b := 2) (by norm_num) hpos
    rw [abs_of_pos hpos]; simpa using this
  have hxu : x < (2 : ℚ) ^ (Int.log 2 |x| + 1) := by
    have := Int.lt_zpow_succ_log_self (b := 2) (by norm_num) x
    rw [abs_of_pos hpos]; simpa using this
  have hyl : (2 : ℚ) ^ Int.log 2 |y| ≤ y := by
    have := Int.zpow_log_le_self (b := 2) (by norm_num) hypos
    rw [abs_of_pos hypos]; simpa using this
  unfold fl
  rw [if_neg (ne_of_gt hpos), if_neg (ne_of_gt hypos)]
  generalize hex : max (Int.log 2 |x| - 52) (-1074) = ex
  generalize hey : max (Int.log 2 |y| - 52) (-1074) = ey
  have hle : ex ≤ ey := by omega
  rcases eq_or_lt_of_le hle with heq | hlt
  · rw [← heq]
    apply mul_le_mul_of_nonneg_right _ (le_of_lt (two_zpow_pos ex))
    have : roundHalfEven (x / 2 ^ ex) ≤ roundHalfEven (y / 2 ^ ex) :=
      roundHalfEven_mono (div_le_div_of_nonneg_right h (le_of_lt (two_zpow_pos ex)))
    exact_mod_cast this
  · have hey2 : ey = Int.log 2 |y| - 52 := by omega
    have hex2 : Int.log 2 |x| - 52 ≤ ex := by omega
    have h1 : (roundHalfEven (x / 2 ^ ex) : ℚ) ≤ 2 ^ (53 : ℕ) := by
      have hb : x / 2 ^ ex ≤ ((2 ^ 53 : ℤ) : ℚ) := by
        rw [div_le_iff₀ (two_zpow_pos ex)]
        have e1 : ((2 ^ 53 : ℤ) : ℚ) * 2 ^ ex = 2 ^ (53 + ex) := by
          rw [zpow_add₀ (by norm_num : (2 : ℚ) ≠ 0)]; norm_num
        rw [e1]
        apply le_trans (le_of_lt hxu)
        apply zpow_le_zpow_right₀ (by norm_num)
        omega
      have := roundHalfEven_mono hb
      rw [roundHalfEven_intCast] at this
      exact_mod_cast this
    have h2 : (2 : ℚ) ^ (52 : ℕ) ≤ (roundHalfEven (y / 2 ^ ey) : ℚ) := by
      have hb : ((2 ^ 52 : ℤ) : ℚ) ≤ y / 2 ^ ey := by
        rw [le_div_iff₀ (two_zpow_pos ey)]
        have e1 : ((2 ^ 52 : ℤ) : ℚ) * 2 ^ ey = 2 ^ (52 + ey) := by
          rw [zpow_add₀ (by norm_num : (2 : ℚ) ≠ 0)]; norm_num
        rw [e1]
        apply le_trans _ hyl
        apply zpow_le_zpow_right₀ (by norm_num)
        omega
      have := roundHalfEven_mono hb
      rw [roundHalfEven_intCast] at this
      exact_mod_cast this
    calc (roundHalfEven (x / 2 ^ ex) : ℚ) * 2 ^ ex ≤ 2 ^ (53 : ℕ) * 2 ^ ex :=
          mul_le_mul_of_nonneg_right h1 (le_of_lt (two_zpow_pos ex))
      _ = 2 ^ (53 + ex) := by
          rw [zpow_add₀ (by norm_num : (2 : ℚ) ≠ 0)]; norm_num
      _ ≤ 2 ^ (52 + ey) := zpow_le_zpow_right₀ (by norm_num) (by omega)
      _ = 2 ^ (52 : ℕ) * 2 ^ ey := by
          rw [zpow_add₀ (by norm_num : (2 : ℚ) ≠ 0)]; norm_num
      _ ≤ (roundHalfEven (y / 2 ^ ey) : ℚ) * 2 ^ ey :=
          mul_le_mul_of_nonneg_right h2 (le_of_lt (two_zpow_pos ey))

theorem fl_eval_pos (x : ℚ) (k : ℤ) (hk : -1074 ≤ k) (hlo : (2 : ℚ) ^ (k + 52) ≤ x)
    (hhi : x < 2 ^ (k + 53)) : fl x = (roundHalfEven (x / 2 ^ k) : ℚ) * 2 ^ k := by
  have hx : 0 < x := lt_of_lt_of_le (two_zpow_pos _) hlo
  exact fl_eval x k hk (by rw [abs_of_pos hx]; exact hlo) (by rw [abs_of_pos hx]; exact hhi)

theorem roundHalfEven_between (y : ℚ) (m : ℤ) (h1 : (m : ℚ) - 1 / 2 < y)
    (h2 : y < (m : ℚ) + 1 / 2) : roundHalfEven y = m :=
  roundHalfEven_near y m (by rw [abs_lt]; constructor <;> linarith)

theorem roundHalfEven_half_below (y : ℚ) (m : ℤ) (h : y = (m : ℚ) - 1 / 2) (hm : m % 2 = 0) :
    roundHalfEven y = m :=
  roundHalfEven_tie y m (by rw [h]; norm_num) hm

theorem roundHalfEven_half_above (y : ℚ) (m : ℤ) (h : y = (m : ℚ) + 1 / 2) (hm : m % 2 = 0) :
    roundHalfEven y = m :=
  roundHalfEven_tie y m (by rw [h]; norm_num) hm
/-! ## The forecast -/

theorem sumCounts_bump (rnd : ℚ → ℚ) (key : String) (w : Option ℚ)
    (t : List (String × Bucket)) : sumCounts (bump rnd key w t) = sumCounts t + 1 := by
  induction t with
  | nil => simp [bump, sumCounts]
  | cons e rest ih =>
    obtain ⟨k, b⟩ := e
    unfold bump
    split
    · simp [sumCounts]; omega
    · simp only [sumCounts, List.map_cons, List.sum_cons] at ih ⊢
      omega

theorem addNum_id_zero (w : Option ℚ) : addNum id (some 0) w = w := by
  cases w <;> simp [addNum]

theorem addNum_id_assoc (a b c : Option ℚ) :
    addNum id (addNum id a b) c = addNum id a (addNum id b c) := by
  cases a <;> cases b <;> cases c <;> simp [addNum, add_assoc]

theorem addNum_id_comm (a b : Option ℚ) : addNum id a b = addNum id b a := by
  cases a <;> cases b <;> simp [addNum, add_comm]

theorem foldl_addNum_shift (w : Option ℚ) (t : List (String × Bucket)) :
    ∀ a : Option ℚ,
      t.foldl (fun acc e => addNum id acc e.2.weighted_value) (addNum id a w) =
        addNum id (t.foldl (fun acc e => addNum id acc e.2.weighted_value) a) w := by
  induction t with
  | nil => intro a; rfl
  | cons e rest ih =>
    intro a
    simp only [List.foldl_cons]
    rw [← ih (addNum id a e.2.weighted_value)]
    congr 1
    rw [addNum_id_assoc, addNum_id_comm w, ← addNum_id_assoc]

theorem foldl_addNum_bump (key : String) (w : Option ℚ) (t : List (String × Bucket)) :
    ∀ a : Option ℚ,
      (bump id key w t).foldl (fun acc e => addNum id acc e.2.weighted_value) a =
        addNum id (t.foldl (fun acc e => addNum id acc e.2.weighted_value) a) w := by
  induction t with
  | nil =>
    intro a
    simp [bump, addNum_id_zero]
  | cons e rest ih =>
    intro a
    obtain ⟨k, b⟩ := e
    unfold bump
    split
    · simp only [List.foldl_cons]
      rw [← addNum_id_assoc]
      exact foldl_addNum_shift w rest _
    · simp only [List.foldl_cons]
      exact ih _

theorem sumWeighted_bump (key : String) (w : Option ℚ) (t : List (String × Bucket)) :
    sumWeighted id (bump id key w t) = addNum id (sumWeighted id t) w :=
  foldl_addNum_bump key w t (some 0)

theorem weightedValue_defined (rnd : ℚ → ℚ) (d : Deal) (h : d.stage.toKey ∈ PIPELINE_STAGES) :
    weightedValue rnd d =
      some (rnd (valueOr0 rnd d * ((STAGE_PROBABILITIES rnd d.stage.toKey).getD 0))) := by
  unfold weightedValue
  have : ∃ p, STAGE_PROBABILITIES rnd d.stage.toKey = some p := by
    simp only [PIPELINE_STAGES, List.mem_cons, List.mem_singleton, List.not_mem_nil,
      or_false] at h
    rcases h with h | h | h | h | h | h | h <;> rw [h] <;> exact ⟨_, rfl⟩
  obtain ⟨p, hp⟩ := this
  rw [hp]
  rfl

/-- What the loop of the forecast does to a forecast built so far. -/
theorem forecastFrom_spec (rnd : ℚ → ℚ) (isoMonth : Val → Option String) (deals : List Deal)
    (hdate : ∀ d ∈ deals, isoMonth d.expected_close_date ≠ none) :
    ∀ f0 : Forecast, ∃ f, forecastFrom rnd isoMonth f0 deals = .ok f ∧
      f.total_weighted_value =
        deals.foldl (fun acc d => addNum rnd acc (weightedValue rnd d)) f0.total_weighted_value ∧
      sumCounts f.by_stage = sumCounts f0.by_stage + deals.length ∧
      sumCounts f.by_month = sumCounts f0.by_month + deals.length := by
  induction deals with
  | nil => intro f0; exact ⟨f0, rfl, rfl, rfl, rfl⟩
  | cons d rest ih =>
    intro f0
    have hd := hdate d (List.mem_cons_self _ _)
    obtain ⟨month, hm⟩ := Option.ne_none_iff_exists'.1 hd
    obtain ⟨f, hf, h1, h2, h3⟩ := ih (fun x hx => hdate x (List.mem_cons_of_mem _ hx))
      ⟨addNum rnd f0.total_weighted_value (weightedValue rnd d),
        bump rnd month (weightedValue rnd d) f0.by_month,
        bump rnd d.stage.toKey (weightedValue rnd d) f0.by_stage⟩
    refine ⟨f, ?_, ?_, ?_, ?_⟩
    · simp only [forecastFrom, forecastDeal, hm]
      exact hf
    · rw [h1]; rfl
    · rw [h2, sumCounts_bump]; simp only [List.length_cons]; omega
    · rw [h3, sumCounts_bump]; simp only [List.length_cons]; omega

/-- In exact arithmetic the loop keeps the sums of the groups equal to the total. -/
theorem forecastFrom_exact (isoMonth : Val → Option String) (deals : List Deal) :
    ∀ f0 f : Forecast, forecastFrom id isoMonth f0 deals = .ok f →
      sumWeighted id f0.by_stage = f0.total_weighted_value →
      sumWeighted id f0.by_month = f0.total_weighted_value →
      sumWeighted id f.by_stage = f.total_weighted_value ∧
      sumWeighted id f.by_month = f.total_weighted_value := by
  induction deals with
  | nil =>
    intro f0 f h h1 h2
    simp only [forecastFrom, Except.ok.injEq] at h
    subst h
    exact ⟨h1, h2⟩
  | cons d rest ih =>
    intro f0 f h h1 h2
    simp only [forecastFrom, forecastDeal] at h
    cases hm : isoMonth d.expected_close_date with
    | none => rw [hm] at h; simp at h
    | some month =>
      rw [hm] at h
      simp only at h
      refine ih _ f h ?_ ?_
      · simp only [sumWeighted_bump, h1]
      · simp only [sumWeighted_bump, h2]

theorem foldl_addNum_some (rnd : ℚ → ℚ) (w : Deal → ℚ) (deals : List Deal) :
    ∀ a : ℚ, deals.foldl (fun acc d => addNum rnd acc (some (w d))) (some a) =
      some (deals.foldl (fun acc d => rnd (acc + w d)) a) := by
  induction deals with
  | nil => intro a; rfl
  | cons d rest ih => intro a; simp only [List.foldl_cons, addNum]; exact ih _

theorem foldl_congr_mem {α β : Type} (f g : β → α → β) (l : List α)
    (h : ∀ b, ∀ a ∈ l, f b a = g b a) : ∀ b, l.foldl f b = l.foldl g b := by
  induction l with
  | nil => intro b; rfl
  | cons x xs ih =>
    intro b
    simp only [List.foldl_cons]
    rw [h b x (List.mem_cons_self _ _)]
    exact ih (fun b a ha => h b a (List.mem_cons_of_mem _ ha)) _

theorem foldl_add_eq_sum (w : Deal → ℚ) (deals : List Deal) :
    ∀ a : ℚ, deals.foldl (fun acc d => id (acc + w d)) a = a + (deals.map w).sum := by
  induction deals with
  | nil => intro a; simp
  | cons d rest ih =>
    intro a
    simp only [List.foldl_cons, List.map_cons, List.sum_cons, id]
    have := ih (a + w d)
    simp only [id] at this
    rw [this]; ring

/-- C22: the forecast groups and weights deals by stage.  For every list of deals
whose stage is a defined pipeline stage and whose expected close date is a valid
date, the route produces a forecast, in the arithmetic of the program and in
exact arithmetic alike, in which `total_weighted_value` is the sum, taken in the
order of the list, of `(value or 0) * STAGE_PROBABILITIES[stage]`, and in which
the counts of `by_stage` and those of `by_month` each add up to the number of
deals.  In exact arithmetic the `weighted_value` entries of `by_stage` add up to
`total_weighted_value`, and so do those of `by_month`. -/
theorem forecast_groups_and_weights (isoMonth : Val → Option String) (deals : List Deal)
    (hstage : ∀ d ∈ deals, d.stage.toKey ∈ PIPELINE_STAGES)
    (hdate : ∀ d ∈ deals, isoMonth d.expected_close_date ≠ none) :
    (∀ rnd : ℚ → ℚ, ∃ f, pipelineForecast rnd isoMonth deals = .ok f ∧
      f.total_weighted_value = some (deals.foldl (fun acc d =>
        rnd (acc + rnd (valueOr0 rnd d * ((STAGE_PROBABILITIES rnd d.stage.toKey).getD 0)))) 0) ∧
      sumCounts f.by_stage = deals.length ∧ sumCounts f.by_month = deals.length) ∧
    (∃ f, pipelineForecast id isoMonth deals = .ok f ∧
      f.total_weighted_value = some ((deals.map (fun d =>
        valueOr0 id d * ((STAGE_PROBABILITIES id d.stage.toKey).getD 0))).sum) ∧
      sumWeighted id f.by_stage = f.total_weighted_value ∧
      sumWeighted id f.by_month = f.total_weighted_value) := by
  have htotal : ∀ rnd : ℚ → ℚ,
      deals.foldl (fun acc d => addNum rnd acc (weightedValue rnd d)) (some 0) =
        some (deals.foldl (fun acc d =>
          rnd (acc + rnd (valueOr0 rnd d * ((STAGE_PROBABILITIES rnd d.stage.toKey).getD 0))))
          0) := by
    intro rnd
    rw [← foldl_addNum_some rnd (fun d =>
      rnd (valueOr0 rnd d * ((STAGE_PROBABILITIES rnd d.stage.toKey).getD 0))) deals 0]
    apply foldl_congr_mem
    intro b a ha
    rw [weightedValue_defined rnd a (hstage a ha)]
  constructor
  · intro rnd
    obtain ⟨f, hf, h1, h2, h3⟩ := forecastFrom_spec rnd isoMonth deals hdate ⟨some 0, [], []⟩
    refine ⟨f, hf, ?_, ?_, ?_⟩
    · rw [h1]; exact htotal rnd
    · rw [h2]; simp [sumCounts]
    · rw [h3]; simp [sumCounts]
  · obtain ⟨f, hf, h1, _, _⟩ := forecastFrom_spec id isoMonth deals hdate ⟨some 0, [], []⟩
    obtain ⟨h4, h5⟩ := forecastFrom_exact isoMonth deals ⟨some 0, [], []⟩ f hf rfl rfl
    refine ⟨f, hf, ?_, h4, h5⟩
    rw [h1]
    simp only at htotal ⊢
    rw [htotal id]
    congr 1
    have := foldl_add_eq_sum (fun d =>
      valueOr0 id d * ((STAGE_PROBABILITIES id d.stage.toKey).getD 0)) deals 0
    simp only [id, zero_add] at this ⊢
    exact this

/-! ## The forecast in double precision -/

theorem fl_one : fl 1 = 1 := by
  have := fl_natCast 1 (by norm_num)
  simpa using this

theorem fl_two : fl 2 = 2 := by
  have := fl_natCast 2 (by norm_num)
  simpa using this

/-- A fraction with a numerator of at most 53 bits over a power of two is a double. -/
theorem fl_dyadic (m : ℤ) (n : ℕ) (hm : |m| < 2 ^ 53) (hn : n ≤ 1074) :
    fl ((m : ℚ) / 2 ^ n) = (m : ℚ) / 2 ^ n := by
  have := fl_of_representable m (-(n : ℤ)) hm (by omega)
  rw [zpow_neg, zpow_natCast] at this
  exact this

/-- The literal `0.1`. -/
theorem fl_tenth : fl (1 / 10) = 3602879701896397 / 36028797018963968 := by
  rw [fl_eval_pos (1 / 10) (-56) (by norm_num) (by norm_num) (by norm_num),
    roundHalfEven_between _ 7205759403792794 (by norm_num) (by norm_num)]
  norm_num

/-- The literal `0.2`. -/
theorem fl_fifth : fl (2 / 10) = 3602879701896397 / 18014398509481984 := by
  rw [fl_eval_pos (2 / 10) (-55) (by norm_num) (by norm_num) (by norm_num),
    roundHalfEven_between _ 7205759403792794 (by norm_num) (by norm_num)]
  norm_num

/-- The product `1 * 0.1` is `0.1`. -/
theorem fl_one_tenth :
    fl (fl 1 * fl (1 / 10)) = 3602879701896397 / 36028797018963968 := by
  rw [fl_one, fl_tenth]
  have := fl_dyadic 3602879701896397 55 (by norm_num) (by norm_num)
  norm_num at this ⊢
  exact this

/-- The product `2 * 0.2` is `0.4`. -/
theorem fl_two_fifths :
    fl (fl 2 * fl (2 / 10)) = 3602879701896397 / 9007199254740992 := by
  rw [fl_two, fl_fifth]
  have := fl_dyadic 3602879701896397 53 (by norm_num) (by norm_num)
  norm_num at this ⊢
  exact this

/-- The sum `0 + 0.1` is `0.1`. -/
theorem fl_zero_add_tenth :
    fl (0 + 3602879701896397 / 36028797018963968) = 3602879701896397 / 36028797018963968 := by
  have := fl_dyadic 3602879701896397 55 (by norm_num) (by norm_num)
  norm_num at this ⊢
  exact this

/-- The sum `0 + 0.2` is `0.2`. -/
theorem fl_zero_add_fifth :
    fl (0 + 3602879701896397 / 18014398509481984) = 3602879701896397 / 18014398509481984 := by
  have := fl_dyadic 3602879701896397 54 (by norm_num) (by norm_num)
  norm_num at this ⊢
  exact this

/-- The sum `0 + 0.4` is `0.4`. -/
theorem fl_zero_add_two_fifths :
    fl (0 + 3602879701896397 / 9007199254740992) = 3602879701896397 / 9007199254740992 := by
  have := fl_dyadic 3602879701896397 53 (by norm_num) (by norm_num)
  norm_num at this ⊢
  exact this

/-- The sum `0.1 + 0.4` is `0.5`. -/
theorem fl_tenth_add_two_fifths :
    fl (3602879701896397 / 36028797018963968 + 3602879701896397 / 9007199254740992) = 1 / 2 := by
  rw [fl_eval_pos _ (-53) (by norm_num) (by norm_num) (by norm_num),
    roundHalfEven_between _ 4503599627370496 (by norm_num) (by norm_num)]
  norm_num

/-- The sum `0.5 + 0.1` is `0.6`. -/
theorem fl_half_add_tenth :
    fl (1 / 2 + 3602879701896397 / 36028797018963968) = 5404319552844595 / 9007199254740992 := by
  rw [fl_eval_pos _ (-53) (by norm_num) (by norm_num) (by norm_num),
    roundHalfEven_between _ 5404319552844595 (by norm_num) (by norm_num)]
  norm_num

/-- The sum `0.1 + 0.1` is `0.2`. -/
theorem fl_tenth_add_tenth :
    fl (3602879701896397 / 36028797018963968 + 3602879701896397 / 36028797018963968)
      = 3602879701896397 / 18014398509481984 := by
  have := fl_dyadic 3602879701896397 54 (by norm_num) (by norm_num)
  norm_num at this ⊢
  exact this

/-- The sum `0.2 + 0.4` is `0.6000000000000001`: the exact sum lies halfway between two
doubles and goes to the even one. -/
theorem fl_fifth_add_two_fifths :
    fl (3602879701896397 / 18014398509481984 + 3602879701896397 / 9007199254740992)
      = 1351079888211149 / 2251799813685248 := by
  rw [fl_eval_pos _ (-53) (by norm_num) (by norm_num) (by norm_num),
    roundHalfEven_half_below _ 5404319552844596 (by norm_num) (by norm_num)]
  norm_num

/-- C22 (counterexample): in the arithmetic of the program the entries of
`by_stage` need not add up to the total.  For two leads of value 1 with a
`contact_made` deal of value 2 between them, all closing in March 2025, the
forecast has `total_weighted_value` 0.6 (`0.1 + 0.4 + 0.1`), the same for the one
month, and the stages `lead` with 0.2 and `contact_made` with 0.4; these two add up
to 0.6000000000000001, as doubles and as exact numbers no less. -/
theorem forecast_stage_sums_differ_from_total :
    pipelineForecast fl demoMonth demoDeals =
      .ok ⟨some (5404319552844595 / 9007199254740992),
        [("2025-03", ⟨3, some (5404319552844595 / 9007199254740992)⟩)],
        [("lead", ⟨2, some (3602879701896397 / 18014398509481984)⟩),
         ("contact_made", ⟨1, some (3602879701896397 / 9007199254740992)⟩)]⟩ ∧
    sumWeighted fl
        [("lead", ⟨2, some (3602879701896397 / 18014398509481984)⟩),
         ("contact_made", ⟨1, some (3602879701896397 / 9007199254740992)⟩)]
      = some (1351079888211149 / 2251799813685248) ∧
    (1351079888211149 / 2251799813685248 : ℚ) ≠ 5404319552844595 / 9007199254740992 ∧
    (3602879701896397 / 18014398509481984 + 3602879701896397 / 9007199254740992 : ℚ)
      ≠ 5404319552844595 / 9007199254740992 := by
  refine ⟨?_, ?_, by norm_num, by norm_num⟩
  · have hw1 : weightedValue fl
        ⟨.str "D1", .str "Licences", .str "C1", .str "lead", some 1, .str "2025-03-01",
          .str "A1", 1⟩ = some (3602879701896397 / 36028797018963968) := by
      rw [← fl_one_tenth]; rfl
    have hw2 : weightedValue fl
        ⟨.str "D2", .str "Support", .str "C1", .str "contact_made", some 2, .str "2025-03-09",
          .str "A1", 1⟩ = some (3602879701896397 / 9007199254740992) := by
      rw [← fl_two_fifths]; rfl
    have hw3 : weightedValue fl
        ⟨.str "D3", .str "Training", .str "C1", .str "lead", some 1, .str "2025-03-20",
          .str "A1", 1⟩ = some (3602879701896397 / 36028797018963968) := by
      rw [← fl_one_tenth]; rfl
    have hm1 : demoMonth (.str "2025-03-01") = some "2025-03" := by decide
    have hm2 : demoMonth (.str "2025-03-09") = some "2025-03" := by decide
    have hm3 : demoMonth (.str "2025-03-20") = some "2025-03" := by decide
    simp only [pipelineForecast, demoDeals, forecastFrom, forecastDeal, hw1, hw2, hw3, hm1, hm2,
      hm3, addNum, bump, if_true, if_false, fl_zero_add_tenth, fl_tenth_add_two_fifths,
      fl_half_add_tenth, fl_zero_add_two_fifths, fl_tenth_add_tenth]
    rfl
  · simp only [sumWeighted, List.foldl_cons, List.foldl_nil, addNum, fl_zero_add_fifth,
      fl_fifth_add_two_fifths]

/-- C22 (witness): the three demo deals have defined stages and valid dates; in
exact arithmetic their forecast has the total 0.6 and groups that add up to it. -/
theorem forecast_groups_and_weights_witness :
    (∀ d ∈ demoDeals, d.stage.toKey ∈ PIPELINE_STAGES) ∧
    (∀ d ∈ demoDeals, demoMonth d.expected_close_date ≠ none) ∧
    (∃ f, pipelineForecast fl demoMonth demoDeals = .ok f ∧
      sumCounts f.by_stage = 3 ∧ sumCounts f.by_month = 3) ∧
    (∃ f, pipelineForecast id demoMonth demoDeals = .ok f ∧
      sumWeighted id f.by_stage = f.total_weighted_value ∧
      sumWeighted id f.by_month = f.total_weighted_value) :=
  have h := forecast_groups_and_weights demoMonth demoDeals (by decide) (by decide)
  ⟨by decide, by decide,
   (h.1 fl).elim (fun f hf => ⟨f, hf.1, hf.2.2.1, hf.2.2.2⟩),
   h.2.elim (fun f hf => ⟨f, hf.1, hf.2.2.1, hf.2.2.2⟩)⟩
/-! ## The statistics -/

theorem sumValues_exact (deals : List Deal) :
    sumValues id deals = (deals.map (valueOr0 id)).sum := by
  have := foldl_add_eq_sum (valueOr0 id) deals 0
  simp only [zero_add] at this
  exact this

theorem stage_counts_add_up (rnd : ℚ → ℚ) (deals : List Deal)
    (h : ∀ d ∈ deals, ∃ s ∈ PIPELINE_STAGES, d.stage = .str s) :
    ((pipelineStatistics rnd deals).by_stage.map (fun e => e.2.count)).sum = deals.length := by
  induction deals with
  | nil => simp [pipelineStatistics, PIPELINE_STAGES]
  | cons d rest ih =>
    have h2 := ih (fun x hx => h x (List.mem_cons_of_mem _ hx))
    obtain ⟨s, hs, hd⟩ := h d (List.mem_cons_self _ _)
    simp only [pipelineStatistics, PIPELINE_STAGES, List.map_cons, List.map_nil, List.sum_cons,
      List.sum_nil, List.filter_cons, hd, List.length_cons] at h2 ⊢
    simp only [PIPELINE_STAGES, List.mem_cons, List.mem_singleton, List.not_mem_nil,
      or_false] at hs
    rcases hs with rfl | rfl | rfl | rfl | rfl | rfl | rfl <;> simp <;> omega

theorem stage_values_add_up (deals : List Deal)
    (h : ∀ d ∈ deals, ∃ s ∈ PIPELINE_STAGES, d.stage = .str s) :
    ((pipelineStatistics id deals).by_stage.map (fun e => e.2.value)).sum
      = (pipelineStatistics id deals).total_value := by
  induction deals with
  | nil => simp [pipelineStatistics, PIPELINE_STAGES, sumValues]
  | cons d rest ih =>
    have h2 := ih (fun x hx => h x (List.mem_cons_of_mem _ hx))
    obtain ⟨s, hs, hd⟩ := h d (List.mem_cons_self _ _)
    simp only [pipelineStatistics, PIPELINE_STAGES, List.map_cons, List.map_nil, List.sum_cons,
      List.sum_nil, List.filter_cons, hd, sumValues_exact] at h2 ⊢
    simp only [PIPELINE_STAGES, List.mem_cons, List.mem_singleton, List.not_mem_nil,
      or_false] at hs
    rcases hs with rfl | rfl | rfl | rfl | rfl | rfl | rfl <;> simp at h2 ⊢ <;> linarith

theorem won_le_all (deals : List Deal) :
    ((deals.filter (fun deal => deal.stage = .str "closed_won")).length : ℚ)
      ≤ (deals.length : ℚ) := by
  exact_mod_cast List.length_filter_le _ _

/-- The win rate lies between 0 and 100 in every arithmetic whose rounding keeps
the order of non-negative numbers and returns 0, 1 and 100 as they are. -/
theorem win_rate_bounds (rnd : ℚ → ℚ) (hmono : ∀ x y : ℚ, 0 ≤ x → x ≤ y → rnd x ≤ rnd y)
    (h0 : rnd 0 = 0) (h1 : rnd 1 = 1) (h100 : rnd 100 = 100) (deals : List Deal) :
    0 ≤ (pipelineStatistics rnd deals).win_rate ∧ (pipelineStatistics rnd deals).win_rate ≤ 100 := by
  simp only [pipelineStatistics]
  split_ifs with hn
  · have hpos : (0 : ℚ) < (deals.length : ℚ) := by
      have : 0 < deals.length := Nat.pos_of_ne_zero hn
      exact_mod_cast this
    have hq0 : (0 : ℚ) ≤ ((deals.filter (fun deal => deal.stage = .str "closed_won")).length : ℚ)
        / (deals.length : ℚ) := div_nonneg (by positivity) (le_of_lt hpos)
    have hq1 : ((deals.filter (fun deal => deal.stage = .str "closed_won")).length : ℚ)
        / (deals.length : ℚ) ≤ 1 := by
      rw [div_le_one hpos]; exact won_le_all deals
    have hr0 : 0 ≤ rnd (((deals.filter (fun deal => deal.stage = .str "closed_won")).length : ℚ)
        / (deals.length : ℚ)) := by
      have := hmono 0 _ (le_refl 0) hq0
      rwa [h0] at this
    have hr1 : rnd (((deals.filter (fun deal => deal.stage = .str "closed_won")).length : ℚ)
        / (deals.length : ℚ)) ≤ 1 := by
      have := hmono _ 1 hq0 hq1
      rwa [h1] at this
    constructor
    · have := hmono 0 _ (le_refl 0) (mul_nonneg hr0 (by norm_num : (0 : ℚ) ≤ 100))
      rwa [h0] at this
    · have := hmono _ 100 (mul_nonneg hr0 (by norm_num : (0 : ℚ) ≤ 100))
        (by linarith : rnd (((deals.filter (fun deal => deal.stage = .str "closed_won")).length : ℚ)
          / (deals.length : ℚ)) * 100 ≤ 100)
      rwa [h100] at this
  · exact ⟨le_refl 0, by norm_num⟩

theorem fl_hundred : fl 100 = 100 := by
  have := fl_natCast 100 (by norm_num)
  simpa using this

/-- The literal `2.2`. -/
theorem fl_2_2 : fl (22 / 10) = 2476979795053773 / 1125899906842624 := by
  rw [fl_eval_pos (22 / 10) (-51) (by norm_num) (by norm_num) (by norm_num),
    roundHalfEven_between _ 4953959590107546 (by norm_num) (by norm_num)]
  norm_num

/-- The sum `0.1 + 0.2` is `0.30000000000000004`. -/
theorem fl_tenth_add_fifth :
    fl (3602879701896397 / 36028797018963968 + 3602879701896397 / 18014398509481984)
      = 1351079888211149 / 4503599627370496 := by
  rw [fl_eval_pos _ (-54) (by norm_num) (by norm_num) (by norm_num),
    roundHalfEven_half_below _ 5404319552844596 (by norm_num) (by norm_num)]
  norm_num

/-- The sum `0.30000000000000004 + 2.2` is `2.5`. -/
theorem fl_sum_cents :
    fl (1351079888211149 / 4503599627370496 + 2476979795053773 / 1125899906842624) = 5 / 2 := by
  rw [fl_eval_pos _ (-51) (by norm_num) (by norm_num) (by norm_num),
    roundHalfEven_half_above _ 5629499534213120 (by norm_num) (by norm_num)]
  norm_num

/-- The sum `0.1 + 2.2` is `2.3000000000000003`. -/
theorem fl_tenth_add_2_2 :
    fl (3602879701896397 / 36028797018963968 + 2476979795053773 / 1125899906842624)
      = 5179139571476071 / 2251799813685248 := by
  rw [fl_eval_pos _ (-51) (by norm_num) (by norm_num) (by norm_num),
    roundHalfEven_between _ 5179139571476071 (by norm_num) (by norm_num)]
  norm_num

/-- The sum `2.3000000000000003 + 0.2` is `2.5000000000000004`. -/
theorem fl_stage_cents :
    fl (5179139571476071 / 2251799813685248 + 3602879701896397 / 18014398509481984)
      = 5629499534213121 / 2251799813685248 := by
  rw [fl_eval_pos _ (-51) (by norm_num) (by norm_num) (by norm_num),
    roundHalfEven_between _ 5629499534213121 (by norm_num) (by norm_num)]
  norm_num

/-- The quotient `7 / 25` is `0.28`. -/
theorem fl_7_25 : fl (7 / 25) = 1261007895663739 / 4503599627370496 := by
  rw [fl_eval_pos (7 / 25) (-54) (by norm_num) (by norm_num) (by norm_num),
    roundHalfEven_between _ 5044031582654956 (by norm_num) (by norm_num)]
  norm_num

/-- The product `0.28 * 100` is `28.000000000000004`. -/
theorem fl_28 :
    fl (1261007895663739 / 4503599627370496 * 100) = 7881299347898369 / 281474976710656 := by
  rw [fl_eval_pos _ (-48) (by norm_num) (by norm_num) (by norm_num),
    roundHalfEven_between _ 7881299347898369 (by norm_num) (by norm_num)]
  norm_num

/-- C25 (counterexample): in the arithmetic of the program the win rate is not
`100 * won / total`, and the values of `by_stage` need not add up to
`total_value`.  With 7 of 25 deals won the win rate is `(7 / 25) * 100`, which is
28.000000000000004 and not 28.  For leads of 0.10 and 2.20 with a `contact_made`
deal of 0.20 between them, `total_value` is 2.5 (`0.1 + 0.2 + 2.2`), while the
stages hold 2.3000000000000003 (`lead`) and 0.2 (`contact_made`), which add up to
2.5000000000000004 as doubles and to more than 2.5 as exact numbers. -/
theorem win_rate_and_stage_values_are_rounded :
    (pipelineStatistics fl demoQuarter).total_deals = 25 ∧
    (pipelineStatistics fl demoQuarter).win_rate = 7881299347898369 / 281474976710656 ∧
    (7881299347898369 / 281474976710656 : ℚ) ≠ 100 * 7 / 25 ∧
    (pipelineStatistics fl demoCents).total_value = 5 / 2 ∧
    (pipelineStatistics fl demoCents).by_stage =
      [("lead", ⟨2, 5179139571476071 / 2251799813685248⟩),
       ("contact_made", ⟨1, 3602879701896397 / 18014398509481984⟩),
       ("needs_analysis", ⟨0, 0⟩), ("proposal", ⟨0, 0⟩), ("negotiation", ⟨0, 0⟩),
       ("closed_won", ⟨0, 0⟩), ("closed_lost", ⟨0, 0⟩)] ∧
    fl (5179139571476071 / 2251799813685248 + 3602879701896397 / 18014398509481984) ≠ 5 / 2 ∧
    (5179139571476071 / 2251799813685248 + 3602879701896397 / 18014398509481984 : ℚ) ≠ 5 / 2 := by
  refine ⟨rfl, ?_, by norm_num, ?_, ?_, ?_, by norm_num⟩
  · have h : (pipelineStatistics fl demoQuarter).win_rate = fl (fl ((7 : ℕ) / (25 : ℕ)) * 100) := rfl
    rw [h]
    norm_num only [Nat.cast_ofNat]
    rw [fl_7_25, fl_28]
  · have h : (pipelineStatistics fl demoCents).total_value =
        fl (fl (fl (0 + fl (1 / 10)) + fl (2 / 10)) + fl (22 / 10)) := rfl
    rw [h, fl_tenth, fl_fifth, fl_2_2, fl_zero_add_tenth, fl_tenth_add_fifth, fl_sum_cents]
  · have h : (pipelineStatistics fl demoCents).by_stage =
        [("lead", ⟨2, fl (fl (0 + fl (1 / 10)) + fl (22 / 10))⟩),
         ("contact_made", ⟨1, fl (0 + fl (2 / 10))⟩),
         ("needs_analysis", ⟨0, 0⟩), ("proposal", ⟨0, 0⟩), ("negotiation", ⟨0, 0⟩),
         ("closed_won", ⟨0, 0⟩), ("closed_lost", ⟨0, 0⟩)] := rfl
    rw [h, fl_tenth, fl_fifth, fl_2_2, fl_zero_add_tenth, fl_zero_add_fifth, fl_tenth_add_2_2]
  · rw [fl_stage_cents]; norm_num

/-- C25: the deal statistics aggregate by stage.  In the arithmetic of the program
and in exact arithmetic alike, for every list of deals: `total_deals` is the
number of deals; `total_value` is the sum of `value or 0` taken in the order of
the list; `by_stage` has one entry for each of the seven pipeline stages, in their
order, with the number of the deals in that stage and the sum of their values;
`win_rate` is 0 for an empty list and `(won / total_deals) * 100` otherwise; and
when every deal's stage is a defined pipeline stage the counts of `by_stage` add
up to `total_deals`.  The win rate of the program lies between 0 and 100.  In
exact arithmetic `total_value` is the sum of the values, the win rate is
`100 * won / total_deals`, between 0 and 100, and when every deal's stage is
defined the values of `by_stage` add up to `total_value`. -/
theorem statistics_aggregate_by_stage (deals : List Deal) :
    (∀ rnd : ℚ → ℚ,
      (pipelineStatistics rnd deals).total_deals = deals.length ∧
      (pipelineStatistics rnd deals).total_value
        = deals.foldl (fun sum deal => rnd (sum + valueOr0 rnd deal)) 0 ∧
      (pipelineStatistics rnd deals).by_stage.map Prod.fst = PIPELINE_STAGES ∧
      (∀ stage ∈ PIPELINE_STAGES,
        (stage, (⟨(deals.filter (fun deal => deal.stage = .str stage)).length,
          (deals.filter (fun deal => deal.stage = .str stage)).foldl
            (fun sum deal => rnd (sum + valueOr0 rnd deal)) 0⟩ : StageStatistics))
          ∈ (pipelineStatistics rnd deals).by_stage) ∧
      (deals = [] → (pipelineStatistics rnd deals).win_rate = 0) ∧
      (deals ≠ [] → (pipelineStatistics rnd deals).win_rate =
        rnd (rnd (((deals.filter (fun deal => deal.stage = .str "closed_won")).length : ℚ)
          / (deals.length : ℚ)) * 100)) ∧
      ((∀ d ∈ deals, ∃ s ∈ PIPELINE_STAGES, d.stage = .str s) →
        ((pipelineStatistics rnd deals).by_stage.map (fun e => e.2.count)).sum
          = (pipelineStatistics rnd deals).total_deals)) ∧
    (0 ≤ (pipelineStatistics fl deals).win_rate ∧ (pipelineStatistics fl deals).win_rate ≤ 100) ∧
    ((pipelineStatistics id deals).total_value = (deals.map (valueOr0 id)).sum ∧
      (deals ≠ [] → (pipelineStatistics id deals).win_rate =
        100 * ((deals.filter (fun deal => deal.stage = .str "closed_won")).length : ℚ)
          / (deals.length : ℚ)) ∧
      0 ≤ (pipelineStatistics id deals).win_rate ∧ (pipelineStatistics id deals).win_rate ≤ 100 ∧
      ((∀ d ∈ deals, ∃ s ∈ PIPELINE_STAGES, d.stage = .str s) →
        ((pipelineStatistics id deals).by_stage.map (fun e => e.2.value)).sum
          = (pipelineStatistics id deals).total_value)) := by
  have hne : deals ≠ [] → deals.length ≠ 0 := fun h hl => h (List.length_eq_zero.1 hl)
  refine ⟨?_, ?_, ?_⟩
  · intro rnd
    refine ⟨rfl, rfl, ?_, ?_, ?_, ?_, ?_⟩
    · simp [pipelineStatistics, Function.comp_def]
    · intro stage hs
      simp only [pipelineStatistics, List.mem_map]
      exact ⟨stage, hs, rfl⟩
    · intro h; subst h; rfl
    · intro h
      simp only [pipelineStatistics, if_pos (hne h)]
    · intro h
      exact stage_counts_add_up rnd deals h
  · exact win_rate_bounds fl (fun x y hx hxy => fl_mono_nonneg hx hxy) fl_zero fl_one
      fl_hundred deals
  · refine ⟨sumValues_exact deals, ?_, ?_, ?_, ?_⟩
    · intro h
      simp only [pipelineStatistics, if_pos (hne h), id]
      ring
    · exact (win_rate_bounds id (fun x y _ hxy => hxy) rfl rfl rfl deals).1
    · exact (win_rate_bounds id (fun x y _ hxy => hxy) rfl rfl rfl deals).2
    · intro h
      exact stage_values_add_up deals h

/-- C25 (witness): the statistics of the three demo deals in exact arithmetic: the
values of the stages add up to the total, and the counts to the number of deals. -/
theorem statistics_aggregate_by_stage_witness :
    (∀ d ∈ demoCents, ∃ s ∈ PIPELINE_STAGES, d.stage = .str s) ∧
    ((pipelineStatistics id demoCents).by_stage.map (fun e => e.2.value)).sum
      = (pipelineStatistics id demoCents).total_value ∧
    ((pipelineStatistics fl demoCents).by_stage.map (fun e => e.2.count)).sum
      = (pipelineStatistics fl demoCents).total_deals ∧
    (pipelineStatistics fl demoCents).total_deals = 3 :=
  ⟨by decide,
   (statistics_aggregate_by_stage demoCents).2.2.2.2.2.2 (by decide),
   ((statistics_aggregate_by_stage demoCents).1 fl).2.2.2.2.2.2 (by decide),
   rfl⟩

end CRM
